import Mathlib

/-!
# OpenGlBase: window input model and shader uniform cache

A shallow embedding of `Window` (Window/Window.h, Window/Window.cpp) and of
`ShaderProgram` (Shader/ShaderManager.h), followed by the properties proved
about them.

Conventions of the embedding:
* `f64` values (clock readings, cursor coordinates, scroll offsets) are exact
  rationals; rounding, infinities and NaN are outside the model.
* The windowing library is the environment: the callbacks it delivers while
  `glfwPollEvents` runs are a list of `Event`s given to `Tick`, and each clock
  reading (`glfwGetTime`) is an argument of the function that samples it.
* A call whose behaviour the C++ standard leaves undefined yields `none`.
-/

set_option linter.unusedVariables false

namespace Base

/-- Double-precision values of the source, taken as exact rationals. -/
abbrev f64 := ℚ

/-- Two-component integer vector (`glm::ivec2`). -/
structure ivec2 where
  x : Int
  y : Int
deriving DecidableEq, Repr

/-- Two-component double vector (`glm::dvec2`). -/
structure dvec2 where
  x : f64
  y : f64
deriving DecidableEq, Repr

/-- Component-wise difference of `dvec2` (glm `operator-`). -/
def dvec2.sub (a b : dvec2) : dvec2 := ⟨a.x - b.x, a.y - b.y⟩

instance : Sub dvec2 := ⟨dvec2.sub⟩

/-- Enumeration `MouseButtonCodes` of Window.h, enumerators in declaration order. -/
inductive MouseButtonCodes where
  | LeftButton | RightButton | MiddleWheel | Button4 | Button5 | Button6 | Button7
  | NumMouseButtonCodes
deriving DecidableEq, Repr

/-- Enumeration `KeyCodes` of Window.h, enumerators in declaration order. -/
inductive KeyCodes where
  | UnknownKey | HatCentered | HatUp | HatRight | HatDown | HatLeft | HatRightUp | HatRightDown
  | HatLeftUp | HatLeftDown | Space | Apostrophe | Comma | Minus | Period | Slash | Key0 | Key1
  | Key2 | Key3 | Key4 | Key5 | Key6 | Key7 | Key8 | Key9 | SemiColon | Equal | A | B | C | D
  | E | F | G | H | I | J | K | L | M | N | O | P | Q | R | S | T | U | V | W | X | Y | Z
  | LeftBracket | Backslash | RightBracket | GraveAccent | World1 | World2 | Escape | Enter
  | Tab | Backspace | Insert | Delete | Right | Left | Down | Up | PageUp | PageDown | Home
  | End | CapsLock | ScrollLock | NumLock | PrintScreen | Pause | F1 | F2 | F3 | F4 | F5 | F6
  | F7 | F8 | F9 | F10 | F11 | F12 | F13 | F14 | F15 | F16 | F17 | F18 | F19 | F20 | F21 | F22
  | F23 | F24 | F25 | KP0 | KP1 | KP2 | KP3 | KP4 | KP5 | KP6 | KP7 | KP8 | KP9 | KPDecimal
  | KPDivide | KPMultiply | KPSubtract | KPAdd | KPEnter | KPEqual | LeftShift | LeftControl
  | LeftAlt | LeftSuper | RightShift | RightControl | RightAlt | RightSuper | Menu
  | NumKeyCodes
deriving DecidableEq, Repr

/-! ## Native identifiers of the windowing library

Modelled from the public GLFW 3 header (`glfw3.h` is not among the sources): the
values of the identifiers that Window.cpp refers to by name. -/

/-- Modelled from the spec: the key action "release" of the windowing library (GLFW 3 value). -/
def GLFW_RELEASE : Int := 0
/-- Modelled from the spec: the key action "press" of the windowing library (GLFW 3 value). -/
def GLFW_PRESS : Int := 1
/-- Modelled from the spec: the key action "repeat" of the windowing library (GLFW 3 value). -/
def GLFW_REPEAT : Int := 2

/-- Modelled from the spec: native mouse button identifier (GLFW 3 value). -/
def GLFW_MOUSE_BUTTON_LEFT : Int := 0
/-- Modelled from the spec: native mouse button identifier (GLFW 3 value). -/
def GLFW_MOUSE_BUTTON_RIGHT : Int := 1
/-- Modelled from the spec: native mouse button identifier (GLFW 3 value). -/
def GLFW_MOUSE_BUTTON_MIDDLE : Int := 2
/-- Modelled from the spec: native mouse button identifier (GLFW 3 value). -/
def GLFW_MOUSE_BUTTON_4 : Int := 3
/-- Modelled from the spec: native mouse button identifier (GLFW 3 value). -/
def GLFW_MOUSE_BUTTON_5 : Int := 4
/-- Modelled from the spec: native mouse button identifier (GLFW 3 value). -/
def GLFW_MOUSE_BUTTON_6 : Int := 5
/-- Modelled from the spec: native mouse button identifier (GLFW 3 value). -/
def GLFW_MOUSE_BUTTON_7 : Int := 6
/-- Modelled from the spec: native mouse button identifier (GLFW 3 value). -/
def GLFW_MOUSE_BUTTON_8 : Int := 7

/-- Modelled from the spec: native key identifier (GLFW 3 value). -/
def GLFW_KEY_UNKNOWN : Int := -1
/-- Modelled from the spec: native key identifier (GLFW 3 value). -/
def GLFW_HAT_CENTERED : Int := 0
/-- Modelled from the spec: native key identifier (GLFW 3 value). -/
def GLFW_HAT_UP : Int := 1
/-- Modelled from the spec: native key identifier (GLFW 3 value). -/
def GLFW_HAT_RIGHT : Int := 2
/-- Modelled from the spec: native key identifier (GLFW 3 value). -/
def GLFW_HAT_DOWN : Int := 4
/-- Modelled from the spec: native key identifier (GLFW 3 value). -/
def GLFW_HAT_LEFT : Int := 8
/-- Modelled from the spec: native key identifier (GLFW 3 value). -/
def GLFW_HAT_RIGHT_UP : Int := 3
/-- Modelled from the spec: native key identifier (GLFW 3 value). -/
def GLFW_HAT_RIGHT_DOWN : Int := 6
/-- Modelled from the spec: native key identifier (GLFW 3 value). -/
def GLFW_HAT_LEFT_UP : Int := 9
/-- Modelled from the spec: native key identifier (GLFW 3 value). -/
def GLFW_HAT_LEFT_DOWN : Int := 12
/-- Modelled from the spec: native key identifier (GLFW 3 value). -/
def GLFW_KEY_SPACE : Int := 32
/-- Modelled from the spec: native key identifier (GLFW 3 value). -/
def GLFW_KEY_APOSTROPHE : Int := 39
/-- Modelled from the spec: native key identifier (GLFW 3 value). -/
def GLFW_KEY_COMMA : Int := 44
/-- Modelled from the spec: native key identifier (GLFW 3 value). -/
def GLFW_KEY_MINUS : Int := 45
/-- Modelled from the spec: native key identifier (GLFW 3 value). -/
def GLFW_KEY_PERIOD : Int := 46
/-- Modelled from the spec: native key identifier (GLFW 3 value). -/
def GLFW_KEY_SLASH : Int := 47
/-- Modelled from the spec: native key identifier (GLFW 3 value). -/
def GLFW_KEY_0 : Int := 48
/-- Modelled from the spec: native key identifier (GLFW 3 value). -/
def GLFW_KEY_1 : Int := 49
/-- Modelled from the spec: native key identifier (GLFW 3 value). -/
def GLFW_KEY_2 : Int := 50
/-- Modelled from the spec: native key identifier (GLFW 3 value). -/
def GLFW_KEY_3 : Int := 51
/-- Modelled from the spec: native key identifier (GLFW 3 value). -/
def GLFW_KEY_4 : Int := 52
/-- Modelled from the spec: native key identifier (GLFW 3 value). -/
def GLFW_KEY_5 : Int := 53
/-- Modelled from the spec: native key identifier (GLFW 3 value). -/
def GLFW_KEY_6 : Int := 54
/-- Modelled from the spec: native key identifier (GLFW 3 value). -/
def GLFW_KEY_7 : Int := 55
/-- Modelled from the spec: native key identifier (GLFW 3 value). -/
def GLFW_KEY_8 : Int := 56
/-- Modelled from the spec: native key identifier (GLFW 3 value). -/
def GLFW_KEY_9 : Int := 57
/-- Modelled from the spec: native key identifier (GLFW 3 value). -/
def GLFW_KEY_SEMICOLON : Int := 59
/-- Modelled from the spec: native key identifier (GLFW 3 value). -/
def GLFW_KEY_EQUAL : Int := 61
/-- Modelled from the spec: native key identifier (GLFW 3 value). -/
def GLFW_KEY_A : Int := 65
/-- Modelled from the spec: native key identifier (GLFW 3 value). -/
def GLFW_KEY_B : Int := 66
/-- Modelled from the spec: native key identifier (GLFW 3 value). -/
def GLFW_KEY_C : Int := 67
/-- Modelled from the spec: native key identifier (GLFW 3 value). -/
def GLFW_KEY_D : Int := 68
/-- Modelled from the spec: native key identifier (GLFW 3 value). -/
def GLFW_KEY_E : Int := 69
/-- Modelled from the spec: native key identifier (GLFW 3 value). -/
def GLFW_KEY_F : Int := 70
/-- Modelled from the spec: native key identifier (GLFW 3 value). -/
def GLFW_KEY_G : Int := 71
/-- Modelled from the spec: native key identifier (GLFW 3 value). -/
def GLFW_KEY_H : Int := 72
/-- Modelled from the spec: native key identifier (GLFW 3 value). -/
def GLFW_KEY_I : Int := 73
/-- Modelled from the spec: native key identifier (GLFW 3 value). -/
def GLFW_KEY_J : Int := 74
/-- Modelled from the spec: native key identifier (GLFW 3 value). -/
def GLFW_KEY_K : Int := 75
/-- Modelled from the spec: native key identifier (GLFW 3 value). -/
def GLFW_KEY_L : Int := 76
/-- Modelled from the spec: native key identifier (GLFW 3 value). -/
def GLFW_KEY_M : Int := 77
/-- Modelled from the spec: native key identifier (GLFW 3 value). -/
def GLFW_KEY_N : Int := 78
/-- Modelled from the spec: native key identifier (GLFW 3 value). -/
def GLFW_KEY_O : Int := 79
/-- Modelled from the spec: native key identifier (GLFW 3 value). -/
def GLFW_KEY_P : Int := 80
/-- Modelled from the spec: native key identifier (GLFW 3 value). -/
def GLFW_KEY_Q : Int := 81
/-- Modelled from the spec: native key identifier (GLFW 3 value). -/
def GLFW_KEY_R : Int := 82
/-- Modelled from the spec: native key identifier (GLFW 3 value). -/
def GLFW_KEY_S : Int := 83
/-- Modelled from the spec: native key identifier (GLFW 3 value). -/
def GLFW_KEY_T : Int := 84
/-- Modelled from the spec: native key identifier (GLFW 3 value). -/
def GLFW_KEY_U : Int := 85
/-- Modelled from the spec: native key identifier (GLFW 3 value). -/
def GLFW_KEY_V : Int := 86
/-- Modelled from the spec: native key identifier (GLFW 3 value). -/
def GLFW_KEY_W : Int := 87
/-- Modelled from the spec: native key identifier (GLFW 3 value). -/
def GLFW_KEY_X : Int := 88
/-- Modelled from the spec: native key identifier (GLFW 3 value). -/
def GLFW_KEY_Y : Int := 89
/-- Modelled from the spec: native key identifier (GLFW 3 value). -/
def GLFW_KEY_Z : Int := 90
/-- Modelled from the spec: native key identifier (GLFW 3 value). -/
def GLFW_KEY_LEFT_BRACKET : Int := 91
/-- Modelled from the spec: native key identifier (GLFW 3 value). -/
def GLFW_KEY_BACKSLASH : Int := 92
/-- Modelled from the spec: native key identifier (GLFW 3 value). -/
def GLFW_KEY_RIGHT_BRACKET : Int := 93
/-- Modelled from the spec: native key identifier (GLFW 3 value). -/
def GLFW_KEY_GRAVE_ACCENT : Int := 96
/-- Modelled from the spec: native key identifier (GLFW 3 value). -/
def GLFW_KEY_WORLD_1 : Int := 161
/-- Modelled from the spec: native key identifier (GLFW 3 value). -/
def GLFW_KEY_WORLD_2 : Int := 162
/-- Modelled from the spec: native key identifier (GLFW 3 value). -/
def GLFW_KEY_ESCAPE : Int := 256
/-- Modelled from the spec: native key identifier (GLFW 3 value). -/
def GLFW_KEY_ENTER : Int := 257
/-- Modelled from the spec: native key identifier (GLFW 3 value). -/
def GLFW_KEY_TAB : Int := 258
/-- Modelled from the spec: native key identifier (GLFW 3 value). -/
def GLFW_KEY_BACKSPACE : Int := 259
/-- Modelled from the spec: native key identifier (GLFW 3 value). -/
def GLFW_KEY_INSERT : Int := 260
/-- Modelled from the spec: native key identifier (GLFW 3 value). -/
def GLFW_KEY_DELETE : Int := 261
/-- Modelled from the spec: native key identifier (GLFW 3 value). -/
def GLFW_KEY_RIGHT : Int := 262
/-- Modelled from the spec: native key identifier (GLFW 3 value). -/
def GLFW_KEY_LEFT : Int := 263
/-- Modelled from the spec: native key identifier (GLFW 3 value). -/
def GLFW_KEY_DOWN : Int := 264
/-- Modelled from the spec: native key identifier (GLFW 3 value). -/
def GLFW_KEY_UP : Int := 265
/-- Modelled from the spec: native key identifier (GLFW 3 value). -/
def GLFW_KEY_PAGE_UP : Int := 266
/-- Modelled from the spec: native key identifier (GLFW 3 value). -/
def GLFW_KEY_PAGE_DOWN : Int := 267
/-- Modelled from the spec: native key identifier (GLFW 3 value). -/
def GLFW_KEY_HOME : Int := 268
/-- Modelled from the spec: native key identifier (GLFW 3 value). -/
def GLFW_KEY_END : Int := 269
/-- Modelled from the spec: native key identifier (GLFW 3 value). -/
def GLFW_KEY_CAPS_LOCK : Int := 280
/-- Modelled from the spec: native key identifier (GLFW 3 value). -/
def GLFW_KEY_SCROLL_LOCK : Int := 281
/-- Modelled from the spec: native key identifier (GLFW 3 value). -/
def GLFW_KEY_NUM_LOCK : Int := 282
/-- Modelled from the spec: native key identifier (GLFW 3 value). -/
def GLFW_KEY_PRINT_SCREEN : Int := 283
/-- Modelled from the spec: native key identifier (GLFW 3 value). -/
def GLFW_KEY_PAUSE : Int := 284
/-- Modelled from the spec: native key identifier (GLFW 3 value). -/
def GLFW_KEY_F1 : Int := 290
/-- Modelled from the spec: native key identifier (GLFW 3 value). -/
def GLFW_KEY_F2 : Int := 291
/-- Modelled from the spec: native key identifier (GLFW 3 value). -/
def GLFW_KEY_F3 : Int := 292
/-- Modelled from the spec: native key identifier (GLFW 3 value). -/
def GLFW_KEY_F4 : Int := 293
/-- Modelled from the spec: native key identifier (GLFW 3 value). -/
def GLFW_KEY_F5 : Int := 294
/-- Modelled from the spec: native key identifier (GLFW 3 value). -/
def GLFW_KEY_F6 : Int := 295
/-- Modelled from the spec: native key identifier (GLFW 3 value). -/
def GLFW_KEY_F7 : Int := 296
/-- Modelled from the spec: native key identifier (GLFW 3 value). -/
def GLFW_KEY_F8 : Int := 297
/-- Modelled from the spec: native key identifier (GLFW 3 value). -/
def GLFW_KEY_F9 : Int := 298
/-- Modelled from the spec: native key identifier (GLFW 3 value). -/
def GLFW_KEY_F10 : Int := 299
/-- Modelled from the spec: native key identifier (GLFW 3 value). -/
def GLFW_KEY_F11 : Int := 300
/-- Modelled from the spec: native key identifier (GLFW 3 value). -/
def GLFW_KEY_F12 : Int := 301
/-- Modelled from the spec: native key identifier (GLFW 3 value). -/
def GLFW_KEY_F13 : Int := 302
/-- Modelled from the spec: native key identifier (GLFW 3 value). -/
def GLFW_KEY_F14 : Int := 303
/-- Modelled from the spec: native key identifier (GLFW 3 value). -/
def GLFW_KEY_F15 : Int := 304
/-- Modelled from the spec: native key identifier (GLFW 3 value). -/
def GLFW_KEY_F16 : Int := 305
/-- Modelled from the spec: native key identifier (GLFW 3 value). -/
def GLFW_KEY_F17 : Int := 306
/-- Modelled from the spec: native key identifier (GLFW 3 value). -/
def GLFW_KEY_F18 : Int := 307
/-- Modelled from the spec: native key identifier (GLFW 3 value). -/
def GLFW_KEY_F19 : Int := 308
/-- Modelled from the spec: native key identifier (GLFW 3 value). -/
def GLFW_KEY_F20 : Int := 309
/-- Modelled from the spec: native key identifier (GLFW 3 value). -/
def GLFW_KEY_F21 : Int := 310
/-- Modelled from the spec: native key identifier (GLFW 3 value). -/
def GLFW_KEY_F22 : Int := 311
/-- Modelled from the spec: native key identifier (GLFW 3 value). -/
def GLFW_KEY_F23 : Int := 312
/-- Modelled from the spec: native key identifier (GLFW 3 value). -/
def GLFW_KEY_F24 : Int := 313
/-- Modelled from the spec: native key identifier (GLFW 3 value). -/
def GLFW_KEY_F25 : Int := 314
/-- Modelled from the spec: native key identifier (GLFW 3 value). -/
def GLFW_KEY_KP_0 : Int := 320
/-- Modelled from the spec: native key identifier (GLFW 3 value). -/
def GLFW_KEY_KP_1 : Int := 321
/-- Modelled from the spec: native key identifier (GLFW 3 value). -/
def GLFW_KEY_KP_2 : Int := 322
/-- Modelled from the spec: native key identifier (GLFW 3 value). -/
def GLFW_KEY_KP_3 : Int := 323
/-- Modelled from the spec: native key identifier (GLFW 3 value). -/
def GLFW_KEY_KP_4 : Int := 324
/-- Modelled from the spec: native key identifier (GLFW 3 value). -/
def GLFW_KEY_KP_5 : Int := 325
/-- Modelled from the spec: native key identifier (GLFW 3 value). -/
def GLFW_KEY_KP_6 : Int := 326
/-- Modelled from the spec: native key identifier (GLFW 3 value). -/
def GLFW_KEY_KP_7 : Int := 327
/-- Modelled from the spec: native key identifier (GLFW 3 value). -/
def GLFW_KEY_KP_8 : Int := 328
/-- Modelled from the spec: native key identifier (GLFW 3 value). -/
def GLFW_KEY_KP_9 : Int := 329
/-- Modelled from the spec: native key identifier (GLFW 3 value). -/
def GLFW_KEY_KP_DECIMAL : Int := 330
/-- Modelled from the spec: native key identifier (GLFW 3 value). -/
def GLFW_KEY_KP_DIVIDE : Int := 331
/-- Modelled from the spec: native key identifier (GLFW 3 value). -/
def GLFW_KEY_KP_MULTIPLY : Int := 332
/-- Modelled from the spec: native key identifier (GLFW 3 value). -/
def GLFW_KEY_KP_SUBTRACT : Int := 333
/-- Modelled from the spec: native key identifier (GLFW 3 value). -/
def GLFW_KEY_KP_ADD : Int := 334
/-- Modelled from the spec: native key identifier (GLFW 3 value). -/
def GLFW_KEY_KP_ENTER : Int := 335
/-- Modelled from the spec: native key identifier (GLFW 3 value). -/
def GLFW_KEY_KP_EQUAL : Int := 336
/-- Modelled from the spec: native key identifier (GLFW 3 value). -/
def GLFW_KEY_LEFT_SHIFT : Int := 340
/-- Modelled from the spec: native key identifier (GLFW 3 value). -/
def GLFW_KEY_LEFT_CONTROL : Int := 341
/-- Modelled from the spec: native key identifier (GLFW 3 value). -/
def GLFW_KEY_LEFT_ALT : Int := 342
/-- Modelled from the spec: native key identifier (GLFW 3 value). -/
def GLFW_KEY_LEFT_SUPER : Int := 343
/-- Modelled from the spec: native key identifier (GLFW 3 value). -/
def GLFW_KEY_RIGHT_SHIFT : Int := 344
/-- Modelled from the spec: native key identifier (GLFW 3 value). -/
def GLFW_KEY_RIGHT_CONTROL : Int := 345
/-- Modelled from the spec: native key identifier (GLFW 3 value). -/
def GLFW_KEY_RIGHT_ALT : Int := 346
/-- Modelled from the spec: native key identifier (GLFW 3 value). -/
def GLFW_KEY_RIGHT_SUPER : Int := 347
/-- Modelled from the spec: native key identifier (GLFW 3 value). -/
def GLFW_KEY_MENU : Int := 348

/-- The `case` labels of the switch in `Window::ConvertGLFWKey`, in source order. -/
def ConvertGLFWKeyCases : List (Int × KeyCodes) :=
  [(GLFW_KEY_UNKNOWN, KeyCodes.UnknownKey),
   (GLFW_HAT_CENTERED, KeyCodes.HatCentered),
   (GLFW_HAT_UP, KeyCodes.HatUp),
   (GLFW_HAT_RIGHT, KeyCodes.HatRight),
   (GLFW_HAT_DOWN, KeyCodes.HatDown),
   (GLFW_HAT_LEFT, KeyCodes.HatLeft),
   (GLFW_HAT_RIGHT_UP, KeyCodes.HatRightUp),
   (GLFW_HAT_RIGHT_DOWN, KeyCodes.HatRightDown),
   (GLFW_HAT_LEFT_UP, KeyCodes.HatLeftUp),
   (GLFW_HAT_LEFT_DOWN, KeyCodes.HatLeftDown),
   (GLFW_KEY_SPACE, KeyCodes.Space),
   (GLFW_KEY_APOSTROPHE, KeyCodes.Apostrophe),
   (GLFW_KEY_COMMA, KeyCodes.Comma),
   (GLFW_KEY_MINUS, KeyCodes.Minus),
   (GLFW_KEY_PERIOD, KeyCodes.Period),
   (GLFW_KEY_SLASH, KeyCodes.Slash),
   (GLFW_KEY_0, KeyCodes.Key0),
   (GLFW_KEY_1, KeyCodes.Key1),
   (GLFW_KEY_2, KeyCodes.Key2),
   (GLFW_KEY_3, KeyCodes.Key3),
   (GLFW_KEY_4, KeyCodes.Key4),
   (GLFW_KEY_5, KeyCodes.Key5),
   (GLFW_KEY_6, KeyCodes.Key6),
   (GLFW_KEY_7, KeyCodes.Key7),
   (GLFW_KEY_8, KeyCodes.Key8),
   (GLFW_KEY_9, KeyCodes.Key9),
   (GLFW_KEY_SEMICOLON, KeyCodes.SemiColon),
   (GLFW_KEY_EQUAL, KeyCodes.Equal),
   (GLFW_KEY_A, KeyCodes.A),
   (GLFW_KEY_B, KeyCodes.B),
   (GLFW_KEY_C, KeyCodes.C),
   (GLFW_KEY_D, KeyCodes.D),
   (GLFW_KEY_E, KeyCodes.E),
   (GLFW_KEY_F, KeyCodes.F),
   (GLFW_KEY_G, KeyCodes.G),
   (GLFW_KEY_H, KeyCodes.H),
   (GLFW_KEY_I, KeyCodes.I),
   (GLFW_KEY_J, KeyCodes.J),
   (GLFW_KEY_K, KeyCodes.K),
   (GLFW_KEY_L, KeyCodes.L),
   (GLFW_KEY_M, KeyCodes.M),
   (GLFW_KEY_N, KeyCodes.N),
   (GLFW_KEY_O, KeyCodes.O),
   (GLFW_KEY_P, KeyCodes.P),
   (GLFW_KEY_Q, KeyCodes.Q),
   (GLFW_KEY_R, KeyCodes.R),
   (GLFW_KEY_S, KeyCodes.S),
   (GLFW_KEY_T, KeyCodes.T),
   (GLFW_KEY_U, KeyCodes.U),
   (GLFW_KEY_V, KeyCodes.V),
   (GLFW_KEY_W, KeyCodes.W),
   (GLFW_KEY_X, KeyCodes.X),
   (GLFW_KEY_Y, KeyCodes.Y),
   (GLFW_KEY_Z, KeyCodes.Z),
   (GLFW_KEY_LEFT_BRACKET, KeyCodes.LeftBracket),
   (GLFW_KEY_BACKSLASH, KeyCodes.Backslash),
   (GLFW_KEY_RIGHT_BRACKET, KeyCodes.RightBracket),
   (GLFW_KEY_GRAVE_ACCENT, KeyCodes.GraveAccent),
   (GLFW_KEY_WORLD_1, KeyCodes.World1),
   (GLFW_KEY_WORLD_2, KeyCodes.World2),
   (GLFW_KEY_ESCAPE, KeyCodes.Escape),
   (GLFW_KEY_ENTER, KeyCodes.Enter),
   (GLFW_KEY_TAB, KeyCodes.Tab),
   (GLFW_KEY_BACKSPACE, KeyCodes.Backspace),
   (GLFW_KEY_INSERT, KeyCodes.Insert),
   (GLFW_KEY_DELETE, KeyCodes.Delete),
   (GLFW_KEY_RIGHT, KeyCodes.Right),
   (GLFW_KEY_LEFT, KeyCodes.Left),
   (GLFW_KEY_DOWN, KeyCodes.Down),
   (GLFW_KEY_UP, KeyCodes.Up),
   (GLFW_KEY_PAGE_UP, KeyCodes.PageUp),
   (GLFW_KEY_PAGE_DOWN, KeyCodes.PageDown),
   (GLFW_KEY_HOME, KeyCodes.Home),
   (GLFW_KEY_END, KeyCodes.End),
   (GLFW_KEY_CAPS_LOCK, KeyCodes.CapsLock),
   (GLFW_KEY_SCROLL_LOCK, KeyCodes.ScrollLock),
   (GLFW_KEY_NUM_LOCK, KeyCodes.NumLock),
   (GLFW_KEY_PRINT_SCREEN, KeyCodes.PrintScreen),
   (GLFW_KEY_PAUSE, KeyCodes.Pause),
   (GLFW_KEY_F1, KeyCodes.F1),
   (GLFW_KEY_F2, KeyCodes.F2),
   (GLFW_KEY_F3, KeyCodes.F3),
   (GLFW_KEY_F4, KeyCodes.F4),
   (GLFW_KEY_F5, KeyCodes.F5),
   (GLFW_KEY_F6, KeyCodes.F6),
   (GLFW_KEY_F7, KeyCodes.F7),
   (GLFW_KEY_F8, KeyCodes.F8),
   (GLFW_KEY_F9, KeyCodes.F9),
   (GLFW_KEY_F10, KeyCodes.F10),
   (GLFW_KEY_F11, KeyCodes.F11),
   (GLFW_KEY_F12, KeyCodes.F12),
   (GLFW_KEY_F13, KeyCodes.F13),
   (GLFW_KEY_F14, KeyCodes.F14),
   (GLFW_KEY_F15, KeyCodes.F15),
   (GLFW_KEY_F16, KeyCodes.F16),
   (GLFW_KEY_F17, KeyCodes.F17),
   (GLFW_KEY_F18, KeyCodes.F18),
   (GLFW_KEY_F19, KeyCodes.F19),
   (GLFW_KEY_F20, KeyCodes.F20),
   (GLFW_KEY_F21, KeyCodes.F21),
   (GLFW_KEY_F22, KeyCodes.F22),
   (GLFW_KEY_F23, KeyCodes.F23),
   (GLFW_KEY_F24, KeyCodes.F24),
   (GLFW_KEY_F25, KeyCodes.F25),
   (GLFW_KEY_KP_0, KeyCodes.KP0),
   (GLFW_KEY_KP_1, KeyCodes.KP1),
   (GLFW_KEY_KP_2, KeyCodes.KP2),
   (GLFW_KEY_KP_3, KeyCodes.KP3),
   (GLFW_KEY_KP_4, KeyCodes.KP4),
   (GLFW_KEY_KP_5, KeyCodes.KP5),
   (GLFW_KEY_KP_6, KeyCodes.KP6),
   (GLFW_KEY_KP_7, KeyCodes.KP7),
   (GLFW_KEY_KP_8, KeyCodes.KP8),
   (GLFW_KEY_KP_9, KeyCodes.KP9),
   (GLFW_KEY_KP_DECIMAL, KeyCodes.KPDecimal),
   (GLFW_KEY_KP_DIVIDE, KeyCodes.KPDivide),
   (GLFW_KEY_KP_MULTIPLY, KeyCodes.KPMultiply),
   (GLFW_KEY_KP_SUBTRACT, KeyCodes.KPSubtract),
   (GLFW_KEY_KP_ADD, KeyCodes.KPAdd),
   (GLFW_KEY_KP_ENTER, KeyCodes.KPEnter),
   (GLFW_KEY_KP_EQUAL, KeyCodes.KPEqual),
   (GLFW_KEY_LEFT_SHIFT, KeyCodes.LeftShift),
   (GLFW_KEY_LEFT_CONTROL, KeyCodes.LeftControl),
   (GLFW_KEY_LEFT_ALT, KeyCodes.LeftAlt),
   (GLFW_KEY_LEFT_SUPER, KeyCodes.LeftSuper),
   (GLFW_KEY_RIGHT_SHIFT, KeyCodes.RightShift),
   (GLFW_KEY_RIGHT_CONTROL, KeyCodes.RightControl),
   (GLFW_KEY_RIGHT_ALT, KeyCodes.RightAlt),
   (GLFW_KEY_RIGHT_SUPER, KeyCodes.RightSuper),
   (GLFW_KEY_MENU, KeyCodes.Menu)]

/-- `Window::ConvertGLFWKey`: the switch over the native key, falling through to
`return UnknownKey` when no label matches. -/
def ConvertGLFWKey (GLFWKey : Int) : KeyCodes :=
  match List.lookup GLFWKey ConvertGLFWKeyCases with
  | some Code => Code
  | none => .UnknownKey

/-- `Window::ConvertGLFWMouseButton`: the switch has seven labels and no statement
after it, so for any other value control reaches the end of a value-returning
function (undefined behaviour, `none`). -/
def ConvertGLFWMouseButton (GLFWMouseButton : Int) : Option MouseButtonCodes :=
  if GLFWMouseButton = GLFW_MOUSE_BUTTON_LEFT then some .LeftButton
  else if GLFWMouseButton = GLFW_MOUSE_BUTTON_RIGHT then some .RightButton
  else if GLFWMouseButton = GLFW_MOUSE_BUTTON_MIDDLE then some .MiddleWheel
  else if GLFWMouseButton = GLFW_MOUSE_BUTTON_4 then some .Button4
  else if GLFWMouseButton = GLFW_MOUSE_BUTTON_5 then some .Button5
  else if GLFWMouseButton = GLFW_MOUSE_BUTTON_6 then some .Button6
  else if GLFWMouseButton = GLFW_MOUSE_BUTTON_7 then some .Button7
  else none


/-! ## The surface: `Window` -/

/-- Record `Window::Key` with its default member initialisers. -/
structure Key where
  Pressed : Bool := false
  Released : Bool := true
  TimeSincePressed : f64 := 0
deriving DecidableEq, Repr

/-- An index into `std::array<Key, NumKeyCodes>` is valid when it is below the
array size `NumKeyCodes`. -/
def KeyCodes.InBounds (Key : KeyCodes) : Prop :=
  Key.toCtorIdx < KeyCodes.NumKeyCodes.toCtorIdx

instance (Key : KeyCodes) : Decidable Key.InBounds := by
  unfold KeyCodes.InBounds; infer_instance

/-- An index into `std::array<Key, NumMouseButtonCodes>` is valid when it is below
the array size `NumMouseButtonCodes`. -/
def MouseButtonCodes.InBounds (Button : MouseButtonCodes) : Prop :=
  Button.toCtorIdx < MouseButtonCodes.NumMouseButtonCodes.toCtorIdx

instance (Button : MouseButtonCodes) : Decidable Button.InBounds := by
  unfold MouseButtonCodes.InBounds; infer_instance

/-- Data members of class `Window` (Window.h). The two arrays are functions on the
enumeration; the slot of the size sentinel does not exist in the source and is
never read or written by the embedded functions. The opaque library handles
`WindowInstance` and `Monitor` are not represented. -/
structure Window where
  Keys : KeyCodes → Key
  MouseButtons : MouseButtonCodes → Key
  MousePosition : dvec2
  LastMousePosition : dvec2
  MouseDelta : dvec2
  ScrollDelta : f64
  ScrollOffset : f64
  PendingClose : Bool
  FrameBufferSize : ivec2
  Size : ivec2
  Position : ivec2
  DeltaTime : f64
  LastFrameTime : f64
  LastWindowedSize : ivec2
  LastWindowedPosition : ivec2

/-- State after `Window::Window` returns: every member has its default initialiser
except the three geometry members, which the constructor reads from the library. -/
def Window.construct (FrameBufferSize Size Position : ivec2) : Window :=
  { Keys := fun _ => {}
    MouseButtons := fun _ => {}
    MousePosition := ⟨0, 0⟩
    LastMousePosition := ⟨0, 0⟩
    MouseDelta := ⟨0, 0⟩
    ScrollDelta := 0
    ScrollOffset := 0
    PendingClose := false
    FrameBufferSize := FrameBufferSize
    Size := Size
    Position := Position
    DeltaTime := 0
    LastFrameTime := 0
    LastWindowedSize := ⟨0, 0⟩
    LastWindowedPosition := ⟨0, 0⟩ }

/-- `Window::SetSizeInternal`. -/
def SetSizeInternal (w : Window) (NewSize : ivec2) : Window :=
  { w with Size := NewSize }

/-- `Window::SetPositionInternal`. -/
def SetPositionInternal (w : Window) (NewPosition : ivec2) : Window :=
  { w with Position := NewPosition }

/-- `Window::SetFrameBufferSizeInternal`. -/
def SetFrameBufferSizeInternal (w : Window) (NewFrameBufferSize : ivec2) : Window :=
  { w with FrameBufferSize := NewFrameBufferSize }

/-- `Window::PositionCallBack`. -/
def PositionCallBack (w : Window) (X Y : Int) : Window :=
  SetPositionInternal w ⟨X, Y⟩

/-- `Window::SizeCallBack`. -/
def SizeCallBack (w : Window) (Width Height : Int) : Window :=
  SetSizeInternal w ⟨Width, Height⟩

/-- `Window::FrameBufferSizeCallBack` (the `glViewport` call has no effect on the
members of `Window`). -/
def FrameBufferSizeCallBack (w : Window) (Width Height : Int) : Window :=
  SetFrameBufferSizeInternal w ⟨Width, Height⟩

/-- `Window::KeyCallBack`; `glfwGetTime` is the clock reading taken on the press
branch. The array is indexed with the converted key code. -/
def KeyCallBack (w : Window) (Key Scancode Action Mods : Int) (glfwGetTime : f64) :
    Option Window :=
  let KeyCode := ConvertGLFWKey Key
  if Action = GLFW_PRESS then
    if KeyCode.InBounds then
      let Slot : Base.Key :=
        { w.Keys KeyCode with Pressed := true, TimeSincePressed := glfwGetTime }
      some { w with Keys := Function.update w.Keys KeyCode Slot }
    else none
  else if Action = GLFW_RELEASE then
    if KeyCode.InBounds then
      let Slot : Base.Key := { Released := true, Pressed := false, TimeSincePressed := 0 }
      some { w with Keys := Function.update w.Keys KeyCode Slot }
    else none
  else some w

/-- `Window::CursorPositionCallBack`. -/
def CursorPositionCallBack (w : Window) (XPosition YPosition : f64) : Window :=
  { w with MousePosition := ⟨XPosition, YPosition⟩ }

/-- `Window::MouseButtonCallBack`; the conversion happens before the action is
inspected, so a button without a `case` label is undefined for every action. -/
def MouseButtonCallBack (w : Window) (Button Action Mods : Int) (glfwGetTime : f64) :
    Option Window :=
  match ConvertGLFWMouseButton Button with
  | none => none
  | some MouseButtonCode =>
    if Action = GLFW_PRESS then
      if MouseButtonCode.InBounds then
        let Slot : Key :=
          { w.MouseButtons MouseButtonCode with Pressed := true, TimeSincePressed := glfwGetTime }
        some { w with MouseButtons := Function.update w.MouseButtons MouseButtonCode Slot }
      else none
    else if Action = GLFW_RELEASE then
      if MouseButtonCode.InBounds then
        let Slot : Key := { Released := true, Pressed := false, TimeSincePressed := 0 }
        some { w with MouseButtons := Function.update w.MouseButtons MouseButtonCode Slot }
      else none
    else some w

/-- `Window::ScrollCallBack`: the statement is `ScrollOffset += XOffset`. -/
def ScrollCallBack (w : Window) (XOffset YOffset : f64) : Window :=
  { w with ScrollOffset := w.ScrollOffset + XOffset }

/-- One callback invocation by the windowing library, with the arguments the
library passes; key and button events also carry the clock reading that the
callback would obtain from `glfwGetTime`. -/
inductive Event where
  | Position (X Y : Int)
  | Size (Width Height : Int)
  | FrameBufferSize (Width Height : Int)
  | Key (Key Scancode Action Mods : Int) (glfwGetTime : f64)
  | CursorPosition (XPosition YPosition : f64)
  | MouseButton (Button Action Mods : Int) (glfwGetTime : f64)
  | Scroll (XOffset YOffset : f64)
deriving DecidableEq, Repr

/-- Dispatch of one event to the callback registered for it in `Window::Window`. -/
def Event.deliver (w : Window) : Event → Option Window
  | .Position X Y => some (PositionCallBack w X Y)
  | .Size Width Height => some (SizeCallBack w Width Height)
  | .FrameBufferSize Width Height => some (FrameBufferSizeCallBack w Width Height)
  | .Key NativeKey Scancode Action Mods t => KeyCallBack w NativeKey Scancode Action Mods t
  | .CursorPosition X Y => some (CursorPositionCallBack w X Y)
  | .MouseButton Button Action Mods t => MouseButtonCallBack w Button Action Mods t
  | .Scroll XOffset YOffset => some (ScrollCallBack w XOffset YOffset)

/-- `glfwPollEvents`: the pending events are delivered to the callbacks in order. -/
def glfwPollEvents (w : Window) : List Event → Option Window
  | [] => some w
  | e :: es =>
    match e.deliver w with
    | none => none
    | some w1 => glfwPollEvents w1 es

/-- The assignments of `Window::Tick` that precede `glfwPollEvents`, in source
order; `CurrentTime` is the value returned by `glfwGetTime`. -/
def TickPrologue (w : Window) (CurrentTime : f64) : Window :=
  let w := { w with LastMousePosition := w.MousePosition }
  let w := { w with MouseDelta := w.MousePosition - w.LastMousePosition }
  let w := { w with LastMousePosition := w.MousePosition }
  let w := { w with ScrollDelta := w.ScrollOffset }
  let w := { w with ScrollOffset := 0 }
  let w := { w with DeltaTime := CurrentTime - w.LastFrameTime }
  { w with LastFrameTime := CurrentTime }

/-- `Window::Tick`: the assignments, then `glfwPollEvents` delivering `Events`
(`glfwSwapBuffers` has no effect on the members of `Window`). -/
def Tick (w : Window) (CurrentTime : f64) (Events : List Event) : Option Window :=
  glfwPollEvents (TickPrologue w CurrentTime) Events

/-- `Window::GetMouseDelta`: the value returned and the state afterwards. -/
def GetMouseDelta (w : Window) : dvec2 × Window := (w.MouseDelta, w)

/-- `Window::GetScrollDelta`: the value returned and the state afterwards. -/
def GetScrollDelta (w : Window) : f64 × Window := (w.ScrollDelta, w)

/-- `Window::WasKeyJustPressed`: the value returned and the state afterwards. -/
def WasKeyJustPressed (w : Window) (Key : KeyCodes) : Option (Bool × Window) :=
  if Key.InBounds then
    if (w.Keys Key).Pressed && (w.Keys Key).Released then
      let Slot : Base.Key := { w.Keys Key with Released := false }
      some (true, { w with Keys := Function.update w.Keys Key Slot })
    else some (false, w)
  else none

/-- `Window::WasMouseButtonJustPressed`: the value returned and the state afterwards. -/
def WasMouseButtonJustPressed (w : Window) (Button : MouseButtonCodes) :
    Option (Bool × Window) :=
  if Button.InBounds then
    if (w.MouseButtons Button).Pressed && (w.MouseButtons Button).Released then
      let Slot : Key := { w.MouseButtons Button with Released := false }
      some (true, { w with MouseButtons := Function.update w.MouseButtons Button Slot })
    else some (false, w)
  else none

/-- `Window::Close`. -/
def Close (w : Window) : Window := { w with PendingClose := true }

/-! ## The program: `ShaderProgram` -/

/-- Single-precision values of the source, taken as exact rationals. -/
abbrev f32 := ℚ

/-- A valid `const char*`: the address held by the pointer and the bytes stored
from that address on. The string ends at the first zero byte; a list that ends
without one is read as if a zero byte followed. The null pointer is excluded
(`GetUniformLocation` asserts against it). -/
structure CString where
  ptr : Nat
  bytes : List Nat
deriving DecidableEq, Repr

/-- `strlen`: number of bytes before the terminating zero. -/
def strlen : List Nat → Nat
  | [] => 0
  | c :: rest => if c = 0 then 0 else strlen rest + 1

/-- `strcmp`: difference of the first pair of bytes that differ, `0` when both
strings end together. -/
def strcmp : List Nat → List Nat → Int
  | [], [] => 0
  | [], b :: _ => 0 - (b : Int)
  | a :: _, [] => (a : Int) - 0
  | a :: as, b :: bs =>
    if a = b then (if a = 0 then 0 else strcmp as bs) else (a : Int) - (b : Int)

/-- Value of a byte read through `char` (signed, as on the x86-64 targets). -/
def charValue (c : Nat) : Int := if c < 128 then (c : Int) else (c : Int) - 256

/-- The loop of `ShaderProgram::Hash`: `hash = hash * 31 + *String++` in `size_t`
(64 bits) arithmetic while `*String` is non-zero. -/
def ShaderProgram.HashLoop : List Nat → Nat → Nat
  | [], hash => hash
  | c :: rest, hash =>
    if c = 0 then hash
    else ShaderProgram.HashLoop rest ((((hash : Int) * 31 + charValue c) % 2 ^ 64).toNat)

/-- `ShaderProgram::Hash`. -/
def ShaderProgram.Hash (Str : CString) : Nat := ShaderProgram.HashLoop Str.bytes 0

/-- `ShaderProgram::Equal`. -/
def ShaderProgram.Equal (a b : CString) : Bool := strcmp a.bytes b.bytes == 0

/-- The character sequence a `const char*` denotes: the bytes before the first
zero byte. -/
def CString.content (s : CString) : List Nat := s.bytes.takeWhile (fun c => c != 0)

/-- Data members of class `ShaderProgram`: the backend handle and the entries of
`UniformLocations` (owned key pointer and location). -/
structure ShaderProgram where
  Program : Nat
  UniformLocations : List (CString × Int)
deriving DecidableEq, Repr

/-- State after `ShaderProgram::ShaderProgram` returns with backend handle
`Program`: the map is empty. -/
def ShaderProgram.construct (Program : Nat) : ShaderProgram :=
  { Program := Program, UniformLocations := [] }

/-- `unordered_map::find` with the map's `Hash` and `Equal`: an entry is found when
its key has the hash of the argument and `Equal` holds for the two. -/
def UniformLocations.find (m : List (CString × Int)) (Name : CString) :
    Option (CString × Int) :=
  m.find? (fun e => ShaderProgram.Hash e.1 == ShaderProgram.Hash Name &&
    ShaderProgram.Equal e.1 Name)

/-- `unordered_map::emplace`: inserts unless an equivalent key is present. -/
def UniformLocations.emplace (m : List (CString × Int)) (Name : CString) (Location : Int) :
    List (CString × Int) :=
  match UniformLocations.find m Name with
  | some _ => m
  | none => m ++ [(Name, Location)]

/-- Argument of the matrix setters of type `const GLfloat*`: either
`glm::value_ptr` of a matrix (its floats in memory order) or a caller's pointer. -/
inductive FloatPtr where
  | value_ptr (m : List f32)
  | pointer (Values : Nat)
deriving DecidableEq, Repr

/-- Calls into the graphics backend made by the uniform functions, with their
arguments. -/
inductive GLCall where
  | glGetUniformLocation (Program : Nat) (UniformName : CString)
  | glUniform1i (Location : Int) (v0 : Int)
  | glUniform2i (Location : Int) (v0 v1 : Int)
  | glUniform3i (Location : Int) (v0 v1 v2 : Int)
  | glUniform4i (Location : Int) (v0 v1 v2 v3 : Int)
  | glUniform1ui (Location : Int) (v0 : Nat)
  | glUniform2ui (Location : Int) (v0 v1 : Nat)
  | glUniform3ui (Location : Int) (v0 v1 v2 : Nat)
  | glUniform4ui (Location : Int) (v0 v1 v2 v3 : Nat)
  | glUniform1f (Location : Int) (v0 : f32)
  | glUniform2f (Location : Int) (v0 v1 : f32)
  | glUniform3f (Location : Int) (v0 v1 v2 : f32)
  | glUniform4f (Location : Int) (v0 v1 v2 v3 : f32)
  | glUniform1iv (Location : Int) (Count : Int) (Values : Nat)
  | glUniform2iv (Location : Int) (Count : Int) (Values : Nat)
  | glUniform3iv (Location : Int) (Count : Int) (Values : Nat)
  | glUniform4iv (Location : Int) (Count : Int) (Values : Nat)
  | glUniform1uiv (Location : Int) (Count : Int) (Values : Nat)
  | glUniform2uiv (Location : Int) (Count : Int) (Values : Nat)
  | glUniform3uiv (Location : Int) (Count : Int) (Values : Nat)
  | glUniform4uiv (Location : Int) (Count : Int) (Values : Nat)
  | glUniform1fv (Location : Int) (Count : Int) (Values : Nat)
  | glUniform2fv (Location : Int) (Count : Int) (Values : Nat)
  | glUniform3fv (Location : Int) (Count : Int) (Values : Nat)
  | glUniform4fv (Location : Int) (Count : Int) (Values : Nat)
  | glUniformMatrix2fv (Location : Int) (Count : Int) (Transpose : Bool) (Values : FloatPtr)
  | glUniformMatrix3fv (Location : Int) (Count : Int) (Transpose : Bool) (Values : FloatPtr)
  | glUniformMatrix4fv (Location : Int) (Count : Int) (Transpose : Bool) (Values : FloatPtr)
  | glUniformMatrix2x3fv (Location : Int) (Count : Int) (Transpose : Bool) (Values : FloatPtr)
  | glUniformMatrix3x2fv (Location : Int) (Count : Int) (Transpose : Bool) (Values : FloatPtr)
  | glUniformMatrix2x4fv (Location : Int) (Count : Int) (Transpose : Bool) (Values : FloatPtr)
  | glUniformMatrix4x2fv (Location : Int) (Count : Int) (Transpose : Bool) (Values : FloatPtr)
  | glUniformMatrix3x4fv (Location : Int) (Count : Int) (Transpose : Bool) (Values : FloatPtr)
  | glUniformMatrix4x3fv (Location : Int) (Count : Int) (Transpose : Bool) (Values : FloatPtr)
deriving Repr

/-- Modelled from the spec: the backend constant `GL_FALSE` (the glad header is not
among the sources). -/
def GL_FALSE : Bool := false

/-- The types `T` accepted by the `SetUniform` templates. -/
inductive UniformType where
  | i32 | ivec2 | ivec3 | ivec4
  | u32 | uvec2 | uvec3 | uvec4
  | f32 | vec2 | vec3 | vec4
  | mat2x2 | mat3x3 | mat4x4 | mat2x3 | mat3x2 | mat2x4 | mat4x2 | mat3x4 | mat4x3
deriving DecidableEq, Repr

/-- A value of one of the types `T` accepted by `SetUniform(const char*, const T&)`;
a matrix is given by its floats in memory order. -/
inductive UniformValue where
  | i32 (Value : Int)
  | ivec2 (x y : Int)
  | ivec3 (x y z : Int)
  | ivec4 (x y z w : Int)
  | u32 (Value : Nat)
  | uvec2 (x y : Nat)
  | uvec3 (x y z : Nat)
  | uvec4 (x y z w : Nat)
  | f32 (Value : Base.f32)
  | vec2 (x y : Base.f32)
  | vec3 (x y z : Base.f32)
  | vec4 (x y z w : Base.f32)
  | mat2x2 (Value : List Base.f32)
  | mat3x3 (Value : List Base.f32)
  | mat4x4 (Value : List Base.f32)
  | mat2x3 (Value : List Base.f32)
  | mat3x2 (Value : List Base.f32)
  | mat2x4 (Value : List Base.f32)
  | mat4x2 (Value : List Base.f32)
  | mat3x4 (Value : List Base.f32)
  | mat4x3 (Value : List Base.f32)
deriving DecidableEq, Repr

/-- Private `ShaderProgram::SetUniform(GLint, const T&)`: the `if constexpr` chain. -/
def ShaderProgram.SetUniformLocation (Location : Int) : UniformValue → GLCall
  | .i32 Value => .glUniform1i Location Value
  | .ivec2 x y => .glUniform2i Location x y
  | .ivec3 x y z => .glUniform3i Location x y z
  | .ivec4 x y z w => .glUniform4i Location x y z w
  | .u32 Value => .glUniform1ui Location Value
  | .uvec2 x y => .glUniform2ui Location x y
  | .uvec3 x y z => .glUniform3ui Location x y z
  | .uvec4 x y z w => .glUniform4ui Location x y z w
  | .f32 Value => .glUniform1f Location Value
  | .vec2 x y => .glUniform2f Location x y
  | .vec3 x y z => .glUniform3f Location x y z
  | .vec4 x y z w => .glUniform4f Location x y z w
  | .mat2x2 Value => .glUniformMatrix2fv Location 1 GL_FALSE (.value_ptr Value)
  | .mat3x3 Value => .glUniformMatrix3fv Location 1 GL_FALSE (.value_ptr Value)
  | .mat4x4 Value => .glUniformMatrix4fv Location 1 GL_FALSE (.value_ptr Value)
  | .mat2x3 Value => .glUniformMatrix2x3fv Location 1 GL_FALSE (.value_ptr Value)
  | .mat3x2 Value => .glUniformMatrix3x2fv Location 1 GL_FALSE (.value_ptr Value)
  | .mat2x4 Value => .glUniformMatrix2x4fv Location 1 GL_FALSE (.value_ptr Value)
  | .mat4x2 Value => .glUniformMatrix4x2fv Location 1 GL_FALSE (.value_ptr Value)
  | .mat3x4 Value => .glUniformMatrix3x4fv Location 1 GL_FALSE (.value_ptr Value)
  | .mat4x3 Value => .glUniformMatrix4x3fv Location 1 GL_FALSE (.value_ptr Value)

/-- Private `ShaderProgram::SetUniform(GLint, const T*, GLsizei)`: the
`if constexpr` chain; `Values` is the caller's pointer. -/
def ShaderProgram.SetUniformLocationv (Location : Int) (T : UniformType) (Values : Nat)
    (Count : Int) : GLCall :=
  match T with
  | .i32 => .glUniform1iv Location Count Values
  | .ivec2 => .glUniform2iv Location Count Values
  | .ivec3 => .glUniform3iv Location Count Values
  | .ivec4 => .glUniform4iv Location Count Values
  | .u32 => .glUniform1uiv Location Count Values
  | .uvec2 => .glUniform2uiv Location Count Values
  | .uvec3 => .glUniform3uiv Location Count Values
  | .uvec4 => .glUniform4uiv Location Count Values
  | .f32 => .glUniform1fv Location Count Values
  | .vec2 => .glUniform2fv Location Count Values
  | .vec3 => .glUniform3fv Location Count Values
  | .vec4 => .glUniform4fv Location Count Values
  | .mat2x2 => .glUniformMatrix2fv Location Count GL_FALSE (.pointer Values)
  | .mat3x3 => .glUniformMatrix3fv Location Count GL_FALSE (.pointer Values)
  | .mat4x4 => .glUniformMatrix4fv Location Count GL_FALSE (.pointer Values)
  | .mat2x3 => .glUniformMatrix2x3fv Location Count GL_FALSE (.pointer Values)
  | .mat3x2 => .glUniformMatrix3x2fv Location Count GL_FALSE (.pointer Values)
  | .mat2x4 => .glUniformMatrix2x4fv Location Count GL_FALSE (.pointer Values)
  | .mat4x2 => .glUniformMatrix4x2fv Location Count GL_FALSE (.pointer Values)
  | .mat3x4 => .glUniformMatrix3x4fv Location Count GL_FALSE (.pointer Values)
  | .mat4x3 => .glUniformMatrix4x3fv Location Count GL_FALSE (.pointer Values)

/-- What the environment answers during one call of `GetUniformLocation`, should
the call ask: the value `glGetUniformLocation` returns, and the pointer `malloc`
returns (`none` is the null pointer). -/
structure Backend where
  glGetUniformLocation : Int
  malloc : Option Nat
deriving DecidableEq, Repr

/-- `ShaderProgram::GetUniformLocation`: the value returned, the program state
afterwards and the backend calls made. -/
def ShaderProgram.GetUniformLocation (p : ShaderProgram) (env : Backend)
    (UniformName : CString) : Int × ShaderProgram × List GLCall :=
  match UniformLocations.find p.UniformLocations UniformName with
  | some Iterator => (Iterator.2, p, [])
  | none =>
    let Location := env.glGetUniformLocation
    let UniformNameLength := strlen UniformName.bytes + 1
    match env.malloc with
    | none => (-1, p, [.glGetUniformLocation p.Program UniformName])
    | some Buffer =>
      let Copy : CString := ⟨Buffer, UniformName.bytes.take UniformNameLength⟩
      (Location,
        { p with UniformLocations := UniformLocations.emplace p.UniformLocations Copy Location },
        [.glGetUniformLocation p.Program UniformName])

/-- `ShaderProgram::SetUniform(const char*, const T&)`: the value returned, the
program state afterwards and the backend calls made. -/
def ShaderProgram.SetUniform (p : ShaderProgram) (env : Backend) (Name : CString)
    (Value : UniformValue) : Bool × ShaderProgram × List GLCall :=
  match ShaderProgram.GetUniformLocation p env Name with
  | (Location, p1, calls) =>
    if Location = -1 then (false, p1, calls)
    else (true, p1, calls ++ [ShaderProgram.SetUniformLocation Location Value])

/-- `ShaderProgram::SetUniform(const char*, const T*, GLsizei)`: the value
returned, the program state afterwards and the backend calls made. -/
def ShaderProgram.SetUniformv (p : ShaderProgram) (env : Backend) (Name : CString)
    (T : UniformType) (Values : Nat) (Count : Int) : Bool × ShaderProgram × List GLCall :=
  match ShaderProgram.GetUniformLocation p env Name with
  | (Location, p1, calls) =>
    if Location = -1 then (false, p1, calls)
    else (true, p1, calls ++ [ShaderProgram.SetUniformLocationv Location T Values Count])

/-! ## Histories of calls

The functions above are single calls. The definitions below run sequences of
them and describe, on the event stream alone, what a history contains. -/

/-- One step of a history on a surface: a callback delivered by the library, the
assignments at the start of a `Tick`, or a call of a state-changing member. -/
inductive Op where
  | Callback (e : Event)
  | TickPrologue (CurrentTime : f64)
  | WasKeyJustPressed (Key : KeyCodes)
  | WasMouseButtonJustPressed (Button : MouseButtonCodes)
  | Close
deriving DecidableEq, Repr

/-- State after one step (`none` when the step is undefined). -/
def Op.apply (w : Window) : Op → Option Window
  | .Callback e => e.deliver w
  | .TickPrologue CurrentTime => some (Base.TickPrologue w CurrentTime)
  | .WasKeyJustPressed Key => (Base.WasKeyJustPressed w Key).map (fun r => r.2)
  | .WasMouseButtonJustPressed Button =>
    (Base.WasMouseButtonJustPressed w Button).map (fun r => r.2)
  | .Close => some (Base.Close w)

/-- State after a sequence of steps. -/
def runOps (w : Window) : List Op → Option Window
  | [] => some w
  | op :: rest =>
    match op.apply w with
    | none => none
    | some w1 => runOps w1 rest

/-- The event is a key callback with action press whose native key converts to `Key`. -/
def Event.isPressOf (Key : KeyCodes) : Event → Bool
  | .Key NativeKey _ Action _ _ => Action == GLFW_PRESS && ConvertGLFWKey NativeKey == Key
  | _ => false

/-- The event is a key callback with action release whose native key converts to `Key`. -/
def Event.isReleaseOf (Key : KeyCodes) : Event → Bool
  | .Key NativeKey _ Action _ _ => Action == GLFW_RELEASE && ConvertGLFWKey NativeKey == Key
  | _ => false

/-- The step is a press callback for `Key`. -/
def Op.isPressOf (Key : KeyCodes) : Op → Bool
  | .Callback e => e.isPressOf Key
  | _ => false

/-- The step is a release callback for `Key`. -/
def Op.isReleaseOf (Key : KeyCodes) : Op → Bool
  | .Callback e => e.isReleaseOf Key
  | _ => false

/-- Whether `Key` is held after the steps, by the last press or release callback
for it (`held` when there is none). -/
def heldAfter (Key : KeyCodes) (held : Bool) : List Op → Bool
  | [] => held
  | op :: rest =>
    if op.isPressOf Key then heldAfter Key true rest
    else if op.isReleaseOf Key then heldAfter Key false rest
    else heldAfter Key held rest

/-- Press and release callbacks for `Key` alternate: a press arrives only while
the key is not held, a release only while it is held. -/
def Alternates (Key : KeyCodes) (held : Bool) : List Op → Bool
  | [] => true
  | op :: rest =>
    if op.isPressOf Key then !held && Alternates Key true rest
    else if op.isReleaseOf Key then held && Alternates Key false rest
    else Alternates Key held rest

/-- The event can be delivered with defined behaviour: a mouse-button callback
needs a button that `ConvertGLFWMouseButton` has a label for. -/
def Event.Defined : Event → Bool
  | .MouseButton Button _ _ _ => (ConvertGLFWMouseButton Button).isSome
  | _ => true

/-- The step has defined behaviour: events as in `Event.Defined`, the two array
queries need an index inside the array. -/
def Op.Defined : Op → Bool
  | .Callback e => e.Defined
  | .WasKeyJustPressed Key => decide Key.InBounds
  | .WasMouseButtonJustPressed Button => decide Button.InBounds
  | _ => true

/-- A frame loop that calls `Tick` and then `WasKeyJustPressed(Key)` once per
frame; each frame is the clock reading of its `Tick` and the events its polling
delivers. The result lists what the queries returned. -/
def frameLoop (Key : KeyCodes) (w : Window) : List (f64 × List Event) → Option (List Bool × Window)
  | [] => some ([], w)
  | (CurrentTime, Events) :: rest =>
    match Tick w CurrentTime Events with
    | none => none
    | some w1 =>
      match WasKeyJustPressed w1 Key with
      | none => none
      | some (r, w2) =>
        match frameLoop Key w2 rest with
        | none => none
        | some (rs, w3) => some (r :: rs, w3)

/-- Whether `Key` is held after the events (`held` before them). -/
def keyHeld (Key : KeyCodes) (held : Bool) : List Event → Bool
  | [] => held
  | e :: rest =>
    if e.isPressOf Key then keyHeld Key true rest
    else if e.isReleaseOf Key then keyHeld Key false rest
    else keyHeld Key held rest

/-- Number of transitions of `Key` from not pressed to pressed in the events:
press callbacks that arrive while the key is not held. -/
def transitions (Key : KeyCodes) (held : Bool) : List Event → Nat
  | [] => 0
  | e :: rest =>
    if e.isPressOf Key then (if held then 0 else 1) + transitions Key true rest
    else if e.isReleaseOf Key then transitions Key false rest
    else transitions Key held rest

/-- Number of transitions of `Key` from not pressed to pressed in the events that
are not followed, within the same events, by a release callback for `Key`. -/
def openTransitions (Key : KeyCodes) (held : Bool) : List Event → Nat
  | [] => 0
  | e :: rest =>
    if e.isPressOf Key then
      (if !held && rest.all (fun e1 => !e1.isReleaseOf Key) then 1 else 0)
        + openTransitions Key true rest
    else if e.isReleaseOf Key then openTransitions Key false rest
    else openTransitions Key held rest

/-- The function `transitions` summed over the frames of a frame loop. -/
def transitionsInFrames (Key : KeyCodes) (held : Bool) : List (f64 × List Event) → Nat
  | [] => 0
  | (_, Events) :: rest =>
    transitions Key held Events + transitionsInFrames Key (keyHeld Key held Events) rest

/-- The function `openTransitions` summed over the frames of a frame loop: the
transitions whose release is not delivered in the same frame as the press. -/
def openTransitionsInFrames (Key : KeyCodes) (held : Bool) : List (f64 × List Event) → Nat
  | [] => 0
  | (_, Events) :: rest =>
    openTransitions Key held Events
      + openTransitionsInFrames Key (keyHeld Key held Events) rest

/-- Sum of the offsets that the scroll callbacks among the events add to
`ScrollOffset`. -/
def scrollSum : List Event → f64
  | [] => 0
  | .Scroll XOffset _ :: rest => XOffset + scrollSum rest
  | _ :: rest => scrollSum rest

/-- The event is a scroll callback. -/
def Event.isScroll : Event → Bool
  | .Scroll _ _ => true
  | _ => false

/-- One `SetUniform(Name, Value)` call together with what the environment would
answer during it. -/
structure SetUniformCall where
  Name : CString
  Value : UniformValue
  env : Backend

/-- A sequence of `SetUniform` calls on one program: the final state and, per
call, the value returned and the backend calls made. -/
def runSetUniform (p : ShaderProgram) :
    List SetUniformCall → ShaderProgram × List (Bool × List GLCall)
  | [] => (p, [])
  | c :: rest =>
    match ShaderProgram.SetUniform p c.env c.Name c.Value with
    | (r, p1, calls) =>
      match runSetUniform p1 rest with
      | (p2, outs) => (p2, (r, calls) :: outs)

/-- The backend call is a uniform setter (any call other than the location lookup). -/
def GLCall.isSetter : GLCall → Bool
  | .glGetUniformLocation _ _ => false
  | _ => true

/-- The location argument of a uniform setter. -/
def GLCall.location? : GLCall → Option Int
  | .glGetUniformLocation _ _ => none
  | .glUniform1i l _ | .glUniform2i l _ _ | .glUniform3i l _ _ _ | .glUniform4i l _ _ _ _
  | .glUniform1ui l _ | .glUniform2ui l _ _ | .glUniform3ui l _ _ _ | .glUniform4ui l _ _ _ _
  | .glUniform1f l _ | .glUniform2f l _ _ | .glUniform3f l _ _ _ | .glUniform4f l _ _ _ _
  | .glUniform1iv l _ _ | .glUniform2iv l _ _ | .glUniform3iv l _ _ | .glUniform4iv l _ _
  | .glUniform1uiv l _ _ | .glUniform2uiv l _ _ | .glUniform3uiv l _ _ | .glUniform4uiv l _ _
  | .glUniform1fv l _ _ | .glUniform2fv l _ _ | .glUniform3fv l _ _ | .glUniform4fv l _ _
  | .glUniformMatrix2fv l _ _ _ | .glUniformMatrix3fv l _ _ _ | .glUniformMatrix4fv l _ _ _
  | .glUniformMatrix2x3fv l _ _ _ | .glUniformMatrix3x2fv l _ _ _
  | .glUniformMatrix2x4fv l _ _ _ | .glUniformMatrix4x2fv l _ _ _
  | .glUniformMatrix3x4fv l _ _ _ | .glUniformMatrix4x3fv l _ _ _ => some l

/-- The location that the first call of the history with the given name content
obtained from the backend, if the history has such a call. -/
def firstLocation (content : List Nat) : List SetUniformCall → Option Int
  | [] => none
  | c :: rest =>
    if c.Name.content = content then some c.env.glGetUniformLocation
    else firstLocation content rest

/-! ## Auxiliary definitions used by the proofs -/

/-- The pair (`Pressed`, `Released`) of a key record. -/
def slot (w : Window) (Key : KeyCodes) : Bool × Bool :=
  ((w.Keys Key).Pressed, (w.Keys Key).Released)

/-- Effect of one event on the pair (`Pressed`, `Released`) of the record of `Key`. -/
def slotAfter (Key : KeyCodes) (e : Event) (s : Bool × Bool) : Bool × Bool :=
  if e.isPressOf Key then (true, s.2)
  else if e.isReleaseOf Key then (false, true)
  else s

/-- Effect of one step on the pair (`Pressed`, `Released`) of the record of `Key`. -/
def slotAfterOp (Key : KeyCodes) (op : Op) (s : Bool × Bool) : Bool × Bool :=
  match op with
  | .Callback e => slotAfter Key e s
  | .WasKeyJustPressed Other =>
    if Other = Key ∧ s.1 = true ∧ s.2 = true then (s.1, false) else s
  | _ => s

/-- Effect of a sequence of steps on the pair of the record of `Key`. -/
def slotRun (Key : KeyCodes) : List Op → Bool × Bool → Bool × Bool
  | [], s => s
  | op :: rest, s => slotRun Key rest (slotAfterOp Key op s)

/-- Effect of a list of events on the pair of the record of `Key`. -/
def slotEvents (Key : KeyCodes) : List Event → Bool × Bool → Bool × Bool
  | [], s => s
  | e :: rest, s => slotEvents Key rest (slotAfter Key e s)

/-- The backend calls one `SetUniform` call is expected to make, from the history
alone: a location lookup unless an earlier call had the same name content, then
the setter for `Location` unless `Location` is -1. -/
def expectedCalls (Program : Nat) (pre : List SetUniformCall) (c : SetUniformCall)
    (Location : Int) : List GLCall :=
  (if firstLocation c.Name.content pre = none then
      [GLCall.glGetUniformLocation Program c.Name] else []) ++
  (if Location = -1 then [] else [ShaderProgram.SetUniformLocation Location c.Value])

/-- The location the cache holds for the name of `Name`. -/
def cached (p : ShaderProgram) (Name : CString) : Option Int :=
  (UniformLocations.find p.UniformLocations Name).map Prod.snd

/-! ## Further members of `Window` and the library side of a window -/

/-- `Window::IsKeyDown` (`none` when the index is outside the array). -/
def IsKeyDown (w : Window) (Key : KeyCodes) : Option Bool :=
  if Key.InBounds then some (w.Keys Key).Pressed else none

/-- `Window::GetTimeSinceKeyPressed`; `glfwGetTime` is the clock reading taken by
the call (`none` when the index is outside the array). -/
def GetTimeSinceKeyPressed (w : Window) (Key : KeyCodes) (glfwGetTime : f64) : Option f64 :=
  if Key.InBounds then some (glfwGetTime - (w.Keys Key).TimeSincePressed) else none

/-- `Window::GetDeltaTime`: the value returned and the state afterwards. -/
def GetDeltaTime (w : Window) : f64 × Window := (w.DeltaTime, w)

/-- `Window::GetWindowPos`: the value returned and the state afterwards. -/
def GetWindowPos (w : Window) : ivec2 × Window := (w.Position, w)

/-- `Window::GetWindowSize`: the value returned and the state afterwards. -/
def GetWindowSize (w : Window) : ivec2 × Window := (w.Size, w)

/-- Requests a surface sends to the windowing library, with their arguments (the
window handle is left out; `none` as monitor is the null pointer). -/
inductive GLFWCall where
  | glfwSetWindowPos (xpos ypos : Int)
  | glfwSetWindowSize (width height : Int)
  | glfwSetWindowMonitor (monitor : Option Nat) (xpos ypos width height refreshRate : Int)
  | glfwSetWindowShouldClose (value : Bool)
deriving DecidableEq, Repr

/-- The part of the library's state of a window that the surface reads back: the
monitor the window is fullscreen on (`glfwGetWindowMonitor`, `none` when
windowed) and the close flag (`glfwWindowShouldClose`). -/
structure GLFWwindow where
  Monitor : Option Nat
  ShouldClose : Bool
deriving DecidableEq, Repr

/-- Modelled from the spec: how the windowing library (not among the sources)
answers a request. It applies the request at once; the position and size that
result are delivered as callbacks by the next poll. The close flag is the value
last set. -/
def GLFWwindow.handle (g : GLFWwindow) : GLFWCall → GLFWwindow × List Event
  | .glfwSetWindowPos xpos ypos => (g, [.Position xpos ypos])
  | .glfwSetWindowSize width height => (g, [.Size width height])
  | .glfwSetWindowMonitor monitor xpos ypos width height _ =>
    ({ g with Monitor := monitor }, [.Position xpos ypos, .Size width height])
  | .glfwSetWindowShouldClose value => ({ g with ShouldClose := value }, [])

/-- Video mode descriptor returned by `glfwGetVideoMode` (the fields the surface
reads). -/
structure GLFWvidmode where
  width : Int
  height : Int
  refreshRate : Int
deriving DecidableEq, Repr

/-- `Window::ShouldClose`: the value returned and the library state afterwards
(no member of `Window` is written). -/
def ShouldClose (w : Window) (g : GLFWwindow) : Bool × GLFWwindow :=
  let g1 := if w.PendingClose then (g.handle (.glfwSetWindowShouldClose true)).1 else g
  (g1.ShouldClose, g1)

/-- `Window::SetWindowPos`: the request sent to the library. The call passes the
members `Position.x` and `Position.y`. -/
def SetWindowPos (w : Window) (NewPosition : ivec2) : GLFWCall :=
  .glfwSetWindowPos w.Position.x w.Position.y

/-- `Window::SetWindowSize`: the request sent to the library. The parameter is
named `Size` and hides the member of that name. -/
def SetWindowSize (w : Window) (Size : ivec2) : GLFWCall :=
  .glfwSetWindowSize Size.x Size.y

/-- `Window::IsFullScreen`: `glfwGetWindowMonitor` converted to `bool`. -/
def IsFullScreen (g : GLFWwindow) : Bool := g.Monitor.isSome

/-- `Window::ToggleFullscreen`: the state afterwards and the request sent to the
library. `Monitor` is the (non-null) member of that name and `VideoMode` what
`glfwGetVideoMode(Monitor)` points to. -/
def ToggleFullscreen (w : Window) (g : GLFWwindow) (Monitor : Nat) (VideoMode : GLFWvidmode) :
    Window × GLFWCall :=
  if IsFullScreen g then
    (w, .glfwSetWindowMonitor none w.LastWindowedPosition.x w.LastWindowedPosition.y
      w.LastWindowedSize.x w.LastWindowedSize.y 0)
  else
    let w1 := { w with LastWindowedPosition := (GetWindowPos w).1 }
    let w2 := { w1 with LastWindowedSize := (GetWindowSize w1).1 }
    (w2, .glfwSetWindowMonitor (some Monitor) 0 0 VideoMode.width VideoMode.height
      VideoMode.refreshRate)

/-! ## Name buffers of a program -/

/-- `free` on the list of live buffers: the buffer is removed; freeing a pointer
that is not live is undefined. -/
def free (heap : List Nat) (ptr : Nat) : Option (List Nat) :=
  if ptr ∈ heap then some (heap.erase ptr) else none

/-- `ShaderProgram::GetUniformLocation` with the list of live buffers obtained
from `malloc` made explicit: the value returned, the program state and the live
buffers afterwards. -/
def ShaderProgram.GetUniformLocationHeap (p : ShaderProgram) (heap : List Nat) (env : Backend)
    (UniformName : CString) : Int × ShaderProgram × List Nat :=
  match UniformLocations.find p.UniformLocations UniformName with
  | some Iterator => (Iterator.2, p, heap)
  | none =>
    let Location := env.glGetUniformLocation
    let UniformNameLength := strlen UniformName.bytes + 1
    match env.malloc with
    | none => (-1, p, heap)
    | some Buffer =>
      let Copy : CString := ⟨Buffer, UniformName.bytes.take UniformNameLength⟩
      (Location,
        { p with UniformLocations := UniformLocations.emplace p.UniformLocations Copy Location },
        heap ++ [Buffer])

/-- The loop of `ShaderProgram::~ShaderProgram`: `free` on the key of every entry. -/
def ShaderProgram.destructorLoop : List (CString × Int) → List Nat → Option (List Nat)
  | [], heap => some heap
  | Pair :: rest, heap =>
    match free heap Pair.1.ptr with
    | none => none
    | some heap1 => ShaderProgram.destructorLoop rest heap1

/-- `ShaderProgram::~ShaderProgram`: the live buffers afterwards (`glDeleteProgram`
does not touch them). -/
def ShaderProgram.destructor (p : ShaderProgram) (heap : List Nat) : Option (List Nat) :=
  ShaderProgram.destructorLoop p.UniformLocations heap

/-- One `GetUniformLocation` call together with what the environment would
answer during it. -/
structure GetUniformLocationCall where
  Name : CString
  env : Backend

/-- A sequence of `GetUniformLocation` calls on one program: the final state and
the live name buffers. -/
def runGetUniformLocation (p : ShaderProgram) (heap : List Nat) :
    List GetUniformLocationCall → ShaderProgram × List Nat
  | [] => (p, heap)
  | c :: rest =>
    match ShaderProgram.GetUniformLocationHeap p heap c.env c.Name with
    | (_, p1, heap1) => runGetUniformLocation p1 heap1 rest

/-! ## More about histories -/

/-- The event, when the step is a press or release callback for `Key`. -/
def Op.keyEvent? (Key : KeyCodes) : Op → Option Event
  | .Callback e => if e.isPressOf Key || e.isReleaseOf Key then some e else none
  | _ => none

/-- The most recent press or release callback for `Key` in a history (`cur` when
the history has none). -/
def lastKeyEvent (Key : KeyCodes) (cur : Option Event) : List Op → Option Event
  | [] => cur
  | op :: rest =>
    match op.keyEvent? Key with
    | some e => lastKeyEvent Key (some e) rest
    | none => lastKeyEvent Key cur rest

/-- The clock reading carried by a key or mouse-button event (0 for other events). -/
def Event.time : Event → f64
  | .Key _ _ _ _ t => t
  | .MouseButton _ _ _ t => t
  | _ => 0

/-- The step is the start of a `Tick`. -/
def Op.isTick : Op → Bool
  | .TickPrologue _ => true
  | _ => false

/-- `ToggleFullscreen()` followed by a `Tick` whose polling delivers what the
library answers to the request: the surface and library state afterwards and the
request that was sent. -/
def toggleThenTick (w : Window) (g : GLFWwindow) (Monitor : Nat) (VideoMode : GLFWvidmode)
    (CurrentTime : f64) : Option (Window × GLFWwindow × GLFWCall) :=
  match Tick (ToggleFullscreen w g Monitor VideoMode).1 CurrentTime
      (g.handle (ToggleFullscreen w g Monitor VideoMode).2).2 with
  | none => none
  | some w1 =>
    some (w1, (g.handle (ToggleFullscreen w g Monitor VideoMode).2).1,
      (ToggleFullscreen w g Monitor VideoMode).2)

/-! ## Auxiliary definitions for key records -/

/-- Whether the most recent press or release callback was a press. -/
def heldBy (Key : KeyCodes) : Option Event → Bool
  | some e => e.isPressOf Key
  | none => false

/-- Clock reading of the most recent press or release callback when it was a
press, else 0. -/
def pressTimeBy (Key : KeyCodes) : Option Event → f64
  | some e => if e.isPressOf Key then e.time else 0
  | none => 0

/-- Effect of one event on the record of `Key`. -/
def recordAfter (Key : KeyCodes) (e : Event) (r : Base.Key) : Base.Key :=
  if e.isPressOf Key then { r with Pressed := true, TimeSincePressed := e.time }
  else if e.isReleaseOf Key then { Released := true, Pressed := false, TimeSincePressed := 0 }
  else r

/-- Effect of one step on the record of `Key`. -/
def recordAfterOp (Key : KeyCodes) (op : Op) (r : Base.Key) : Base.Key :=
  match op with
  | .Callback e => recordAfter Key e r
  | .WasKeyJustPressed Other =>
    if Other = Key ∧ r.Pressed = true ∧ r.Released = true then { r with Released := false }
    else r
  | _ => r

/-- Effect of a sequence of steps on the record of `Key`. -/
def recordRun (Key : KeyCodes) : List Op → Base.Key → Base.Key
  | [], r => r
  | op :: rest, r => recordRun Key rest (recordAfterOp Key op r)

/-! ## Name tables -/

/-- `GetMouseButtonName` (Window.cpp): the switch over the button code, falling
through to `return ""`. -/
def GetMouseButtonName (Button : MouseButtonCodes) : String :=
  match Button with
  | .LeftButton => "MouseLeft"
  | .RightButton => "MouseRight"
  | .MiddleWheel => "MouseMiddle"
  | .Button4 => "Mouse4"
  | .Button5 => "Mouse5"
  | .Button6 => "Mouse6"
  | .Button7 => "Mouse7"
  | _ => ""

/-- `Window::GetKeyName`: the switch over the key code, falling through to
`return ""`. -/
def GetKeyName (Key : KeyCodes) : String :=
  match Key with
  | .UnknownKey => "Unknown"
  | .HatCentered => "HatCentered"
  | .HatUp => "HatUp"
  | .HatRight => "HatRight"
  | .HatDown => "HatDown"
  | .HatLeft => "HatLeft"
  | .HatRightUp => "HatRightUp"
  | .HatRightDown => "HatRightDown"
  | .HatLeftUp => "HatLeftUp"
  | .HatLeftDown => "HatLeftDown"
  | .Space => "Space"
  | .Apostrophe => "Apostrophe"
  | .Comma => "Comma"
  | .Minus => "Minus"
  | .Period => "Period"
  | .Slash => "Slash"
  | .Key0 => "Key0"
  | .Key1 => "Key1"
  | .Key2 => "Key2"
  | .Key3 => "Key3"
  | .Key4 => "Key4"
  | .Key5 => "Key5"
  | .Key6 => "Key6"
  | .Key7 => "Key7"
  | .Key8 => "Key8"
  | .Key9 => "Key9"
  | .SemiColon => "SemiColon"
  | .Equal => "Equal"
  | .A => "A"
  | .B => "B"
  | .C => "C"
  | .D => "D"
  | .E => "E"
  | .F => "F"
  | .G => "G"
  | .H => "H"
  | .I => "I"
  | .J => "J"
  | .K => "K"
  | .L => "L"
  | .M => "M"
  | .N => "N"
  | .O => "O"
  | .P => "P"
  | .Q => "Q"
  | .R => "R"
  | .S => "S"
  | .T => "T"
  | .U => "U"
  | .V => "V"
  | .W => "W"
  | .X => "X"
  | .Y => "Y"
  | .Z => "Z"
  | .LeftBracket => "LeftBracket"
  | .Backslash => "Backslash"
  | .RightBracket => "RightBracket"
  | .GraveAccent => "GraveAccent"
  | .World1 => "World1"
  | .World2 => "World2"
  | .Escape => "Escape"
  | .Enter => "Enter"
  | .Tab => "Tab"
  | .Backspace => "Backspace"
  | .Insert => "Insert"
  | .Delete => "Delete"
  | .Right => "Right"
  | .Left => "Left"
  | .Down => "Down"
  | .Up => "Up"
  | .PageUp => "PageUp"
  | .PageDown => "PageDown"
  | .Home => "Home"
  | .End => "End"
  | .CapsLock => "CapsLock"
  | .ScrollLock => "ScrollLock"
  | .NumLock => "NumLock"
  | .PrintScreen => "PrintScreen"
  | .Pause => "Pause"
  | .F1 => "F1"
  | .F2 => "F2"
  | .F3 => "F3"
  | .F4 => "F4"
  | .F5 => "F5"
  | .F6 => "F6"
  | .F7 => "F7"
  | .F8 => "F8"
  | .F9 => "F9"
  | .F10 => "F10"
  | .F11 => "F11"
  | .F12 => "F12"
  | .F13 => "F13"
  | .F14 => "F14"
  | .F15 => "F15"
  | .F16 => "F16"
  | .F17 => "F17"
  | .F18 => "F18"
  | .F19 => "F19"
  | .F20 => "F20"
  | .F21 => "F21"
  | .F22 => "F22"
  | .F23 => "F23"
  | .F24 => "F24"
  | .F25 => "F25"
  | .KP0 => "KP0"
  | .KP1 => "KP1"
  | .KP2 => "KP2"
  | .KP3 => "KP3"
  | .KP4 => "KP4"
  | .KP5 => "KP5"
  | .KP6 => "KP6"
  | .KP7 => "KP7"
  | .KP8 => "KP8"
  | .KP9 => "KP9"
  | .KPDecimal => "KPDecimal"
  | .KPDivide => "KPDivide"
  | .KPMultiply => "KPMultiply"
  | .KPSubtract => "KPSubtract"
  | .KPAdd => "KPAdd"
  | .KPEnter => "KPEnter"
  | .KPEqual => "KPEqual"
  | .LeftShift => "LeftShift"
  | .LeftControl => "LeftControl"
  | .LeftAlt => "LeftAlt"
  | .LeftSuper => "LeftSuper"
  | .RightShift => "RightShift"
  | .RightControl => "RightControl"
  | .RightAlt => "RightAlt"
  | .RightSuper => "RightSuper"
  | .Menu => "Menu"
  | _ => ""

/-- The key codes that index the `Keys` array: every enumerator before the size
sentinel, in declaration order. -/
def keyCodeTable : List KeyCodes := ConvertGLFWKeyCases.map Prod.snd

/-- The seven mouse-button codes, in declaration order. -/
def mouseButtonCodeTable : List MouseButtonCodes :=
  [.LeftButton, .RightButton, .MiddleWheel, .Button4, .Button5, .Button6, .Button7]

/-! ## Families and shapes of uniform types and setters -/

/-- The four families of supported uniform types. -/
inductive UniformFamily where
  | signed | unsigned | float | matrix
deriving DecidableEq, Repr

/-- What identifies a backend setter by its name: the family (suffix `i`, `ui`,
`f`, or `Matrix`), the shape (components, or columns and rows) and whether it
takes its values through a pointer (suffix `v`). -/
structure SetterId where
  family : UniformFamily
  columns : Nat
  rows : Nat
  pointer : Bool
deriving DecidableEq, Repr

/-- Family of a supported type. -/
def UniformType.family : UniformType → UniformFamily
  | .i32 | .ivec2 | .ivec3 | .ivec4 => .signed
  | .u32 | .uvec2 | .uvec3 | .uvec4 => .unsigned
  | .f32 | .vec2 | .vec3 | .vec4 => .float
  | _ => .matrix

/-- Number of components of a scalar or vector type, number of columns `C` of a
matrix type `matCxR`. -/
def UniformType.columns : UniformType → Nat
  | .i32 | .u32 | .f32 => 1
  | .ivec2 | .uvec2 | .vec2 | .mat2x2 | .mat2x3 | .mat2x4 => 2
  | .ivec3 | .uvec3 | .vec3 | .mat3x3 | .mat3x2 | .mat3x4 => 3
  | .ivec4 | .uvec4 | .vec4 | .mat4x4 | .mat4x2 | .mat4x3 => 4

/-- Number of rows `R` of a matrix type `matCxR`; 1 for scalars and vectors. -/
def UniformType.rows : UniformType → Nat
  | .mat2x2 | .mat3x2 | .mat4x2 => 2
  | .mat3x3 | .mat2x3 | .mat4x3 => 3
  | .mat4x4 | .mat2x4 | .mat3x4 => 4
  | _ => 1

/-- The type `T` of a value. -/
def UniformValue.type : UniformValue → UniformType
  | .i32 _ => .i32 | .ivec2 _ _ => .ivec2 | .ivec3 _ _ _ => .ivec3 | .ivec4 _ _ _ _ => .ivec4
  | .u32 _ => .u32 | .uvec2 _ _ => .uvec2 | .uvec3 _ _ _ => .uvec3 | .uvec4 _ _ _ _ => .uvec4
  | .f32 _ => .f32 | .vec2 _ _ => .vec2 | .vec3 _ _ _ => .vec3 | .vec4 _ _ _ _ => .vec4
  | .mat2x2 _ => .mat2x2 | .mat3x3 _ => .mat3x3 | .mat4x4 _ => .mat4x4
  | .mat2x3 _ => .mat2x3 | .mat3x2 _ => .mat3x2 | .mat2x4 _ => .mat2x4
  | .mat4x2 _ => .mat4x2 | .mat3x4 _ => .mat3x4 | .mat4x3 _ => .mat4x3

/-- The components of a scalar or vector value in the order x, y, z, w, as
rationals; for a matrix its floats in memory order. -/
def UniformValue.components : UniformValue → List ℚ
  | .i32 v => [(v : ℚ)]
  | .ivec2 x y => [(x : ℚ), (y : ℚ)]
  | .ivec3 x y z => [(x : ℚ), (y : ℚ), (z : ℚ)]
  | .ivec4 x y z w => [(x : ℚ), (y : ℚ), (z : ℚ), (w : ℚ)]
  | .u32 v => [(v : ℚ)]
  | .uvec2 x y => [(x : ℚ), (y : ℚ)]
  | .uvec3 x y z => [(x : ℚ), (y : ℚ), (z : ℚ)]
  | .uvec4 x y z w => [(x : ℚ), (y : ℚ), (z : ℚ), (w : ℚ)]
  | .f32 v => [v]
  | .vec2 x y => [x, y]
  | .vec3 x y z => [x, y, z]
  | .vec4 x y z w => [x, y, z, w]
  | .mat2x2 m | .mat3x3 m | .mat4x4 m | .mat2x3 m | .mat3x2 m | .mat2x4 m | .mat4x2 m
  | .mat3x4 m | .mat4x3 m => m

/-- The setter a backend call is, read off its name (`none` for the location
lookup). -/
def GLCall.setterId? : GLCall → Option SetterId
  | .glGetUniformLocation _ _ => none
  | .glUniform1i _ _ => some ⟨.signed, 1, 1, false⟩
  | .glUniform2i _ _ _ => some ⟨.signed, 2, 1, false⟩
  | .glUniform3i _ _ _ _ => some ⟨.signed, 3, 1, false⟩
  | .glUniform4i _ _ _ _ _ => some ⟨.signed, 4, 1, false⟩
  | .glUniform1ui _ _ => some ⟨.unsigned, 1, 1, false⟩
  | .glUniform2ui _ _ _ => some ⟨.unsigned, 2, 1, false⟩
  | .glUniform3ui _ _ _ _ => some ⟨.unsigned, 3, 1, false⟩
  | .glUniform4ui _ _ _ _ _ => some ⟨.unsigned, 4, 1, false⟩
  | .glUniform1f _ _ => some ⟨.float, 1, 1, false⟩
  | .glUniform2f _ _ _ => some ⟨.float, 2, 1, false⟩
  | .glUniform3f _ _ _ _ => some ⟨.float, 3, 1, false⟩
  | .glUniform4f _ _ _ _ _ => some ⟨.float, 4, 1, false⟩
  | .glUniform1iv _ _ _ => some ⟨.signed, 1, 1, true⟩
  | .glUniform2iv _ _ _ => some ⟨.signed, 2, 1, true⟩
  | .glUniform3iv _ _ _ => some ⟨.signed, 3, 1, true⟩
  | .glUniform4iv _ _ _ => some ⟨.signed, 4, 1, true⟩
  | .glUniform1uiv _ _ _ => some ⟨.unsigned, 1, 1, true⟩
  | .glUniform2uiv _ _ _ => some ⟨.unsigned, 2, 1, true⟩
  | .glUniform3uiv _ _ _ => some ⟨.unsigned, 3, 1, true⟩
  | .glUniform4uiv _ _ _ => some ⟨.unsigned, 4, 1, true⟩
  | .glUniform1fv _ _ _ => some ⟨.float, 1, 1, true⟩
  | .glUniform2fv _ _ _ => some ⟨.float, 2, 1, true⟩
  | .glUniform3fv _ _ _ => some ⟨.float, 3, 1, true⟩
  | .glUniform4fv _ _ _ => some ⟨.float, 4, 1, true⟩
  | .glUniformMatrix2fv _ _ _ _ => some ⟨.matrix, 2, 2, true⟩
  | .glUniformMatrix3fv _ _ _ _ => some ⟨.matrix, 3, 3, true⟩
  | .glUniformMatrix4fv _ _ _ _ => some ⟨.matrix, 4, 4, true⟩
  | .glUniformMatrix2x3fv _ _ _ _ => some ⟨.matrix, 2, 3, true⟩
  | .glUniformMatrix3x2fv _ _ _ _ => some ⟨.matrix, 3, 2, true⟩
  | .glUniformMatrix2x4fv _ _ _ _ => some ⟨.matrix, 2, 4, true⟩
  | .glUniformMatrix4x2fv _ _ _ _ => some ⟨.matrix, 4, 2, true⟩
  | .glUniformMatrix3x4fv _ _ _ _ => some ⟨.matrix, 3, 4, true⟩
  | .glUniformMatrix4x3fv _ _ _ _ => some ⟨.matrix, 4, 3, true⟩

/-- The arguments `v0, v1, ...` a setter receives by value, in order, as
rationals (none for the pointer forms and the lookup). -/
def GLCall.values : GLCall → List ℚ
  | .glUniform1i _ v0 => [(v0 : ℚ)]
  | .glUniform2i _ v0 v1 => [(v0 : ℚ), (v1 : ℚ)]
  | .glUniform3i _ v0 v1 v2 => [(v0 : ℚ), (v1 : ℚ), (v2 : ℚ)]
  | .glUniform4i _ v0 v1 v2 v3 => [(v0 : ℚ), (v1 : ℚ), (v2 : ℚ), (v3 : ℚ)]
  | .glUniform1ui _ v0 => [(v0 : ℚ)]
  | .glUniform2ui _ v0 v1 => [(v0 : ℚ), (v1 : ℚ)]
  | .glUniform3ui _ v0 v1 v2 => [(v0 : ℚ), (v1 : ℚ), (v2 : ℚ)]
  | .glUniform4ui _ v0 v1 v2 v3 => [(v0 : ℚ), (v1 : ℚ), (v2 : ℚ), (v3 : ℚ)]
  | .glUniform1f _ v0 => [v0]
  | .glUniform2f _ v0 v1 => [v0, v1]
  | .glUniform3f _ v0 v1 v2 => [v0, v1, v2]
  | .glUniform4f _ v0 v1 v2 v3 => [v0, v1, v2, v3]
  | _ => []

/-- The count, transpose flag and data pointer a matrix setter receives (`none`
for every other call). -/
def GLCall.matrixArguments? : GLCall → Option (Int × Bool × FloatPtr)
  | .glUniformMatrix2fv _ Count Transpose Values
  | .glUniformMatrix3fv _ Count Transpose Values
  | .glUniformMatrix4fv _ Count Transpose Values
  | .glUniformMatrix2x3fv _ Count Transpose Values
  | .glUniformMatrix3x2fv _ Count Transpose Values
  | .glUniformMatrix2x4fv _ Count Transpose Values
  | .glUniformMatrix4x2fv _ Count Transpose Values
  | .glUniformMatrix3x4fv _ Count Transpose Values
  | .glUniformMatrix4x3fv _ Count Transpose Values => some (Count, Transpose, Values)
  | _ => none

/-- The setter expected for a type: same family, same shape; by value for
scalars and vectors, through a pointer for matrices. -/
def UniformType.setterId (T : UniformType) : SetterId :=
  ⟨T.family, T.columns, T.rows, decide (T.family = .matrix)⟩

/-! ## Invariant of the key and mouse-button records -/

/-- Every record that is not pressed has `Released` set, in both arrays. -/
def Window.ReleasedWhenUp (w : Window) : Prop :=
  (∀ Key, (w.Keys Key).Pressed = false → (w.Keys Key).Released = true) ∧
  (∀ Button, (w.MouseButtons Button).Pressed = false → (w.MouseButtons Button).Released = true)

/-! ## Properties of the surface -/

theorem dvec2.sub_def (a b : dvec2) : a - b = ⟨a.x - b.x, a.y - b.y⟩ := rfl

theorem lookup_mem {α β : Type} [BEq α] (a : α) (b : β) (l : List (α × β))
    (h : List.lookup a l = some b) : b ∈ l.map Prod.snd := by
  induction l with
  | nil => simp [List.lookup] at h
  | cons x xs ih =>
    obtain ⟨k, v⟩ := x
    simp only [List.lookup] at h
    cases hk : (a == k) with
    | true => rw [hk] at h; simp at h; simp [h]
    | false => rw [hk] at h; simp only [List.map_cons, List.mem_cons]; exact Or.inr (ih h)

set_option maxRecDepth 100000 in
theorem ConvertGLFWKeyCases_inBounds :
    ∀ Code ∈ ConvertGLFWKeyCases.map Prod.snd, Code.InBounds := by
  decide

theorem ConvertGLFWKey_inBounds (GLFWKey : Int) : (ConvertGLFWKey GLFWKey).InBounds := by
  unfold ConvertGLFWKey
  cases h : List.lookup GLFWKey ConvertGLFWKeyCases with
  | none => decide
  | some Code => exact ConvertGLFWKeyCases_inBounds Code (lookup_mem _ _ _ h)

theorem ConvertGLFWMouseButton_inBounds (Button : Int) (Code : MouseButtonCodes)
    (h : ConvertGLFWMouseButton Button = some Code) : Code.InBounds := by
  unfold ConvertGLFWMouseButton at h
  split_ifs at h <;> cases h <;> decide

theorem deliver_defined (w : Window) (e : Event) (h : e.Defined = true) :
    ∃ w1, e.deliver w = some w1 := by
  cases e with
  | Key n sc a m t =>
    have hb := ConvertGLFWKey_inBounds n
    simp only [Event.deliver, KeyCallBack]
    split_ifs <;> exact ⟨_, rfl⟩
  | MouseButton b a m t =>
    simp only [Event.Defined, Option.isSome_iff_exists] at h
    obtain ⟨c, hc⟩ := h
    have hb := ConvertGLFWMouseButton_inBounds b c hc
    simp only [Event.deliver, MouseButtonCallBack, hc]
    split_ifs <;> exact ⟨_, rfl⟩
  | _ => exact ⟨_, rfl⟩

theorem deliver_slot (w w1 : Window) (e : Event) (Key : KeyCodes)
    (h : e.deliver w = some w1) : slot w1 Key = slotAfter Key e (slot w Key) := by
  cases e with
  | Key n sc a m t =>
    have hb := ConvertGLFWKey_inBounds n
    simp only [Event.deliver, KeyCallBack] at h
    simp only [slotAfter, Event.isPressOf, Event.isReleaseOf, slot]
    have hpr : ¬ (GLFW_PRESS = GLFW_RELEASE) := by decide
    by_cases ha : a = GLFW_PRESS
    · subst ha
      simp only [if_true, hb] at h
      cases h
      by_cases hk : ConvertGLFWKey n = Key
      · subst hk; simp
      · simp [hk, Function.update_noteq (Ne.symm hk)]
    · by_cases hr : a = GLFW_RELEASE
      · subst hr
        simp only [ha, if_true, if_false, hb] at h
        cases h
        by_cases hk : ConvertGLFWKey n = Key
        · subst hk; simp [ha]
        · simp [hk, Function.update_noteq (Ne.symm hk)]
      · simp only [ha, hr, if_false] at h
        cases h
        simp [ha, hr]
  | MouseButton b a m t =>
    simp only [Event.deliver, MouseButtonCallBack] at h
    simp only [slotAfter, Event.isPressOf, Event.isReleaseOf, slot]
    split at h
    · cases h
    · split_ifs at h <;> cases h <;> simp
  | _ =>
    simp only [Event.deliver] at h
    cases h
    simp [slotAfter, Event.isPressOf, Event.isReleaseOf, slot, PositionCallBack, SizeCallBack,
      FrameBufferSizeCallBack, CursorPositionCallBack, ScrollCallBack, SetPositionInternal,
      SetSizeInternal, SetFrameBufferSizeInternal]

theorem slotRun_append (Key : KeyCodes) (a b : List Op) (s : Bool × Bool) :
    slotRun Key (a ++ b) s = slotRun Key b (slotRun Key a s) := by
  induction a generalizing s with
  | nil => rfl
  | cons op rest ih => simp only [List.cons_append, slotRun]; exact ih _

theorem WasKeyJustPressed_slot (w w1 : Window) (Other Key : KeyCodes) (r : Bool)
    (h : WasKeyJustPressed w Other = some (r, w1)) :
    slot w1 Key = slotAfterOp Key (.WasKeyJustPressed Other) (slot w Key) ∧
      r = ((w.Keys Other).Pressed && (w.Keys Other).Released) := by
  simp only [WasKeyJustPressed] at h
  simp only [slotAfterOp, slot]
  split_ifs at h with hb hpr
  · simp only [Option.some.injEq, Prod.mk.injEq] at h
    obtain ⟨hr, hw⟩ := h
    subst hw
    simp only [Bool.and_eq_true] at hpr
    by_cases hk : Other = Key
    · subst hk; simp [hpr.1, hpr.2, ← hr]
    · simp [hk, Function.update_noteq (Ne.symm hk), hpr.1, hpr.2, ← hr]
  · simp only [Option.some.injEq, Prod.mk.injEq] at h
    obtain ⟨hr, hw⟩ := h
    subst hw
    simp only [Bool.and_eq_true, not_and, Bool.not_eq_true] at hpr
    refine ⟨?_, ?_⟩
    · by_cases hk : Other = Key
      · subst hk
        by_cases hp : (w.Keys Other).Pressed = true
        · simp [hp, hpr hp]
        · simp [hp]
      · simp [hk]
    · rw [← hr]
      by_cases hp : (w.Keys Other).Pressed = true
      · simp [hp, hpr hp]
      · simp [hp]

theorem apply_slot (w w1 : Window) (op : Op) (Key : KeyCodes)
    (h : op.apply w = some w1) : slot w1 Key = slotAfterOp Key op (slot w Key) := by
  cases op with
  | Callback e => exact deliver_slot w w1 e Key h
  | TickPrologue t =>
    simp only [Op.apply, Option.some.injEq] at h
    subst h
    simp [slotAfterOp, slot, TickPrologue]
  | WasKeyJustPressed Other =>
    simp only [Op.apply] at h
    cases hq : WasKeyJustPressed w Other with
    | none => rw [hq] at h; cases h
    | some res =>
      obtain ⟨r, w2⟩ := res
      rw [hq] at h
      simp only [Option.map_some', Option.some.injEq] at h
      subst h
      exact (WasKeyJustPressed_slot w w2 Other Key r hq).1
  | WasMouseButtonJustPressed b =>
    simp only [Op.apply, WasMouseButtonJustPressed] at h
    split_ifs at h <;> simp only [Option.map_some', Option.some.injEq, Option.map_none'] at h
      <;> first | (subst h; simp [slotAfterOp, slot]) | cases h
  | Close =>
    simp only [Op.apply, Option.some.injEq] at h
    subst h
    simp [slotAfterOp, slot, Close]

theorem apply_defined (w : Window) (op : Op) (h : op.Defined = true) :
    ∃ w1, op.apply w = some w1 := by
  cases op with
  | Callback e => exact deliver_defined w e h
  | WasKeyJustPressed Other =>
    simp only [Op.Defined, decide_eq_true_eq] at h
    simp only [Op.apply, WasKeyJustPressed, h, if_true]
    split_ifs <;> exact ⟨_, rfl⟩
  | WasMouseButtonJustPressed b =>
    simp only [Op.Defined, decide_eq_true_eq] at h
    simp only [Op.apply, WasMouseButtonJustPressed, h, if_true]
    split_ifs <;> exact ⟨_, rfl⟩
  | _ => exact ⟨_, rfl⟩

theorem runOps_defined (ops : List Op) (w : Window) (h : ∀ op ∈ ops, op.Defined = true) :
    ∃ w1, runOps w ops = some w1 := by
  induction ops generalizing w with
  | nil => exact ⟨w, rfl⟩
  | cons op rest ih =>
    obtain ⟨w1, h1⟩ := apply_defined w op (h op (List.mem_cons_self _ _))
    obtain ⟨w2, h2⟩ := ih w1 (fun o ho => h o (List.mem_cons_of_mem _ ho))
    exact ⟨w2, by simp [runOps, h1, h2]⟩

theorem runOps_slot (ops : List Op) (w w1 : Window) (Key : KeyCodes)
    (h : runOps w ops = some w1) : slot w1 Key = slotRun Key ops (slot w Key) := by
  induction ops generalizing w with
  | nil => simp only [runOps, Option.some.injEq] at h; subst h; rfl
  | cons op rest ih =>
    simp only [runOps] at h
    cases h1 : op.apply w with
    | none => rw [h1] at h; cases h
    | some w2 =>
      rw [h1] at h
      simp only [slotRun]
      rw [ih w2 h, apply_slot w w2 op Key h1]

theorem isPress_not_isRelease (Key : KeyCodes) (e : Event) (h : e.isPressOf Key = true) :
    e.isReleaseOf Key = false := by
  cases e with
  | Key n sc a m t =>
    simp only [Event.isPressOf, Bool.and_eq_true, beq_iff_eq] at h
    obtain ⟨ha, _⟩ := h
    subst ha
    have hpr : (GLFW_PRESS == GLFW_RELEASE) = false := by decide
    simp [Event.isReleaseOf, hpr]
  | _ => rfl

/-- Running the steps on the pair: `Pressed` follows the last press or release
callback, and a record that is not pressed has `Released` set. -/
theorem slotRun_held (Key : KeyCodes) (ops : List Op) (held r : Bool)
    (hinv : held = false → r = true) :
    (slotRun Key ops (held, r)).1 = heldAfter Key held ops ∧
    ((slotRun Key ops (held, r)).1 = false → (slotRun Key ops (held, r)).2 = true) := by
  induction ops generalizing held r with
  | nil => exact ⟨rfl, hinv⟩
  | cons op rest ih =>
    simp only [slotRun, heldAfter]
    cases op with
    | Callback e =>
      simp only [slotAfterOp, slotAfter, Op.isPressOf, Op.isReleaseOf]
      by_cases hp : e.isPressOf Key = true
      · simp only [hp, if_true]
        exact ih true r (by simp)
      · by_cases hr : e.isReleaseOf Key = true
        · simp only [hp, hr, if_true, if_false]
          exact ih false true (by simp)
        · simp only [hp, hr, if_false]
          exact ih held r hinv
    | WasKeyJustPressed Other =>
      simp only [slotAfterOp, Op.isPressOf, Op.isReleaseOf, if_false, Bool.false_eq_true]
      split_ifs with hc
      · obtain ⟨_, hh, _⟩ := hc
        exact ih held false (fun hf => by rw [hf] at hh; cases hh)
      · exact ih held r hinv
    | _ =>
      simp only [slotAfterOp, Op.isPressOf, Op.isReleaseOf, if_false, Bool.false_eq_true]
      exact ih held r hinv

/-- While no press or release callback for `Key` arrives, a pressed record stays
pressed and `Released` survives exactly as long as `WasKeyJustPressed(Key)` is
not called. -/
theorem slotRun_span (Key : KeyCodes) (mid : List Op) (r : Bool)
    (hmid : ∀ op ∈ mid, op.isPressOf Key = false ∧ op.isReleaseOf Key = false) :
    slotRun Key mid (true, r) = (true, r && decide (Op.WasKeyJustPressed Key ∉ mid)) := by
  induction mid generalizing r with
  | nil => simp [slotRun]
  | cons op rest ih =>
    have hrest : ∀ o ∈ rest, o.isPressOf Key = false ∧ o.isReleaseOf Key = false :=
      fun o ho => hmid o (List.mem_cons_of_mem _ ho)
    have hop := hmid op (List.mem_cons_self _ _)
    simp only [slotRun]
    cases op with
    | Callback e =>
      simp only [Op.isPressOf, Op.isReleaseOf] at hop
      simp only [slotAfterOp, slotAfter, hop.1, hop.2, if_false, Bool.false_eq_true]
      rw [ih r hrest]
      simp
    | WasKeyJustPressed Other =>
      simp only [slotAfterOp]
      by_cases hk : Other = Key
      · subst hk
        cases r with
        | true => simp only [and_self, if_true]; rw [ih false hrest]; simp
        | false => simp only [Bool.false_eq_true, and_false, if_false]; rw [ih false hrest]; simp
      · have hne : Op.WasKeyJustPressed Key ≠ Op.WasKeyJustPressed Other := by
          intro hh; injection hh with hh; exact hk hh.symm
        simp only [hk, false_and, if_false]
        rw [ih r hrest]
        simp [hne]
    | _ =>
      simp only [slotAfterOp]
      rw [ih r hrest]
      simp

theorem Alternates_press_last (Key : KeyCodes) (pre : List Op) (op : Op) (held : Bool)
    (hop : op.isPressOf Key = true) (h : Alternates Key held (pre ++ [op]) = true) :
    heldAfter Key held pre = false := by
  induction pre generalizing held with
  | nil =>
    simp only [List.nil_append, Alternates, hop, if_true, Bool.and_true, Bool.not_eq_true',
      Bool.and_eq_true] at h
    simpa [heldAfter] using h
  | cons o rest ih =>
    simp only [List.cons_append, Alternates] at h
    simp only [heldAfter]
    split_ifs at h ⊢ with h1 h2
    · simp only [Bool.and_eq_true] at h; exact ih true h.2
    · simp only [Bool.and_eq_true] at h; exact ih false h.2
    · exact ih held h

/-- C1: on a freshly constructed surface, after any history in which the press
and release callbacks for `Key` alternate starting with a press and which ends
with a press callback for `Key`, followed by any steps `mid` of the same
held-down span (no press or release callback for `Key`), `WasKeyJustPressed(Key)`
returns `true` exactly when `mid` contains no call of `WasKeyJustPressed(Key)`:
the first call of the span returns `true`, every further one `false`. -/
theorem WasKeyJustPressed_once_per_span (Key : KeyCodes) (FrameBufferSize Size Position : ivec2)
    (pre mid : List Op) (press : Event)
    (hKey : Key.InBounds)
    (hpress : press.isPressOf Key = true)
    (halt : Alternates Key false (pre ++ [Op.Callback press]) = true)
    (hmid : ∀ op ∈ mid, op.isPressOf Key = false ∧ op.isReleaseOf Key = false)
    (hdef : ∀ op ∈ pre ++ Op.Callback press :: mid, op.Defined = true) :
    ∃ w r w1,
      runOps (Window.construct FrameBufferSize Size Position) (pre ++ Op.Callback press :: mid)
        = some w ∧
      WasKeyJustPressed w Key = some (r, w1) ∧
      (r = true ↔ Op.WasKeyJustPressed Key ∉ mid) := by
  obtain ⟨w, hw⟩ := runOps_defined _ (Window.construct FrameBufferSize Size Position) hdef
  have hs := runOps_slot _ _ w Key hw
  have hheld := Alternates_press_last Key pre (Op.Callback press) false hpress halt
  have hfresh : slot (Window.construct FrameBufferSize Size Position) Key = (false, true) := rfl
  rw [hfresh, slotRun_append] at hs
  simp only [slotRun] at hs
  obtain ⟨h1, h2⟩ := slotRun_held Key pre false true (fun _ => rfl)
  rw [hheld] at h1
  have hpre : slotRun Key pre (false, true) = (false, true) := Prod.ext h1 (h2 h1)
  rw [hpre] at hs
  have hstep : slotAfterOp Key (Op.Callback press) (false, true) = (true, true) := by
    simp [slotAfterOp, slotAfter, hpress]
  rw [hstep, slotRun_span Key mid true hmid] at hs
  simp only [slot, Bool.true_and, Prod.mk.injEq] at hs
  have hq : ∃ r w1, WasKeyJustPressed w Key = some (r, w1) := by
    simp only [WasKeyJustPressed, hKey, if_true]
    split_ifs <;> exact ⟨_, _, rfl⟩
  obtain ⟨r, w1, hq⟩ := hq
  refine ⟨w, r, w1, hw, hq, ?_⟩
  have hr := (WasKeyJustPressed_slot w w1 Key Key r hq).2
  rw [hr, hs.1, hs.2]
  simp

/-- C1 witness: key `A` pressed, queried, released, pressed again and queried
once more in the second span. -/
theorem WasKeyJustPressed_once_per_span_witness :
    ∃ w r w1,
      runOps (Window.construct ⟨800, 600⟩ ⟨800, 600⟩ ⟨100, 100⟩)
        ([Op.Callback (.Key GLFW_KEY_A 0 GLFW_PRESS 0 1), Op.WasKeyJustPressed .A,
          Op.Callback (.Key GLFW_KEY_A 0 GLFW_RELEASE 0 2)] ++
          Op.Callback (.Key GLFW_KEY_A 0 GLFW_PRESS 0 3) ::
          [Op.TickPrologue 4, Op.WasKeyJustPressed .A, Op.WasKeyJustPressed .B]) = some w ∧
      WasKeyJustPressed w .A = some (r, w1) ∧
      (r = true ↔ Op.WasKeyJustPressed .A ∉
        [Op.TickPrologue 4, Op.WasKeyJustPressed .A, Op.WasKeyJustPressed .B]) :=
  WasKeyJustPressed_once_per_span .A ⟨800, 600⟩ ⟨800, 600⟩ ⟨100, 100⟩ _ _ _
    (by decide) (by decide) (by decide) (by decide) (by decide)

theorem glfwPollEvents_defined (evs : List Event) (w : Window)
    (h : ∀ e ∈ evs, e.Defined = true) : ∃ w1, glfwPollEvents w evs = some w1 := by
  induction evs generalizing w with
  | nil => exact ⟨w, rfl⟩
  | cons e rest ih =>
    obtain ⟨w1, h1⟩ := deliver_defined w e (h e (List.mem_cons_self _ _))
    obtain ⟨w2, h2⟩ := ih w1 (fun o ho => h o (List.mem_cons_of_mem _ ho))
    exact ⟨w2, by simp [glfwPollEvents, h1, h2]⟩

theorem Tick_defined (evs : List Event) (w : Window) (t : f64)
    (h : ∀ e ∈ evs, e.Defined = true) : ∃ w1, Tick w t evs = some w1 :=
  glfwPollEvents_defined evs _ h

/-- What one delivered event does to the scroll members. -/
theorem deliver_scroll (w w1 : Window) (e : Event) (h : e.deliver w = some w1) :
    w1.ScrollOffset = w.ScrollOffset + scrollSum [e] ∧ w1.ScrollDelta = w.ScrollDelta := by
  cases e with
  | Key n sc a m t =>
    simp only [Event.deliver, KeyCallBack] at h
    split_ifs at h <;> cases h <;> simp [scrollSum]
  | MouseButton b a m t =>
    simp only [Event.deliver, MouseButtonCallBack] at h
    split at h
    · cases h
    · split_ifs at h <;> cases h <;> simp [scrollSum]
  | _ =>
    simp only [Event.deliver] at h
    cases h
    simp [scrollSum, PositionCallBack, SizeCallBack, FrameBufferSizeCallBack,
      CursorPositionCallBack, ScrollCallBack, SetPositionInternal, SetSizeInternal,
      SetFrameBufferSizeInternal]

theorem scrollSum_cons (e : Event) (rest : List Event) :
    scrollSum (e :: rest) = scrollSum [e] + scrollSum rest := by
  cases e <;> simp [scrollSum]

/-- Polling adds the offsets of the delivered scroll callbacks to `ScrollOffset`
and leaves `ScrollDelta` alone. -/
theorem glfwPollEvents_scroll (evs : List Event) (w w1 : Window)
    (h : glfwPollEvents w evs = some w1) :
    w1.ScrollOffset = w.ScrollOffset + scrollSum evs ∧ w1.ScrollDelta = w.ScrollDelta := by
  induction evs generalizing w with
  | nil => simp only [glfwPollEvents, Option.some.injEq] at h; subst h; simp [scrollSum]
  | cons e rest ih =>
    simp only [glfwPollEvents] at h
    cases h1 : e.deliver w with
    | none => rw [h1] at h; cases h
    | some w2 =>
      rw [h1] at h
      obtain ⟨a1, a2⟩ := deliver_scroll w w2 e h1
      obtain ⟨b1, b2⟩ := ih w2 h
      rw [scrollSum_cons e rest, b1, b2, a1, a2]
      exact ⟨by ring, rfl⟩

theorem scrollSum_eq_zero (evs : List Event) (h : ∀ e ∈ evs, e.isScroll = false) :
    scrollSum evs = 0 := by
  induction evs with
  | nil => rfl
  | cons e rest ih =>
    have he := h e (List.mem_cons_self _ _)
    have hr := ih (fun o ho => h o (List.mem_cons_of_mem _ ho))
    cases e <;> simp_all [scrollSum, Event.isScroll]

/-- C2, evaluated at the failing input: the cursor was at (2, 2) at the previous
`Tick` and a cursor callback moved it to (5, 3); the next `Tick` publishes
`MouseDelta = (0, 0)`, not the movement (3, 1). -/
theorem Tick_MouseDelta_at_failing_input :
    (Tick { Window.construct ⟨800, 600⟩ ⟨800, 600⟩ ⟨100, 100⟩ with
              MousePosition := ⟨5, 3⟩, LastMousePosition := ⟨2, 2⟩ } 1 []).map
        (fun w => ((GetMouseDelta w).1, w.LastMousePosition))
      = some (⟨0, 0⟩, ⟨5, 3⟩) ∧
    ((⟨5, 3⟩ : dvec2) - ⟨2, 2⟩ = ⟨3, 1⟩) := by
  constructor
  · simp [Tick, TickPrologue, glfwPollEvents, GetMouseDelta, Window.construct, dvec2.sub_def]
  · simp [dvec2.sub_def]; norm_num

/-- C3, evaluated at the failing input: a scroll callback with `XOffset = 0` and
`YOffset = 1` leaves `ScrollOffset` at 0, and one with `XOffset = 1` and
`YOffset = 0` raises it to 1. -/
theorem ScrollCallBack_at_failing_input :
    (ScrollCallBack (Window.construct ⟨800, 600⟩ ⟨800, 600⟩ ⟨100, 100⟩) 0 1).ScrollOffset = 0 ∧
    (ScrollCallBack (Window.construct ⟨800, 600⟩ ⟨800, 600⟩ ⟨100, 100⟩) 1 0).ScrollOffset = 1 := by
  simp [ScrollCallBack, Window.construct]

/-- C4 as stated fails: on a fresh surface a `Tick` whose polling delivers one
scroll callback with both offsets 1 returns with `GetScrollDelta() = 0` and
`ScrollOffset = 1`. -/
theorem Tick_scroll_same_tick_counterexample :
    ∃ w, Tick (Window.construct ⟨800, 600⟩ ⟨800, 600⟩ ⟨100, 100⟩) 1 [.Scroll 1 1] = some w ∧
      (GetScrollDelta w).1 = 0 ∧ (GetScrollDelta w).1 ≠ 1 ∧ w.ScrollOffset = 1 ∧
      w.ScrollOffset ≠ 0 := by
  refine ⟨_, rfl, ?_, ?_, ?_, ?_⟩ <;>
    simp [TickPrologue, ScrollCallBack, GetScrollDelta, Window.construct]

/-- C4 amended: for two consecutive `Tick`s, `GetScrollDelta()` after the second
returns the sum of the offsets that the scroll callbacks delivered during the
first `Tick`'s polling added to `ScrollOffset` (nothing from the second `Tick`'s
own polling), and when the second `Tick` returns `ScrollOffset` holds the sum
added during its own polling. -/
theorem Tick_scroll_previous_tick (w : Window) (t1 t2 : f64) (evs1 evs2 : List Event)
    (h1 : ∀ e ∈ evs1, e.Defined = true) (h2 : ∀ e ∈ evs2, e.Defined = true) :
    ∃ w1 w2, Tick w t1 evs1 = some w1 ∧ Tick w1 t2 evs2 = some w2 ∧
      (GetScrollDelta w2).1 = scrollSum evs1 ∧ w2.ScrollOffset = scrollSum evs2 := by
  obtain ⟨w1, hw1⟩ := Tick_defined evs1 w t1 h1
  obtain ⟨w2, hw2⟩ := Tick_defined evs2 w1 t2 h2
  refine ⟨w1, w2, hw1, hw2, ?_, ?_⟩
  · obtain ⟨a1, _⟩ := glfwPollEvents_scroll evs1 _ w1 hw1
    obtain ⟨_, b2⟩ := glfwPollEvents_scroll evs2 _ w2 hw2
    simp only [GetScrollDelta, b2]
    simp only [TickPrologue] at a1 ⊢
    rw [a1]; ring
  · obtain ⟨b1, _⟩ := glfwPollEvents_scroll evs2 _ w2 hw2
    rw [b1]
    simp [TickPrologue]

/-- C4 amended, witness: offsets 1, 2 and -1/2 delivered in the first `Tick`. -/
theorem Tick_scroll_previous_tick_witness :
    ∃ w1 w2,
      Tick (Window.construct ⟨800, 600⟩ ⟨800, 600⟩ ⟨100, 100⟩) 1
        [.Scroll 1 0, .Scroll 2 0, .Scroll (-1 / 2) 0] = some w1 ∧
      Tick w1 2 [.Scroll 7 0] = some w2 ∧
      (GetScrollDelta w2).1 = scrollSum [.Scroll 1 0, .Scroll 2 0, .Scroll (-1 / 2) 0] ∧
      w2.ScrollOffset = scrollSum [.Scroll 7 0] :=
  Tick_scroll_previous_tick _ 1 2 _ _ (by decide) (by decide)

/-- C5: `Tick` publishes in `ScrollDelta` the value `ScrollOffset` had on entry
and has reset `ScrollOffset` to 0 before polling; `GetScrollDelta()` leaves the
state as it is, so a repeated call returns the same value; and when the polling
of one `Tick` delivers no scroll callback, `GetScrollDelta()` after the next
`Tick` is 0. -/
theorem Tick_publishes_ScrollOffset (w : Window) (t : f64) (evs : List Event)
    (h : ∀ e ∈ evs, e.Defined = true) :
    (TickPrologue w t).ScrollDelta = w.ScrollOffset ∧
    (TickPrologue w t).ScrollOffset = 0 ∧
    ∃ w1, Tick w t evs = some w1 ∧
      (GetScrollDelta w1).1 = w.ScrollOffset ∧
      (GetScrollDelta w1).2 = w1 ∧
      (GetScrollDelta (GetScrollDelta w1).2).1 = (GetScrollDelta w1).1 ∧
      ((∀ e ∈ evs, e.isScroll = false) →
        ∀ (t2 : f64) (evs2 : List Event), (∀ e ∈ evs2, e.Defined = true) →
          ∃ w2, Tick w1 t2 evs2 = some w2 ∧ (GetScrollDelta w2).1 = 0) := by
  refine ⟨rfl, rfl, ?_⟩
  obtain ⟨w1, hw1⟩ := Tick_defined evs w t h
  obtain ⟨a1, a2⟩ := glfwPollEvents_scroll evs _ w1 hw1
  refine ⟨w1, hw1, ?_, rfl, rfl, ?_⟩
  · simp only [GetScrollDelta, a2]; rfl
  · intro hns t2 evs2 h2
    obtain ⟨w2, hw2⟩ := Tick_defined evs2 w1 t2 h2
    obtain ⟨_, b2⟩ := glfwPollEvents_scroll evs2 _ w2 hw2
    refine ⟨w2, hw2, ?_⟩
    simp only [GetScrollDelta, b2]
    simp only [TickPrologue] at a1 ⊢
    rw [a1, scrollSum_eq_zero evs hns]; ring

/-- C5 witness: a surface holding an accumulated offset of 5/2; the `Tick`
delivers a key press and no scroll callback. -/
theorem Tick_publishes_ScrollOffset_witness :
    (TickPrologue (ScrollCallBack (Window.construct ⟨800, 600⟩ ⟨800, 600⟩ ⟨100, 100⟩)
        (5 / 2) 0) 1).ScrollDelta
      = (ScrollCallBack (Window.construct ⟨800, 600⟩ ⟨800, 600⟩ ⟨100, 100⟩) (5 / 2) 0).ScrollOffset ∧
    (TickPrologue (ScrollCallBack (Window.construct ⟨800, 600⟩ ⟨800, 600⟩ ⟨100, 100⟩)
        (5 / 2) 0) 1).ScrollOffset = 0 ∧
    ∃ w1, Tick (ScrollCallBack (Window.construct ⟨800, 600⟩ ⟨800, 600⟩ ⟨100, 100⟩) (5 / 2) 0) 1
        [.Key GLFW_KEY_A 0 GLFW_PRESS 0 1] = some w1 ∧
      (GetScrollDelta w1).1
        = (ScrollCallBack (Window.construct ⟨800, 600⟩ ⟨800, 600⟩ ⟨100, 100⟩)
            (5 / 2) 0).ScrollOffset ∧
      (GetScrollDelta w1).2 = w1 ∧
      (GetScrollDelta (GetScrollDelta w1).2).1 = (GetScrollDelta w1).1 ∧
      ((∀ e ∈ [Event.Key GLFW_KEY_A 0 GLFW_PRESS 0 1], e.isScroll = false) →
        ∀ (t2 : f64) (evs2 : List Event), (∀ e ∈ evs2, e.Defined = true) →
          ∃ w2, Tick w1 t2 evs2 = some w2 ∧ (GetScrollDelta w2).1 = 0) :=
  Tick_publishes_ScrollOffset _ 1 _ (by decide)

theorem glfwPollEvents_slot (evs : List Event) (w w1 : Window) (Key : KeyCodes)
    (h : glfwPollEvents w evs = some w1) : slot w1 Key = slotEvents Key evs (slot w Key) := by
  induction evs generalizing w with
  | nil => simp only [glfwPollEvents, Option.some.injEq] at h; subst h; rfl
  | cons e rest ih =>
    simp only [glfwPollEvents] at h
    cases h1 : e.deliver w with
    | none => rw [h1] at h; cases h
    | some w2 =>
      rw [h1] at h
      simp only [slotEvents]
      rw [ih w2 h, deliver_slot w w2 e Key h1]

theorem Tick_slot (evs : List Event) (w w1 : Window) (t : f64) (Key : KeyCodes)
    (h : Tick w t evs = some w1) : slot w1 Key = slotEvents Key evs (slot w Key) :=
  glfwPollEvents_slot evs (TickPrologue w t) w1 Key h

theorem openTransitions_held_noRelease (Key : KeyCodes) (evs : List Event)
    (h : evs.all (fun e1 => !e1.isReleaseOf Key) = true) : openTransitions Key true evs = 0 := by
  induction evs with
  | nil => rfl
  | cons e rest ih =>
    simp only [List.all_cons, Bool.and_eq_true, Bool.not_eq_true'] at h
    simp only [openTransitions, h.1, Bool.not_true, Bool.false_and, Bool.false_eq_true, if_false,
      zero_add, ih h.2, ite_self]

theorem openTransitions_le_one (Key : KeyCodes) (evs : List Event) (held : Bool) :
    openTransitions Key held evs ≤ 1 := by
  induction evs generalizing held with
  | nil => simp [openTransitions]
  | cons e rest ih =>
    simp only [openTransitions]
    split_ifs with h1 h2 h3
    · simp only [Bool.and_eq_true] at h2
      rw [openTransitions_held_noRelease Key rest h2.2]
    · simpa using ih true
    · exact ih false
    · exact ih held

/-- After the events of one frame: `Pressed` is the held state, a record that is
not pressed has `Released` set, and both flags are set exactly when they were set
before and no release arrived, or a transition to pressed is still open. -/
theorem slotEvents_query (Key : KeyCodes) (evs : List Event) (held r : Bool)
    (hinv : held = false → r = true) :
    (slotEvents Key evs (held, r)).1 = keyHeld Key held evs ∧
    ((slotEvents Key evs (held, r)).1 = false → (slotEvents Key evs (held, r)).2 = true) ∧
    ((slotEvents Key evs (held, r)).1 && (slotEvents Key evs (held, r)).2) =
      ((held && r && evs.all (fun e1 => !e1.isReleaseOf Key)) ||
        decide (0 < openTransitions Key held evs)) := by
  induction evs generalizing held r with
  | nil => exact ⟨rfl, hinv, by simp [slotEvents, openTransitions]⟩
  | cons e rest ih =>
    simp only [slotEvents, keyHeld, openTransitions, slotAfter, List.all_cons]
    by_cases hp : e.isPressOf Key = true
    · have hnr := isPress_not_isRelease Key e hp
      simp only [hp, if_true, hnr, Bool.not_false, Bool.true_and]
      obtain ⟨a1, a2, a3⟩ := ih true r (by simp)
      refine ⟨a1, a2, ?_⟩
      rw [a3]
      cases held with
      | true => simp
      | false =>
        have hr := hinv rfl
        subst hr
        cases hall : rest.all (fun e1 => !e1.isReleaseOf Key) with
        | true => simp
        | false => simp
    · simp only [Bool.not_eq_true] at hp
      by_cases hr : e.isReleaseOf Key = true
      · simp only [hp, hr, if_true, if_false, Bool.not_true, Bool.false_and, Bool.and_false,
          Bool.false_or, Bool.false_eq_true]
        obtain ⟨a1, a2, a3⟩ := ih false true (by simp)
        refine ⟨a1, a2, ?_⟩
        rw [a3]
        simp
      · simp only [Bool.not_eq_true] at hr
        simp only [hp, hr, if_false, Bool.not_false, Bool.true_and, Bool.false_eq_true]
        exact ih held r hinv

theorem frameLoop_count (Key : KeyCodes) (hKey : Key.InBounds)
    (frames : List (f64 × List Event)) (w : Window) (held : Bool)
    (hw : slot w Key = (held, !held))
    (hdef : ∀ fr ∈ frames, ∀ e ∈ fr.2, e.Defined = true) :
    ∃ rs w1, frameLoop Key w frames = some (rs, w1) ∧
      rs.count true = openTransitionsInFrames Key held frames := by
  induction frames generalizing w held with
  | nil => exact ⟨[], w, rfl, rfl⟩
  | cons fr rest ih =>
    obtain ⟨t, evs⟩ := fr
    obtain ⟨w1, hw1⟩ := Tick_defined evs w t (hdef (t, evs) (List.mem_cons_self _ _))
    have hs := Tick_slot evs w w1 t Key hw1
    rw [hw] at hs
    obtain ⟨a1, a2, a3⟩ := slotEvents_query Key evs held (!held) (by cases held <;> simp)
    have hq : ∃ r w2, WasKeyJustPressed w1 Key = some (r, w2) := by
      simp only [WasKeyJustPressed, hKey, if_true]
      split_ifs <;> exact ⟨_, _, rfl⟩
    obtain ⟨r, w2, hq⟩ := hq
    obtain ⟨b1, b2⟩ := WasKeyJustPressed_slot w1 w2 Key Key r hq
    have hr : r = decide (0 < openTransitions Key held evs) := by
      have h1 : (w1.Keys Key).Pressed = (slot w1 Key).1 := rfl
      have h2 : (w1.Keys Key).Released = (slot w1 Key).2 := rfl
      rw [b2, h1, h2, hs, a3]
      cases held <;> simp
    have hw2 : slot w2 Key = (keyHeld Key held evs, !keyHeld Key held evs) := by
      rw [b1, hs]
      simp only [slotAfterOp, true_and]
      rw [← a1]
      cases h1 : (slotEvents Key evs (held, !held)).1 with
      | false =>
        have h2 := a2 h1
        apply Prod.ext <;> simp [h1, h2]
      | true =>
        cases h2 : (slotEvents Key evs (held, !held)).2 with
        | false => apply Prod.ext <;> simp [h1, h2]
        | true => simp
    obtain ⟨rs, w3, hrun, hcount⟩ := ih w2 (keyHeld Key held evs) hw2
      (fun fr hfr => hdef fr (List.mem_cons_of_mem _ hfr))
    refine ⟨r :: rs, w3, by simp [frameLoop, hw1, hq, hrun], ?_⟩
    simp only [openTransitionsInFrames, List.count_cons, hcount]
    have hle := openTransitions_le_one Key evs held
    rw [hr]
    by_cases h0 : 0 < openTransitions Key held evs
    · simp only [h0, decide_True, beq_self_eq_true, if_true]; omega
    · simp only [h0, decide_False]
      have : openTransitions Key held evs = 0 := by omega
      simp [this]

/-- C6 as stated fails: in one frame whose polling delivers a press and then a
release of key `A`, the query after the `Tick` returns `false`, so no call
returns `true` although the stream has one transition to pressed. -/
theorem frameLoop_same_tick_counterexample :
    ∃ rs w,
      frameLoop .A (Window.construct ⟨800, 600⟩ ⟨800, 600⟩ ⟨100, 100⟩)
        [(1, [.Key GLFW_KEY_A 0 GLFW_PRESS 0 1, .Key GLFW_KEY_A 0 GLFW_RELEASE 0 2])]
        = some (rs, w) ∧
      rs = [false] ∧
      transitionsInFrames .A false
        [(1, [.Key GLFW_KEY_A 0 GLFW_PRESS 0 1, .Key GLFW_KEY_A 0 GLFW_RELEASE 0 2])] = 1 ∧
      rs.count true ≠ transitionsInFrames .A false
        [(1, [.Key GLFW_KEY_A 0 GLFW_PRESS 0 1, .Key GLFW_KEY_A 0 GLFW_RELEASE 0 2])] :=
  ⟨_, _, rfl, rfl, by decide, by decide⟩

/-- C6 amended: in a frame loop on a fresh surface that calls
`WasKeyJustPressed(Key)` once after every `Tick`, the number of calls that
return `true` equals the number of transitions of `Key` from not pressed to
pressed whose press callback is not followed by a release callback for `Key`
within the same `Tick`'s polling. -/
theorem frameLoop_counts_open_transitions (Key : KeyCodes)
    (FrameBufferSize Size Position : ivec2) (frames : List (f64 × List Event))
    (hKey : Key.InBounds)
    (hdef : ∀ fr ∈ frames, ∀ e ∈ fr.2, e.Defined = true) :
    ∃ rs w1,
      frameLoop Key (Window.construct FrameBufferSize Size Position) frames = some (rs, w1) ∧
      rs.count true = openTransitionsInFrames Key false frames :=
  frameLoop_count Key hKey frames _ false rfl hdef

/-- C6 amended, witness: press in one frame and release in the next (reported),
then press and release in a single frame (not reported). -/
theorem frameLoop_counts_open_transitions_witness :
    ∃ rs w1,
      frameLoop .A (Window.construct ⟨800, 600⟩ ⟨800, 600⟩ ⟨100, 100⟩)
        [(1, [.Key GLFW_KEY_A 0 GLFW_PRESS 0 1]), (2, [.Key GLFW_KEY_A 0 GLFW_RELEASE 0 2]),
         (3, [.Key GLFW_KEY_A 0 GLFW_PRESS 0 3, .Key GLFW_KEY_A 0 GLFW_RELEASE 0 3])]
        = some (rs, w1) ∧
      rs.count true = openTransitionsInFrames .A false
        [(1, [.Key GLFW_KEY_A 0 GLFW_PRESS 0 1]), (2, [.Key GLFW_KEY_A 0 GLFW_RELEASE 0 2]),
         (3, [.Key GLFW_KEY_A 0 GLFW_PRESS 0 3, .Key GLFW_KEY_A 0 GLFW_RELEASE 0 3])] :=
  frameLoop_counts_open_transitions .A _ _ _ _ (by decide) (by decide)

/-! ## Properties of the program -/

theorem strcmp_eq_zero_iff (a b : List Nat) :
    strcmp a b = 0 ↔ a.takeWhile (fun c => c != 0) = b.takeWhile (fun c => c != 0) := by
  induction a generalizing b with
  | nil =>
    cases b with
    | nil => simp [strcmp]
    | cons y ys =>
      by_cases hy : y = 0
      · simp [strcmp, hy]
      · simp [strcmp, hy, List.takeWhile_cons]
  | cons x xs ih =>
    cases b with
    | nil =>
      by_cases hx : x = 0
      · simp [strcmp, hx]
      · simp [strcmp, hx, List.takeWhile_cons]
    | cons y ys =>
      by_cases hxy : x = y
      · subst hxy
        by_cases hx : x = 0
        · simp [strcmp, hx]
        · simp [strcmp, hx, List.takeWhile_cons, ih ys]
      · have hne : (x : Int) - (y : Int) ≠ 0 := by omega
        simp only [strcmp, hxy, if_false, hne, false_iff]
        by_cases hx : x = 0
        · have hy : y ≠ 0 := fun h => hxy (by rw [hx, h])
          simp [List.takeWhile_cons, hx, hy]
        · by_cases hy : y = 0
          · simp [List.takeWhile_cons, hx, hy]
          · simp [List.takeWhile_cons, hx, hy, hxy]

theorem HashLoop_takeWhile (bytes : List Nat) (hash : Nat) :
    ShaderProgram.HashLoop (bytes.takeWhile (fun c => c != 0)) hash
      = ShaderProgram.HashLoop bytes hash := by
  induction bytes generalizing hash with
  | nil => rfl
  | cons c rest ih =>
    by_cases hc : c = 0
    · simp [List.takeWhile_cons, hc, ShaderProgram.HashLoop]
    · simp [List.takeWhile_cons, hc, ShaderProgram.HashLoop, ih]

theorem Hash_eq_of_content (a b : CString) (h : a.content = b.content) :
    ShaderProgram.Hash a = ShaderProgram.Hash b := by
  unfold ShaderProgram.Hash
  rw [← HashLoop_takeWhile a.bytes, ← HashLoop_takeWhile b.bytes]
  unfold CString.content at h
  rw [h]

theorem Equal_iff_content (a b : CString) :
    ShaderProgram.Equal a b = true ↔ a.content = b.content := by
  simp only [ShaderProgram.Equal, beq_iff_eq, CString.content]
  exact strcmp_eq_zero_iff a.bytes b.bytes

/-- The test applied by `UniformLocations.find` to an entry. -/
theorem find_test_eq (e Name : CString) :
    (ShaderProgram.Hash e == ShaderProgram.Hash Name && ShaderProgram.Equal e Name)
      = decide (e.content = Name.content) := by
  by_cases h : e.content = Name.content
  · simp [h, Hash_eq_of_content e Name h, (Equal_iff_content e Name).2 h]
  · have : ShaderProgram.Equal e Name = false := by
      cases hE : ShaderProgram.Equal e Name with
      | false => rfl
      | true => exact absurd ((Equal_iff_content e Name).1 hE) h
    simp [h, this]

theorem find_eq (m : List (CString × Int)) (Name : CString) :
    UniformLocations.find m Name = m.find? (fun e => decide (e.1.content = Name.content)) := by
  unfold UniformLocations.find
  congr 1
  funext e
  exact find_test_eq e.1 Name

theorem find_congr (m : List (CString × Int)) (a b : CString) (h : a.content = b.content) :
    UniformLocations.find m a = UniformLocations.find m b := by
  rw [find_eq, find_eq, h]

theorem takeWhile_take_strlen (bytes : List Nat) :
    (bytes.take (strlen bytes + 1)).takeWhile (fun c => c != 0)
      = bytes.takeWhile (fun c => c != 0) := by
  induction bytes with
  | nil => rfl
  | cons c rest ih =>
    by_cases hc : c = 0
    · simp [strlen, hc, List.takeWhile_cons]
    · simp [strlen, hc, List.takeWhile_cons, ih]

theorem content_copy (Buffer : Nat) (Name : CString) :
    (CString.mk Buffer (Name.bytes.take (strlen Name.bytes + 1))).content = Name.content :=
  takeWhile_take_strlen Name.bytes

/-- Lookup after an insertion on a miss: the new entry answers for its own
content, every other content is answered as before. -/
theorem find_emplace (m : List (CString × Int)) (Key Name : CString) (Location : Int)
    (hmiss : UniformLocations.find m Key = none) :
    UniformLocations.find (UniformLocations.emplace m Key Location) Name =
      if Key.content = Name.content then some (Key, Location)
      else UniformLocations.find m Name := by
  unfold UniformLocations.emplace
  rw [hmiss]
  simp only
  rw [find_eq, List.find?_append]
  by_cases h : Key.content = Name.content
  · have : UniformLocations.find m Name = none := by rw [← find_congr m Key Name h]; exact hmiss
    rw [find_eq] at this
    simp [this, h]
  · simp [h, find_eq]

theorem firstLocation_append (n : List Nat) (a b : List SetUniformCall) :
    firstLocation n (a ++ b) = (firstLocation n a).or (firstLocation n b) := by
  induction a with
  | nil => simp [firstLocation]
  | cons c rest ih =>
    simp only [List.cons_append, firstLocation]
    split_ifs
    · rfl
    · exact ih

theorem firstLocation_eq_none (n : List Nat) (a : List SetUniformCall) :
    firstLocation n a = none ↔ ∀ d ∈ a, d.Name.content ≠ n := by
  induction a with
  | nil => simp [firstLocation]
  | cons c rest ih =>
    simp only [firstLocation, List.mem_cons, forall_eq_or_imp]
    split_ifs with h
    · simp [h]
    · simp [h, ih]

theorem runSetUniform_append (a b : List SetUniformCall) (p : ShaderProgram) :
    runSetUniform p (a ++ b) =
      ((runSetUniform (runSetUniform p a).1 b).1,
        (runSetUniform p a).2 ++ (runSetUniform (runSetUniform p a).1 b).2) := by
  induction a generalizing p with
  | nil => simp [runSetUniform]
  | cons c rest ih =>
    show runSetUniform p (c :: (rest ++ b)) = _
    simp only [runSetUniform]
    rw [ih]
    simp

theorem runSetUniform_length (a : List SetUniformCall) (p : ShaderProgram) :
    (runSetUniform p a).2.length = a.length := by
  induction a generalizing p with
  | nil => rfl
  | cons c rest ih => simp [runSetUniform, ih]

theorem GetUniformLocation_hit (p : ShaderProgram) (env : Backend) (Name : CString)
    (e : CString × Int) (h : UniformLocations.find p.UniformLocations Name = some e) :
    ShaderProgram.GetUniformLocation p env Name = (e.2, p, []) := by
  simp [ShaderProgram.GetUniformLocation, h]

theorem GetUniformLocation_miss (p : ShaderProgram) (env : Backend) (Name : CString)
    (Buffer : Nat) (h : UniformLocations.find p.UniformLocations Name = none)
    (hm : env.malloc = some Buffer) :
    ShaderProgram.GetUniformLocation p env Name =
      (env.glGetUniformLocation,
        { p with UniformLocations := (UniformLocations.emplace p.UniformLocations
            ⟨Buffer, Name.bytes.take (strlen Name.bytes + 1)⟩ env.glGetUniformLocation) },
        [.glGetUniformLocation p.Program Name]) := by
  simp [ShaderProgram.GetUniformLocation, h, hm]

theorem GetUniformLocation_miss_null (p : ShaderProgram) (env : Backend) (Name : CString)
    (h : UniformLocations.find p.UniformLocations Name = none) (hm : env.malloc = none) :
    ShaderProgram.GetUniformLocation p env Name =
      (-1, p, [.glGetUniformLocation p.Program Name]) := by
  simp [ShaderProgram.GetUniformLocation, h, hm]

theorem SetUniform_state (p : ShaderProgram) (env : Backend) (Name : CString)
    (Value : UniformValue) :
    (ShaderProgram.SetUniform p env Name Value).2.1
      = (ShaderProgram.GetUniformLocation p env Name).2.1 := by
  simp only [ShaderProgram.SetUniform]
  split_ifs <;> rfl

/-- After a history of calls whose allocations succeed, the cache answers for a
name with what it held before, else with the location the first call of the
history with that name content obtained. -/
theorem cached_run (pre : List SetUniformCall) (p : ShaderProgram) (Name : CString)
    (hpre : ∀ d ∈ pre, d.env.malloc.isSome = true) :
    cached (runSetUniform p pre).1 Name
      = (cached p Name).or (firstLocation Name.content pre) ∧
    (runSetUniform p pre).1.Program = p.Program := by
  induction pre generalizing p with
  | nil => simp [runSetUniform, firstLocation]
  | cons c rest ih =>
    have hrest : ∀ d ∈ rest, d.env.malloc.isSome = true :=
      fun d hd => hpre d (List.mem_cons_of_mem _ hd)
    have hc := hpre c (List.mem_cons_self _ _)
    obtain ⟨Buffer, hB⟩ := Option.isSome_iff_exists.1 hc
    have hrun : (runSetUniform p (c :: rest)).1
        = (runSetUniform (ShaderProgram.GetUniformLocation p c.env c.Name).2.1 rest).1 := by
      simp only [runSetUniform]
      rw [← SetUniform_state p c.env c.Name c.Value]
    rw [hrun]
    cases hf : UniformLocations.find p.UniformLocations c.Name with
    | some e =>
      rw [GetUniformLocation_hit p c.env c.Name e hf]
      obtain ⟨i1, i2⟩ := ih p hrest
      refine ⟨?_, i2⟩
      rw [i1]
      cases hn : cached p Name with
      | some l => simp
      | none =>
        have hne : c.Name.content ≠ Name.content := by
          intro hcn
          have := find_congr p.UniformLocations c.Name Name hcn
          rw [hf] at this
          simp [cached, ← this] at hn
        simp [firstLocation, hne]
    | none =>
      rw [GetUniformLocation_miss p c.env c.Name Buffer hf hB]
      obtain ⟨i1, i2⟩ := ih { p with UniformLocations := (UniformLocations.emplace
        p.UniformLocations ⟨Buffer, c.Name.bytes.take (strlen c.Name.bytes + 1)⟩
        c.env.glGetUniformLocation) } hrest
      refine ⟨?_, i2⟩
      rw [i1]
      have hmiss : UniformLocations.find p.UniformLocations
          ⟨Buffer, c.Name.bytes.take (strlen c.Name.bytes + 1)⟩ = none := by
        rw [find_congr _ _ c.Name (content_copy Buffer c.Name)]; exact hf
      simp only [cached]
      rw [find_emplace _ _ Name _ hmiss, content_copy]
      by_cases hcn : c.Name.content = Name.content
      · have : UniformLocations.find p.UniformLocations Name = none := by
          rw [← find_congr p.UniformLocations c.Name Name hcn]; exact hf
        simp [hcn, this, firstLocation]
      · simp [hcn, firstLocation]

/-- C7: in any sequence of `SetUniform(name, v)` calls on a freshly constructed
program in which every allocation of a name copy succeeds, each call returns
`true` exactly when the location that the first call with the same name content
obtained from the backend is not -1 (so all calls for one name content return the
same boolean), and the backend calls it makes are: the location lookup if and
only if no earlier call had the same name content, followed by one setter when
that location is not -1. -/
theorem SetUniform_lookup_once (Program : Nat) (pre post : List SetUniformCall)
    (c : SetUniformCall) (Location : Int)
    (hmalloc : ∀ d ∈ pre ++ c :: post, d.env.malloc.isSome = true)
    (hloc : firstLocation c.Name.content (pre ++ c :: post) = some Location) :
    (runSetUniform (ShaderProgram.construct Program) (pre ++ c :: post)).2[pre.length]?
      = some (decide (Location ≠ -1), expectedCalls Program pre c Location) := by
  have hpre : ∀ d ∈ pre, d.env.malloc.isSome = true :=
    fun d hd => hmalloc d (List.mem_append_left _ hd)
  have hc : c.env.malloc.isSome = true :=
    hmalloc c (List.mem_append_right _ (List.mem_cons_self _ _))
  obtain ⟨Buffer, hB⟩ := Option.isSome_iff_exists.1 hc
  rw [runSetUniform_append]
  simp only
  rw [List.getElem?_append_right (by rw [runSetUniform_length])]
  simp only [runSetUniform_length, Nat.sub_self, runSetUniform, List.getElem?_cons_zero,
    Option.some.injEq]
  obtain ⟨hcache, hprog⟩ := cached_run pre (ShaderProgram.construct Program) c.Name hpre
  have hnil : cached (ShaderProgram.construct Program) c.Name = none := rfl
  rw [hnil, Option.none_or] at hcache
  rw [firstLocation_append] at hloc
  simp only [firstLocation, if_true] at hloc
  simp only [ShaderProgram.SetUniform, expectedCalls]
  cases hf : UniformLocations.find (runSetUniform (ShaderProgram.construct Program) pre).1.UniformLocations
      c.Name with
  | some e =>
    have h1 : firstLocation c.Name.content pre = some e.2 := by
      rw [← hcache]; simp [cached, hf]
    rw [h1] at hloc
    simp only [Option.or, Option.some.injEq] at hloc
    rw [GetUniformLocation_hit _ c.env c.Name e hf, h1, hloc]
    by_cases hl : Location = -1
    · simp [hl]
    · simp [hl]
  | none =>
    have h1 : firstLocation c.Name.content pre = none := by
      rw [← hcache]; simp [cached, hf]
    rw [h1] at hloc
    simp only [Option.none_or, Option.some.injEq] at hloc
    rw [GetUniformLocation_miss _ c.env c.Name Buffer hf hB, h1, hloc, hprog]
    by_cases hl : Location = -1
    · simp [hl, ShaderProgram.construct]
    · simp [hl, ShaderProgram.construct]

/-- C7 witness: name `u` resolved to 4, name `n` reported as -1 by the backend,
then `n` again from another address while the backend would now answer 7. -/
theorem SetUniform_lookup_once_witness :
    (runSetUniform (ShaderProgram.construct 3)
        ([⟨⟨16, [117, 0]⟩, .f32 0, ⟨4, some 100⟩⟩, ⟨⟨32, [110, 0]⟩, .f32 0, ⟨-1, some 200⟩⟩] ++
          ⟨⟨48, [110, 0, 9]⟩, .f32 1, ⟨7, some 300⟩⟩ ::
          [⟨⟨16, [117, 0]⟩, .i32 2, ⟨-1, some 400⟩⟩])).2[
        ([⟨⟨16, [117, 0]⟩, .f32 0, ⟨4, some 100⟩⟩,
          ⟨⟨32, [110, 0]⟩, .f32 0, ⟨-1, some 200⟩⟩] : List SetUniformCall).length]?
      = some (decide ((-1 : Int) ≠ -1),
          expectedCalls 3
            [⟨⟨16, [117, 0]⟩, .f32 0, ⟨4, some 100⟩⟩, ⟨⟨32, [110, 0]⟩, .f32 0, ⟨-1, some 200⟩⟩]
            ⟨⟨48, [110, 0, 9]⟩, .f32 1, ⟨7, some 300⟩⟩ (-1)) :=
  SetUniform_lookup_once 3 _ _ _ (-1) (by decide) (by decide)

/-- C8: the cache key is the character content of a name, not its address. For
two names with equal contents `Hash` agrees and `Equal` holds, and once the
first is resolved (its copy allocated if it was a miss) resolving the second
returns the same location without any backend call and without changing the
cache. For two names with different contents `Equal` fails, resolving the first
does not change what the cache holds for the second, and resolving both on a
fresh program leaves two entries. -/
theorem cache_key_is_content (a b : CString) :
    (a.content = b.content →
      ShaderProgram.Hash a = ShaderProgram.Hash b ∧ ShaderProgram.Equal a b = true ∧
      ∀ (p : ShaderProgram) (env1 env2 : Backend), env1.malloc.isSome = true →
        ShaderProgram.GetUniformLocation
            (ShaderProgram.GetUniformLocation p env1 a).2.1 env2 b
          = ((ShaderProgram.GetUniformLocation p env1 a).1,
              (ShaderProgram.GetUniformLocation p env1 a).2.1, [])) ∧
    (a.content ≠ b.content →
      ShaderProgram.Equal a b = false ∧
      (∀ (p : ShaderProgram) (env1 : Backend),
        UniformLocations.find (ShaderProgram.GetUniformLocation p env1 a).2.1.UniformLocations b
          = UniformLocations.find p.UniformLocations b) ∧
      ∀ (Program : Nat) (env1 env2 : Backend), env1.malloc.isSome = true →
        env2.malloc.isSome = true →
        ((ShaderProgram.GetUniformLocation
            (ShaderProgram.GetUniformLocation (ShaderProgram.construct Program) env1 a).2.1
            env2 b).2.1.UniformLocations.map Prod.snd)
          = [env1.glGetUniformLocation, env2.glGetUniformLocation]) := by
  constructor
  · intro hab
    refine ⟨Hash_eq_of_content a b hab, (Equal_iff_content a b).2 hab, ?_⟩
    intro p env1 env2 hm
    obtain ⟨Buffer, hB⟩ := Option.isSome_iff_exists.1 hm
    cases hf : UniformLocations.find p.UniformLocations a with
    | some e =>
      rw [GetUniformLocation_hit p env1 a e hf]
      exact GetUniformLocation_hit p env2 b e (by rw [← find_congr _ a b hab]; exact hf)
    | none =>
      rw [GetUniformLocation_miss p env1 a Buffer hf hB]
      have hmiss : UniformLocations.find p.UniformLocations
          ⟨Buffer, a.bytes.take (strlen a.bytes + 1)⟩ = none := by
        rw [find_congr _ _ a (content_copy Buffer a)]; exact hf
      exact GetUniformLocation_hit _ env2 b
        (⟨Buffer, a.bytes.take (strlen a.bytes + 1)⟩, env1.glGetUniformLocation)
        (by simp only; rw [find_emplace _ _ b _ hmiss, content_copy, if_pos hab])
  · intro hab
    have hE : ShaderProgram.Equal a b = false := by
      cases h : ShaderProgram.Equal a b with
      | false => rfl
      | true => exact absurd ((Equal_iff_content a b).1 h) hab
    have hkeep : ∀ (p : ShaderProgram) (env1 : Backend),
        UniformLocations.find (ShaderProgram.GetUniformLocation p env1 a).2.1.UniformLocations b
          = UniformLocations.find p.UniformLocations b := by
      intro p env1
      cases hf : UniformLocations.find p.UniformLocations a with
      | some e => rw [GetUniformLocation_hit p env1 a e hf]
      | none =>
        cases hB : env1.malloc with
        | none => rw [GetUniformLocation_miss_null p env1 a hf hB]
        | some Buffer =>
          rw [GetUniformLocation_miss p env1 a Buffer hf hB]
          have hmiss : UniformLocations.find p.UniformLocations
              ⟨Buffer, a.bytes.take (strlen a.bytes + 1)⟩ = none := by
            rw [find_congr _ _ a (content_copy Buffer a)]; exact hf
          simp only
          rw [find_emplace _ _ b _ hmiss, content_copy, if_neg hab]
    refine ⟨hE, hkeep, ?_⟩
    intro Program env1 env2 h1 h2
    obtain ⟨B1, hB1⟩ := Option.isSome_iff_exists.1 h1
    obtain ⟨B2, hB2⟩ := Option.isSome_iff_exists.1 h2
    have hfb := hkeep (ShaderProgram.construct Program) env1
    have hnil : UniformLocations.find (ShaderProgram.construct Program).UniformLocations b = none :=
      rfl
    rw [hnil] at hfb
    have hfa : UniformLocations.find (ShaderProgram.construct Program).UniformLocations a = none :=
      rfl
    have hfb2 : UniformLocations.find
        (ShaderProgram.GetUniformLocation (ShaderProgram.construct Program) env1
          a).2.1.UniformLocations ⟨B2, b.bytes.take (strlen b.bytes + 1)⟩ = none := by
      rw [find_congr _ _ b (content_copy B2 b)]; exact hfb
    rw [GetUniformLocation_miss _ env2 b B2 hfb hB2]
    simp only [UniformLocations.emplace, hfb2]
    rw [GetUniformLocation_miss _ env1 a B1 hfa hB1]
    simp [UniformLocations.emplace, UniformLocations.find, ShaderProgram.construct]

/-- C8 witness: the name `ab` held at two addresses (the second followed by other
bytes), and the names `ab` and `ac`. -/
theorem cache_key_is_content_witness :
    (ShaderProgram.Hash ⟨16, [97, 98, 0]⟩ = ShaderProgram.Hash ⟨64, [97, 98, 0, 7]⟩ ∧
      ShaderProgram.Equal ⟨16, [97, 98, 0]⟩ ⟨64, [97, 98, 0, 7]⟩ = true ∧
      ∀ (p : ShaderProgram) (env1 env2 : Backend), env1.malloc.isSome = true →
        ShaderProgram.GetUniformLocation
            (ShaderProgram.GetUniformLocation p env1 ⟨16, [97, 98, 0]⟩).2.1 env2
            ⟨64, [97, 98, 0, 7]⟩
          = ((ShaderProgram.GetUniformLocation p env1 ⟨16, [97, 98, 0]⟩).1,
              (ShaderProgram.GetUniformLocation p env1 ⟨16, [97, 98, 0]⟩).2.1, [])) ∧
    ShaderProgram.Equal ⟨16, [97, 98, 0]⟩ ⟨16, [97, 99, 0]⟩ = false :=
  ⟨(cache_key_is_content ⟨16, [97, 98, 0]⟩ ⟨64, [97, 98, 0, 7]⟩).1 (by decide),
    ((cache_key_is_content ⟨16, [97, 98, 0]⟩ ⟨16, [97, 99, 0]⟩).2 (by decide)).1⟩

theorem SetUniformLocation_isSetter (Location : Int) (Value : UniformValue) :
    (ShaderProgram.SetUniformLocation Location Value).isSetter = true ∧
    (ShaderProgram.SetUniformLocation Location Value).location? = some Location := by
  cases Value <;> exact ⟨rfl, rfl⟩

theorem SetUniformLocationv_isSetter (Location : Int) (T : UniformType) (Values : Nat)
    (Count : Int) :
    (ShaderProgram.SetUniformLocationv Location T Values Count).isSetter = true ∧
    (ShaderProgram.SetUniformLocationv Location T Values Count).location? = some Location := by
  cases T <;> exact ⟨rfl, rfl⟩

theorem GetUniformLocation_no_setter (p : ShaderProgram) (env : Backend) (Name : CString) :
    (ShaderProgram.GetUniformLocation p env Name).2.2.filter GLCall.isSetter = [] := by
  unfold ShaderProgram.GetUniformLocation
  cases UniformLocations.find p.UniformLocations Name with
  | some e => rfl
  | none => cases env.malloc <;> rfl

/-- C9: `SetUniform(name, value)` returns `false` exactly when the location
resolved by `GetUniformLocation` is -1; the program state is the one left by the
resolution; the uniform setters among its backend calls are none when the
location is -1 and otherwise exactly one, the call chosen for the value's type,
which is a setter carrying the resolved location. The same holds for the array
overload. -/
theorem SetUniform_false_iff_unresolved (p : ShaderProgram) (env : Backend) (Name : CString)
    (Value : UniformValue) (T : UniformType) (Values : Nat) (Count : Int) :
    (((ShaderProgram.SetUniform p env Name Value).1 = false ↔
        (ShaderProgram.GetUniformLocation p env Name).1 = -1) ∧
      (ShaderProgram.SetUniform p env Name Value).2.1
        = (ShaderProgram.GetUniformLocation p env Name).2.1 ∧
      (ShaderProgram.SetUniform p env Name Value).2.2.filter GLCall.isSetter
        = (if (ShaderProgram.GetUniformLocation p env Name).1 = -1 then []
           else [ShaderProgram.SetUniformLocation
                  (ShaderProgram.GetUniformLocation p env Name).1 Value]) ∧
      (ShaderProgram.SetUniformLocation
          (ShaderProgram.GetUniformLocation p env Name).1 Value).isSetter = true ∧
      (ShaderProgram.SetUniformLocation
          (ShaderProgram.GetUniformLocation p env Name).1 Value).location?
        = some (ShaderProgram.GetUniformLocation p env Name).1) ∧
    (((ShaderProgram.SetUniformv p env Name T Values Count).1 = false ↔
        (ShaderProgram.GetUniformLocation p env Name).1 = -1) ∧
      (ShaderProgram.SetUniformv p env Name T Values Count).2.1
        = (ShaderProgram.GetUniformLocation p env Name).2.1 ∧
      (ShaderProgram.SetUniformv p env Name T Values Count).2.2.filter GLCall.isSetter
        = (if (ShaderProgram.GetUniformLocation p env Name).1 = -1 then []
           else [ShaderProgram.SetUniformLocationv
                  (ShaderProgram.GetUniformLocation p env Name).1 T Values Count]) ∧
      (ShaderProgram.SetUniformLocationv
          (ShaderProgram.GetUniformLocation p env Name).1 T Values Count).isSetter = true ∧
      (ShaderProgram.SetUniformLocationv
          (ShaderProgram.GetUniformLocation p env Name).1 T Values Count).location?
        = some (ShaderProgram.GetUniformLocation p env Name).1) := by
  have hns := GetUniformLocation_no_setter p env Name
  have h1 := SetUniformLocation_isSetter (ShaderProgram.GetUniformLocation p env Name).1 Value
  have h2 := SetUniformLocationv_isSetter (ShaderProgram.GetUniformLocation p env Name).1 T
    Values Count
  refine ⟨⟨?_, ?_, ?_, h1.1, h1.2⟩, ⟨?_, ?_, ?_, h2.1, h2.2⟩⟩
  all_goals
    simp only [ShaderProgram.SetUniform, ShaderProgram.SetUniformv]
    by_cases hl : (ShaderProgram.GetUniformLocation p env Name).1 = -1
    · simp [hl, hns]
    · simp [hl, hns, h1.1, h2.1]

/-- C10: when the name is not in the cache and `malloc` returns the null pointer,
`GetUniformLocation` returns -1 and leaves the program state (the cache with
it) as it was, whatever location the backend reported; its only backend call is
the lookup, and a later call with the same name content is again a miss that
performs the lookup. -/
theorem GetUniformLocation_malloc_failure (p : ShaderProgram) (env : Backend) (Name : CString)
    (hmiss : UniformLocations.find p.UniformLocations Name = none)
    (hnull : env.malloc = none) :
    ShaderProgram.GetUniformLocation p env Name
      = (-1, p, [GLCall.glGetUniformLocation p.Program Name]) ∧
    ∀ (env2 : Backend) (Name2 : CString), Name2.content = Name.content →
      (ShaderProgram.GetUniformLocation
          (ShaderProgram.GetUniformLocation p env Name).2.1 env2 Name2).2.2
        = [GLCall.glGetUniformLocation p.Program Name2] := by
  have h1 := GetUniformLocation_miss_null p env Name hmiss hnull
  refine ⟨h1, ?_⟩
  intro env2 Name2 hc
  rw [h1]
  have hm2 : UniformLocations.find p.UniformLocations Name2 = none := by
    rw [find_congr _ Name2 Name hc]; exact hmiss
  simp only
  cases hB : env2.malloc with
  | none => rw [GetUniformLocation_miss_null p env2 Name2 hm2 hB]
  | some Buffer => rw [GetUniformLocation_miss p env2 Name2 Buffer hm2 hB]

/-- C10 witness: a fresh program, the backend reporting location 5 while the
allocation fails. -/
theorem GetUniformLocation_malloc_failure_witness :
    ShaderProgram.GetUniformLocation (ShaderProgram.construct 3) ⟨5, none⟩ ⟨16, [97, 0]⟩
      = (-1, ShaderProgram.construct 3,
          [GLCall.glGetUniformLocation (ShaderProgram.construct 3).Program ⟨16, [97, 0]⟩]) ∧
    ∀ (env2 : Backend) (Name2 : CString), Name2.content = (CString.mk 16 [97, 0]).content →
      (ShaderProgram.GetUniformLocation
          (ShaderProgram.GetUniformLocation (ShaderProgram.construct 3) ⟨5, none⟩
            ⟨16, [97, 0]⟩).2.1 env2 Name2).2.2
        = [GLCall.glGetUniformLocation (ShaderProgram.construct 3).Program Name2] :=
  GetUniformLocation_malloc_failure (ShaderProgram.construct 3) ⟨5, none⟩ ⟨16, [97, 0]⟩
    rfl rfl

/-! ## Name buffers, key records, window control and frame timing -/

theorem GetUniformLocationHeap_agrees (p : ShaderProgram) (heap : List Nat) (env : Backend)
    (Name : CString) :
    (ShaderProgram.GetUniformLocationHeap p heap env Name).1
      = (ShaderProgram.GetUniformLocation p env Name).1 ∧
    (ShaderProgram.GetUniformLocationHeap p heap env Name).2.1
      = (ShaderProgram.GetUniformLocation p env Name).2.1 := by
  unfold ShaderProgram.GetUniformLocationHeap ShaderProgram.GetUniformLocation
  cases UniformLocations.find p.UniformLocations Name with
  | some e => exact ⟨rfl, rfl⟩
  | none => cases env.malloc <;> exact ⟨rfl, rfl⟩

/-- One call keeps the live buffers equal to the key pointers of the cache. -/
theorem GetUniformLocationHeap_keys (p : ShaderProgram) (heap : List Nat) (env : Backend)
    (Name : CString) (h : heap = p.UniformLocations.map (fun e => e.1.ptr)) :
    (ShaderProgram.GetUniformLocationHeap p heap env Name).2.2
      = (ShaderProgram.GetUniformLocationHeap p heap env Name).2.1.UniformLocations.map
          (fun e => e.1.ptr) := by
  unfold ShaderProgram.GetUniformLocationHeap
  cases hf : UniformLocations.find p.UniformLocations Name with
  | some e => exact h
  | none =>
    cases hB : env.malloc with
    | none => exact h
    | some Buffer =>
      have hmiss : UniformLocations.find p.UniformLocations
          ⟨Buffer, Name.bytes.take (strlen Name.bytes + 1)⟩ = none := by
        rw [find_congr _ _ Name (content_copy Buffer Name)]; exact hf
      simp [UniformLocations.emplace, hmiss, h]

theorem runGetUniformLocation_keys (calls : List GetUniformLocationCall) (p : ShaderProgram)
    (heap : List Nat) (h : heap = p.UniformLocations.map (fun e => e.1.ptr)) :
    (runGetUniformLocation p heap calls).2
      = (runGetUniformLocation p heap calls).1.UniformLocations.map (fun e => e.1.ptr) := by
  induction calls generalizing p heap with
  | nil => exact h
  | cons c rest ih =>
    simp only [runGetUniformLocation]
    exact ih _ _ (GetUniformLocationHeap_keys p heap c.env c.Name h)

theorem destructorLoop_keys (m : List (CString × Int)) :
    ShaderProgram.destructorLoop m (m.map (fun e => e.1.ptr)) = some [] := by
  induction m with
  | nil => rfl
  | cons e rest ih =>
    simp only [ShaderProgram.destructorLoop, List.map_cons, free, List.mem_cons, true_or,
      if_true, List.erase_cons_head]
    exact ih

/-- C11: after any sequence of `GetUniformLocation` calls on a freshly
constructed program, the live name buffers obtained from `malloc` are exactly
the key pointers stored in the cache (every successful allocation was inserted);
the destructor then finds every pointer it frees among the live buffers (none is
freed twice) and leaves no live buffer. The calls of the history behave as
`GetUniformLocation` does. -/
theorem name_buffers_are_cache_keys (Program : Nat) (calls : List GetUniformLocationCall) :
    (runGetUniformLocation (ShaderProgram.construct Program) [] calls).2
      = (runGetUniformLocation (ShaderProgram.construct Program) [] calls).1.UniformLocations.map
          (fun e => e.1.ptr) ∧
    ShaderProgram.destructor (runGetUniformLocation (ShaderProgram.construct Program) [] calls).1
        (runGetUniformLocation (ShaderProgram.construct Program) [] calls).2 = some [] ∧
    ∀ (p : ShaderProgram) (heap : List Nat) (env : Backend) (Name : CString),
      (ShaderProgram.GetUniformLocationHeap p heap env Name).1
        = (ShaderProgram.GetUniformLocation p env Name).1 ∧
      (ShaderProgram.GetUniformLocationHeap p heap env Name).2.1
        = (ShaderProgram.GetUniformLocation p env Name).2.1 := by
  have h := runGetUniformLocation_keys calls (ShaderProgram.construct Program) [] rfl
  refine ⟨h, ?_, GetUniformLocationHeap_agrees⟩
  unfold ShaderProgram.destructor
  rw [h]
  exact destructorLoop_keys _

theorem deliver_record (w w1 : Window) (e : Event) (Key : KeyCodes)
    (h : e.deliver w = some w1) : w1.Keys Key = recordAfter Key e (w.Keys Key) := by
  cases e with
  | Key n sc a m t =>
    have hb := ConvertGLFWKey_inBounds n
    simp only [Event.deliver, KeyCallBack] at h
    simp only [recordAfter, Event.isPressOf, Event.isReleaseOf, Event.time]
    have hpr : ¬ (GLFW_PRESS = GLFW_RELEASE) := by decide
    by_cases ha : a = GLFW_PRESS
    · subst ha
      simp only [if_true, hb] at h
      cases h
      by_cases hk : ConvertGLFWKey n = Key
      · subst hk; simp
      · simp [hk, Function.update_noteq (Ne.symm hk)]
    · by_cases hr : a = GLFW_RELEASE
      · subst hr
        simp only [ha, if_true, if_false, hb] at h
        cases h
        by_cases hk : ConvertGLFWKey n = Key
        · subst hk; simp [ha]
        · simp [hk, Function.update_noteq (Ne.symm hk)]
      · simp only [ha, hr, if_false] at h
        cases h
        simp [ha, hr]
  | MouseButton b a m t =>
    simp only [Event.deliver, MouseButtonCallBack] at h
    simp only [recordAfter, Event.isPressOf, Event.isReleaseOf]
    split at h
    · cases h
    · split_ifs at h <;> cases h <;> simp
  | _ =>
    simp only [Event.deliver] at h
    cases h
    simp [recordAfter, Event.isPressOf, Event.isReleaseOf, PositionCallBack, SizeCallBack,
      FrameBufferSizeCallBack, CursorPositionCallBack, ScrollCallBack, SetPositionInternal,
      SetSizeInternal, SetFrameBufferSizeInternal]

theorem apply_record (w w1 : Window) (op : Op) (Key : KeyCodes)
    (h : op.apply w = some w1) : w1.Keys Key = recordAfterOp Key op (w.Keys Key) := by
  cases op with
  | Callback e => exact deliver_record w w1 e Key h
  | TickPrologue t =>
    simp only [Op.apply, Option.some.injEq] at h
    subst h
    simp [recordAfterOp, TickPrologue]
  | WasKeyJustPressed Other =>
    simp only [Op.apply, WasKeyJustPressed] at h
    simp only [recordAfterOp]
    split_ifs at h with hb hpr
    · simp only [Option.map_some', Option.some.injEq] at h
      subst h
      simp only [Bool.and_eq_true] at hpr
      by_cases hk : Other = Key
      · subst hk; simp [hpr.1, hpr.2]
      · simp [hk, Function.update_noteq (Ne.symm hk)]
    · simp only [Option.map_some', Option.some.injEq] at h
      subst h
      simp only [Bool.and_eq_true] at hpr
      by_cases hk : Other = Key
      · subst hk
        rw [if_neg (fun hc => hpr ⟨hc.2.1, hc.2.2⟩)]
      · simp [hk]
    · simp only [Option.map_none'] at h
      cases h
  | WasMouseButtonJustPressed b =>
    simp only [Op.apply, WasMouseButtonJustPressed] at h
    split_ifs at h <;> simp only [Option.map_some', Option.some.injEq, Option.map_none'] at h
      <;> first | (subst h; simp [recordAfterOp]) | cases h
  | Close =>
    simp only [Op.apply, Option.some.injEq] at h
    subst h
    simp [recordAfterOp, Close]

theorem runOps_record (ops : List Op) (w w1 : Window) (Key : KeyCodes)
    (h : runOps w ops = some w1) : w1.Keys Key = recordRun Key ops (w.Keys Key) := by
  induction ops generalizing w with
  | nil => simp only [runOps, Option.some.injEq] at h; subst h; rfl
  | cons op rest ih =>
    simp only [runOps] at h
    cases h1 : op.apply w with
    | none => rw [h1] at h; cases h
    | some w2 =>
      rw [h1] at h
      simp only [recordRun]
      rw [ih w2 h, apply_record w w2 op Key h1]

/-- Running the steps keeps `Pressed` and `TimeSincePressed` of the record in
line with the most recent press or release callback. -/
theorem recordRun_last (Key : KeyCodes) (ops : List Op) (cur : Option Event) (r : Base.Key)
    (hP : r.Pressed = heldBy Key cur) (hT : r.TimeSincePressed = pressTimeBy Key cur) :
    (recordRun Key ops r).Pressed = heldBy Key (lastKeyEvent Key cur ops) ∧
    (recordRun Key ops r).TimeSincePressed = pressTimeBy Key (lastKeyEvent Key cur ops) := by
  induction ops generalizing cur r with
  | nil => exact ⟨hP, hT⟩
  | cons op rest ih =>
    simp only [recordRun, lastKeyEvent]
    cases op with
    | Callback e =>
      simp only [recordAfterOp, recordAfter, Op.keyEvent?]
      by_cases hp : e.isPressOf Key = true
      · simp only [hp, Bool.true_or, if_true]
        exact ih (some e) _ (by simp [heldBy, hp]) (by simp [pressTimeBy, hp])
      · simp only [Bool.not_eq_true] at hp
        by_cases hr : e.isReleaseOf Key = true
        · simp only [hp, hr, Bool.or_true, if_true, Bool.false_eq_true, if_false]
          exact ih (some e) _ (by simp [heldBy, hp]) (by simp [pressTimeBy, hp])
        · simp only [Bool.not_eq_true] at hr
          simp only [hp, hr, Bool.or_false, Bool.false_eq_true, if_false]
          exact ih cur r hP hT
    | WasKeyJustPressed Other =>
      simp only [recordAfterOp, Op.keyEvent?]
      split_ifs
      · exact ih cur _ hP hT
      · exact ih cur r hP hT
    | _ =>
      simp only [recordAfterOp, Op.keyEvent?]
      exact ih cur r hP hT

/-- C12: on a freshly constructed surface, after any history of callbacks and
calls, `IsKeyDown(Key)` is `true` exactly when the most recent press or release
callback whose native key converts to `Key` was a press (`false` when there was
none); and a key callback with the repeat action, or for a native key that
converts to another code, leaves `IsKeyDown(Key)` as it was. -/
theorem IsKeyDown_follows_last_callback (Key : KeyCodes) (FrameBufferSize Size Position : ivec2)
    (ops : List Op) (hKey : Key.InBounds) (hdef : ∀ op ∈ ops, op.Defined = true) :
    (∃ w, runOps (Window.construct FrameBufferSize Size Position) ops = some w ∧
      IsKeyDown w Key = some (heldBy Key (lastKeyEvent Key none ops))) ∧
    ∀ (w : Window) (NativeKey Scancode Action Mods : Int) (t : f64),
      Action = GLFW_REPEAT ∨ ConvertGLFWKey NativeKey ≠ Key →
      ∃ w1, KeyCallBack w NativeKey Scancode Action Mods t = some w1 ∧
        IsKeyDown w1 Key = IsKeyDown w Key := by
  constructor
  · obtain ⟨w, hw⟩ := runOps_defined ops (Window.construct FrameBufferSize Size Position) hdef
    refine ⟨w, hw, ?_⟩
    have hr := runOps_record ops _ w Key hw
    have := (recordRun_last Key ops none ((Window.construct FrameBufferSize Size Position).Keys Key)
      rfl rfl).1
    simp only [IsKeyDown, hKey, if_true, hr, this]
  · intro w n sc a m t hcase
    obtain ⟨w1, hw1⟩ := deliver_defined w (.Key n sc a m t) rfl
    refine ⟨w1, hw1, ?_⟩
    have hrec := deliver_record w w1 (.Key n sc a m t) Key hw1
    have hnp : (Event.Key n sc a m t).isPressOf Key = false := by
      rcases hcase with ha | hk
      · subst ha
        have : (GLFW_REPEAT == GLFW_PRESS) = false := by decide
        simp [Event.isPressOf, this]
      · simp [Event.isPressOf, hk]
    have hnr : (Event.Key n sc a m t).isReleaseOf Key = false := by
      rcases hcase with ha | hk
      · subst ha
        have : (GLFW_REPEAT == GLFW_RELEASE) = false := by decide
        simp [Event.isReleaseOf, this]
      · simp [Event.isReleaseOf, hk]
    simp only [recordAfter, hnp, hnr, Bool.false_eq_true, if_false] at hrec
    simp only [IsKeyDown, hrec]

/-- C12 witness: key `A` pressed, a repeat for `A`, a press of `B`, `A` released
and pressed again. -/
theorem IsKeyDown_follows_last_callback_witness :
    (∃ w, runOps (Window.construct ⟨800, 600⟩ ⟨800, 600⟩ ⟨100, 100⟩)
        [Op.Callback (.Key GLFW_KEY_A 0 GLFW_PRESS 0 1),
         Op.Callback (.Key GLFW_KEY_A 0 GLFW_REPEAT 0 2),
         Op.Callback (.Key GLFW_KEY_B 0 GLFW_PRESS 0 3),
         Op.Callback (.Key GLFW_KEY_A 0 GLFW_RELEASE 0 4),
         Op.Callback (.Key GLFW_KEY_A 0 GLFW_PRESS 0 5)] = some w ∧
      IsKeyDown w .A = some (heldBy .A (lastKeyEvent .A none
        [Op.Callback (.Key GLFW_KEY_A 0 GLFW_PRESS 0 1),
         Op.Callback (.Key GLFW_KEY_A 0 GLFW_REPEAT 0 2),
         Op.Callback (.Key GLFW_KEY_B 0 GLFW_PRESS 0 3),
         Op.Callback (.Key GLFW_KEY_A 0 GLFW_RELEASE 0 4),
         Op.Callback (.Key GLFW_KEY_A 0 GLFW_PRESS 0 5)]))) ∧
    ∀ (w : Window) (NativeKey Scancode Action Mods : Int) (t : f64),
      Action = GLFW_REPEAT ∨ ConvertGLFWKey NativeKey ≠ .A →
      ∃ w1, KeyCallBack w NativeKey Scancode Action Mods t = some w1 ∧
        IsKeyDown w1 .A = IsKeyDown w .A :=
  IsKeyDown_follows_last_callback .A ⟨800, 600⟩ ⟨800, 600⟩ ⟨100, 100⟩ _ (by decide) (by decide)

/-- C20: on a freshly constructed surface, after any history of callbacks and
calls, the record of `Key` has `Pressed` set exactly when the most recent press
or release callback for `Key` was a press, `TimeSincePressed` is then the clock
reading of that press callback and is 0 otherwise; so
`GetTimeSinceKeyPressed(Key)` returns the current clock reading minus that of
the latest press while the key is held, and the plain current clock reading
while it is not. -/
theorem TimeSincePressed_invariant (Key : KeyCodes) (FrameBufferSize Size Position : ivec2)
    (ops : List Op) (hKey : Key.InBounds) (hdef : ∀ op ∈ ops, op.Defined = true) :
    ∃ w, runOps (Window.construct FrameBufferSize Size Position) ops = some w ∧
      ((w.Keys Key).Pressed = false → (w.Keys Key).TimeSincePressed = 0 ∧
        ∀ now : f64, GetTimeSinceKeyPressed w Key now = some now) ∧
      ((w.Keys Key).Pressed = true →
        ∃ e, lastKeyEvent Key none ops = some e ∧ e.isPressOf Key = true ∧
          (w.Keys Key).TimeSincePressed = e.time ∧
          ∀ now : f64, GetTimeSinceKeyPressed w Key now = some (now - e.time)) := by
  obtain ⟨w, hw⟩ := runOps_defined ops (Window.construct FrameBufferSize Size Position) hdef
  refine ⟨w, hw, ?_, ?_⟩
  all_goals
    have hr := runOps_record ops _ w Key hw
    obtain ⟨hP, hT⟩ := recordRun_last Key ops none
      ((Window.construct FrameBufferSize Size Position).Keys Key) rfl rfl
    rw [← hr] at hP hT
    intro hp
    rw [hp] at hP
  · cases hl : lastKeyEvent Key none ops with
    | none =>
      rw [hl] at hT
      simp only [pressTimeBy] at hT
      exact ⟨hT, fun now => by simp [GetTimeSinceKeyPressed, hKey, hT]⟩
    | some e =>
      rw [hl] at hP hT
      simp only [heldBy] at hP
      simp only [pressTimeBy, ← hP, Bool.false_eq_true, if_false] at hT
      exact ⟨hT, fun now => by simp [GetTimeSinceKeyPressed, hKey, hT]⟩
  · cases hl : lastKeyEvent Key none ops with
    | none => rw [hl] at hP; simp [heldBy] at hP
    | some e =>
      rw [hl] at hP hT
      simp only [heldBy] at hP
      simp only [pressTimeBy, ← hP, if_true] at hT
      exact ⟨e, rfl, hP.symm, hT, fun now => by simp [GetTimeSinceKeyPressed, hKey, hT]⟩

/-- C20 witness: key `A` pressed at clock 1, released at 2, pressed at 5 and
queried. -/
theorem TimeSincePressed_invariant_witness :
    ∃ w, runOps (Window.construct ⟨800, 600⟩ ⟨800, 600⟩ ⟨100, 100⟩)
        [Op.Callback (.Key GLFW_KEY_A 0 GLFW_PRESS 0 1),
         Op.Callback (.Key GLFW_KEY_A 0 GLFW_RELEASE 0 2),
         Op.Callback (.Key GLFW_KEY_A 0 GLFW_PRESS 0 5),
         Op.WasKeyJustPressed .A] = some w ∧
      ((w.Keys .A).Pressed = false → (w.Keys .A).TimeSincePressed = 0 ∧
        ∀ now : f64, GetTimeSinceKeyPressed w .A now = some now) ∧
      ((w.Keys .A).Pressed = true →
        ∃ e, lastKeyEvent .A none
            [Op.Callback (.Key GLFW_KEY_A 0 GLFW_PRESS 0 1),
             Op.Callback (.Key GLFW_KEY_A 0 GLFW_RELEASE 0 2),
             Op.Callback (.Key GLFW_KEY_A 0 GLFW_PRESS 0 5),
             Op.WasKeyJustPressed .A] = some e ∧ e.isPressOf .A = true ∧
          (w.Keys .A).TimeSincePressed = e.time ∧
          ∀ now : f64, GetTimeSinceKeyPressed w .A now = some (now - e.time)) :=
  TimeSincePressed_invariant .A ⟨800, 600⟩ ⟨800, 600⟩ ⟨100, 100⟩ _ (by decide) (by decide)

/-- C13: for a key inside the array, `WasKeyJustPressed(Key)` returns `true`
exactly when `Pressed` and `Released` of the record are both set on entry; when
it returns `true` the record has `Released` cleared and nothing else in the
state differs, and when it returns `false` the state is unchanged.
`WasMouseButtonJustPressed` does the same on the mouse-button array. -/
theorem WasJustPressed_effect (w : Window) (Key : KeyCodes) (Button : MouseButtonCodes)
    (hKey : Key.InBounds) (hButton : Button.InBounds) :
    (∃ r w1, WasKeyJustPressed w Key = some (r, w1) ∧
      (r = true ↔ (w.Keys Key).Pressed = true ∧ (w.Keys Key).Released = true) ∧
      (r = true →
        w1.Keys Key = { w.Keys Key with Released := false } ∧
        (∀ Other, Other ≠ Key → w1.Keys Other = w.Keys Other) ∧
        { w1 with Keys := w.Keys } = w) ∧
      (r = false → w1 = w)) ∧
    (∃ r w1, WasMouseButtonJustPressed w Button = some (r, w1) ∧
      (r = true ↔
        (w.MouseButtons Button).Pressed = true ∧ (w.MouseButtons Button).Released = true) ∧
      (r = true →
        w1.MouseButtons Button = { w.MouseButtons Button with Released := false } ∧
        (∀ Other, Other ≠ Button → w1.MouseButtons Other = w.MouseButtons Other) ∧
        { w1 with MouseButtons := w.MouseButtons } = w) ∧
      (r = false → w1 = w)) := by
  constructor
  · by_cases h : ((w.Keys Key).Pressed && (w.Keys Key).Released) = true
    · refine ⟨true, _, by simp only [WasKeyJustPressed, hKey, h, if_true]; rfl, ?_, ?_, ?_⟩
      · simpa using h
      · intro _
        exact ⟨by simp, fun Other hne => by simp [Function.update_noteq hne], rfl⟩
      · intro hc; cases hc
    · refine ⟨false, w, by simp only [WasKeyJustPressed, hKey, h, if_true, if_false]; rfl,
        ?_, ?_, ?_⟩
      · simpa using h
      · intro hc; cases hc
      · intro _; rfl
  · by_cases h : ((w.MouseButtons Button).Pressed && (w.MouseButtons Button).Released) = true
    · refine ⟨true, _, by simp only [WasMouseButtonJustPressed, hButton, h, if_true]; rfl,
        ?_, ?_, ?_⟩
      · simpa using h
      · intro _
        exact ⟨by simp, fun Other hne => by simp [Function.update_noteq hne], rfl⟩
      · intro hc; cases hc
    · refine ⟨false, w,
        by simp only [WasMouseButtonJustPressed, hButton, h, if_true, if_false]; rfl, ?_, ?_, ?_⟩
      · simpa using h
      · intro hc; cases hc
      · intro _; rfl

/-- C13 witness: key `A` after a press callback on a fresh surface, and the left
mouse button of the same surface. -/
theorem WasJustPressed_effect_witness :
    ∃ w, KeyCallBack (Window.construct ⟨800, 600⟩ ⟨800, 600⟩ ⟨100, 100⟩) GLFW_KEY_A 0 GLFW_PRESS 0 1
        = some w ∧
      (∃ r w1, WasKeyJustPressed w .A = some (r, w1) ∧
        (r = true ↔ (w.Keys .A).Pressed = true ∧ (w.Keys .A).Released = true) ∧
        (r = true →
          w1.Keys .A = { w.Keys .A with Released := false } ∧
          (∀ Other, Other ≠ KeyCodes.A → w1.Keys Other = w.Keys Other) ∧
          { w1 with Keys := w.Keys } = w) ∧
        (r = false → w1 = w)) ∧
      (∃ r w1, WasMouseButtonJustPressed w .LeftButton = some (r, w1) ∧
        (r = true ↔ (w.MouseButtons .LeftButton).Pressed = true ∧
          (w.MouseButtons .LeftButton).Released = true) ∧
        (r = true →
          w1.MouseButtons .LeftButton = { w.MouseButtons .LeftButton with Released := false } ∧
          (∀ Other, Other ≠ MouseButtonCodes.LeftButton →
            w1.MouseButtons Other = w.MouseButtons Other) ∧
          { w1 with MouseButtons := w.MouseButtons } = w) ∧
        (r = false → w1 = w)) :=
  ⟨_, rfl, WasJustPressed_effect _ .A .LeftButton (by decide) (by decide)⟩

/-- C14, evaluated at the failing input: with the cached window position
(100, 100), `SetWindowPos((300, 200))` asks the library for position (100, 100);
the sibling `SetWindowSize((300, 200))` asks for size (300, 200). -/
theorem SetWindowPos_at_failing_input :
    SetWindowPos (Window.construct ⟨800, 600⟩ ⟨800, 600⟩ ⟨100, 100⟩) ⟨300, 200⟩
      = .glfwSetWindowPos 100 100 ∧
    SetWindowPos (Window.construct ⟨800, 600⟩ ⟨800, 600⟩ ⟨100, 100⟩) ⟨300, 200⟩
      ≠ .glfwSetWindowPos 300 200 ∧
    SetWindowSize (Window.construct ⟨800, 600⟩ ⟨800, 600⟩ ⟨100, 100⟩) ⟨300, 200⟩
      = .glfwSetWindowSize 300 200 := by
  decide

/-- C15: for a windowed surface, under the stated behaviour of the library,
`ToggleFullscreen; Tick; ToggleFullscreen; Tick` ends windowed with
`GetWindowSize()` and `GetWindowPos()` as before the first toggle: the first
toggle saves them and goes fullscreen, the second requests exactly the saved
values with refresh rate 0. -/
theorem ToggleFullscreen_round_trip (w : Window) (g : GLFWwindow) (Monitor : Nat)
    (VideoMode : GLFWvidmode) (t1 t2 : f64) (hwin : IsFullScreen g = false) :
    ∃ w1 g1 c1 w2 g2 c2,
      toggleThenTick w g Monitor VideoMode t1 = some (w1, g1, c1) ∧
      toggleThenTick w1 g1 Monitor VideoMode t2 = some (w2, g2, c2) ∧
      w1.LastWindowedSize = w.Size ∧ w1.LastWindowedPosition = w.Position ∧
      IsFullScreen g1 = true ∧
      c2 = .glfwSetWindowMonitor none w.Position.x w.Position.y w.Size.x w.Size.y 0 ∧
      IsFullScreen g2 = false ∧
      (GetWindowSize w2).1 = w.Size ∧ (GetWindowPos w2).1 = w.Position := by
  have h1 : ToggleFullscreen w g Monitor VideoMode
      = ({ w with LastWindowedPosition := w.Position, LastWindowedSize := w.Size },
          .glfwSetWindowMonitor (some Monitor) 0 0 VideoMode.width VideoMode.height
            VideoMode.refreshRate) := by
    simp [ToggleFullscreen, hwin, GetWindowPos, GetWindowSize]
  have e1 : ∃ w1, toggleThenTick w g Monitor VideoMode t1
      = some (w1, ⟨some Monitor, g.ShouldClose⟩,
          .glfwSetWindowMonitor (some Monitor) 0 0 VideoMode.width VideoMode.height
            VideoMode.refreshRate) ∧
      w1.LastWindowedSize = w.Size ∧ w1.LastWindowedPosition = w.Position := by
    simp only [toggleThenTick, h1, GLFWwindow.handle, Tick, glfwPollEvents, Event.deliver]
    exact ⟨_, rfl, rfl, rfl⟩
  obtain ⟨w1, hw1, hs1, hp1⟩ := e1
  have e2 : ∃ w2, toggleThenTick w1 ⟨some Monitor, g.ShouldClose⟩ Monitor VideoMode t2
      = some (w2, ⟨none, g.ShouldClose⟩,
          .glfwSetWindowMonitor none w1.LastWindowedPosition.x w1.LastWindowedPosition.y
            w1.LastWindowedSize.x w1.LastWindowedSize.y 0) ∧
      w2.Size = w1.LastWindowedSize ∧ w2.Position = w1.LastWindowedPosition := by
    simp only [toggleThenTick, ToggleFullscreen, IsFullScreen, Option.isSome_some, if_true,
      GLFWwindow.handle, Tick, glfwPollEvents, Event.deliver]
    exact ⟨_, rfl, rfl, rfl⟩
  obtain ⟨w2, hw2, hs2, hp2⟩ := e2
  refine ⟨w1, _, _, w2, _, _, hw1, hw2, hs1, hp1, rfl, ?_, rfl, ?_, ?_⟩
  · rw [hs1, hp1]
  · simp only [GetWindowSize, hs2, hs1]
  · simp only [GetWindowPos, hp2, hp1]

/-- C15 witness: the surface of size (800, 600) at (100, 100) on a 1920 by 1080
monitor at 60 Hz. -/
theorem ToggleFullscreen_round_trip_witness :
    ∃ w1 g1 c1 w2 g2 c2,
      toggleThenTick (Window.construct ⟨800, 600⟩ ⟨800, 600⟩ ⟨100, 100⟩) ⟨none, false⟩ 1
        ⟨1920, 1080, 60⟩ 1 = some (w1, g1, c1) ∧
      toggleThenTick w1 g1 1 ⟨1920, 1080, 60⟩ 2 = some (w2, g2, c2) ∧
      w1.LastWindowedSize = (Window.construct ⟨800, 600⟩ ⟨800, 600⟩ ⟨100, 100⟩).Size ∧
      w1.LastWindowedPosition = (Window.construct ⟨800, 600⟩ ⟨800, 600⟩ ⟨100, 100⟩).Position ∧
      IsFullScreen g1 = true ∧
      c2 = .glfwSetWindowMonitor none
        (Window.construct ⟨800, 600⟩ ⟨800, 600⟩ ⟨100, 100⟩).Position.x
        (Window.construct ⟨800, 600⟩ ⟨800, 600⟩ ⟨100, 100⟩).Position.y
        (Window.construct ⟨800, 600⟩ ⟨800, 600⟩ ⟨100, 100⟩).Size.x
        (Window.construct ⟨800, 600⟩ ⟨800, 600⟩ ⟨100, 100⟩).Size.y 0 ∧
      IsFullScreen g2 = false ∧
      (GetWindowSize w2).1 = (Window.construct ⟨800, 600⟩ ⟨800, 600⟩ ⟨100, 100⟩).Size ∧
      (GetWindowPos w2).1 = (Window.construct ⟨800, 600⟩ ⟨800, 600⟩ ⟨100, 100⟩).Position :=
  ToggleFullscreen_round_trip _ ⟨none, false⟩ 1 ⟨1920, 1080, 60⟩ 1 2 rfl

/-- A delivered event leaves the frame-timing members and the close request as
they were. -/
theorem deliver_frame (w w1 : Window) (e : Event) (h : e.deliver w = some w1) :
    w1.DeltaTime = w.DeltaTime ∧ w1.LastFrameTime = w.LastFrameTime ∧
      w1.PendingClose = w.PendingClose := by
  cases e with
  | Key n sc a m t =>
    simp only [Event.deliver, KeyCallBack] at h
    split_ifs at h <;> cases h <;> exact ⟨rfl, rfl, rfl⟩
  | MouseButton b a m t =>
    simp only [Event.deliver, MouseButtonCallBack] at h
    split at h
    · cases h
    · split_ifs at h <;> cases h <;> exact ⟨rfl, rfl, rfl⟩
  | _ =>
    simp only [Event.deliver] at h
    cases h
    exact ⟨rfl, rfl, rfl⟩

theorem glfwPollEvents_frame (evs : List Event) (w w1 : Window)
    (h : glfwPollEvents w evs = some w1) :
    w1.DeltaTime = w.DeltaTime ∧ w1.LastFrameTime = w.LastFrameTime ∧
      w1.PendingClose = w.PendingClose := by
  induction evs generalizing w with
  | nil => simp only [glfwPollEvents, Option.some.injEq] at h; subst h; exact ⟨rfl, rfl, rfl⟩
  | cons e rest ih =>
    simp only [glfwPollEvents] at h
    cases h1 : e.deliver w with
    | none => rw [h1] at h; cases h
    | some w2 =>
      rw [h1] at h
      obtain ⟨a1, a2, a3⟩ := deliver_frame w w2 e h1
      obtain ⟨b1, b2, b3⟩ := ih w2 h
      exact ⟨b1.trans a1, b2.trans a2, b3.trans a3⟩

/-- A step other than the start of a `Tick` leaves the frame-timing members as
they were; no step withdraws a close request. -/
theorem apply_frame (w w1 : Window) (op : Op) (h : op.apply w = some w1) :
    (op.isTick = false →
      w1.DeltaTime = w.DeltaTime ∧ w1.LastFrameTime = w.LastFrameTime) ∧
    (w.PendingClose = true → w1.PendingClose = true) := by
  cases op with
  | Callback e =>
    obtain ⟨a1, a2, a3⟩ := deliver_frame w w1 e h
    exact ⟨fun _ => ⟨a1, a2⟩, fun hp => a3.trans hp⟩
  | TickPrologue t =>
    simp only [Op.apply, Option.some.injEq] at h
    subst h
    exact ⟨fun hc => by simp [Op.isTick] at hc, fun hp => hp⟩
  | WasKeyJustPressed Other =>
    simp only [Op.apply, WasKeyJustPressed] at h
    split_ifs at h <;> simp only [Option.map_some', Option.some.injEq, Option.map_none'] at h
      <;> first | (subst h; exact ⟨fun _ => ⟨rfl, rfl⟩, fun hp => hp⟩) | cases h
  | WasMouseButtonJustPressed b =>
    simp only [Op.apply, WasMouseButtonJustPressed] at h
    split_ifs at h <;> simp only [Option.map_some', Option.some.injEq, Option.map_none'] at h
      <;> first | (subst h; exact ⟨fun _ => ⟨rfl, rfl⟩, fun hp => hp⟩) | cases h
  | Close =>
    simp only [Op.apply, Option.some.injEq] at h
    subst h
    exact ⟨fun _ => ⟨rfl, rfl⟩, fun _ => rfl⟩

theorem runOps_frame (ops : List Op) (w w1 : Window) (h : runOps w ops = some w1) :
    ((∀ op ∈ ops, op.isTick = false) →
      w1.DeltaTime = w.DeltaTime ∧ w1.LastFrameTime = w.LastFrameTime) ∧
    (w.PendingClose = true → w1.PendingClose = true) := by
  induction ops generalizing w with
  | nil =>
    simp only [runOps, Option.some.injEq] at h
    subst h
    exact ⟨fun _ => ⟨rfl, rfl⟩, fun hp => hp⟩
  | cons op rest ih =>
    simp only [runOps] at h
    cases h1 : op.apply w with
    | none => rw [h1] at h; cases h
    | some w2 =>
      rw [h1] at h
      obtain ⟨a1, a2⟩ := apply_frame w w2 op h1
      obtain ⟨b1, b2⟩ := ih w2 h
      refine ⟨fun hall => ?_, fun hp => b2 (a2 hp)⟩
      obtain ⟨c1, c2⟩ := a1 (hall op (List.mem_cons_self _ _))
      obtain ⟨d1, d2⟩ := b1 (fun o ho => hall o (List.mem_cons_of_mem _ ho))
      exact ⟨d1.trans c1, d2.trans c2⟩

/-- C16: after a `Tick`, `DeltaTime` is the clock reading sampled in it minus
`LastFrameTime` on entry, and `LastFrameTime` is that reading; callbacks and
calls between two `Tick`s change neither, so `GetDeltaTime()` after the later
`Tick` is its clock reading minus that of the earlier `Tick`. -/
theorem Tick_DeltaTime (w : Window) (t1 t2 : f64) (evs1 evs2 : List Event) (mid : List Op)
    (h1 : ∀ e ∈ evs1, e.Defined = true) (h2 : ∀ e ∈ evs2, e.Defined = true)
    (hmid : ∀ op ∈ mid, op.Defined = true) (hnotick : ∀ op ∈ mid, op.isTick = false) :
    ∃ w1 w2 w3,
      Tick w t1 evs1 = some w1 ∧
      w1.DeltaTime = t1 - w.LastFrameTime ∧ w1.LastFrameTime = t1 ∧
      runOps w1 mid = some w2 ∧
      w2.DeltaTime = w1.DeltaTime ∧ w2.LastFrameTime = w1.LastFrameTime ∧
      Tick w2 t2 evs2 = some w3 ∧
      (GetDeltaTime w3).1 = t2 - t1 ∧ (GetDeltaTime w3).2 = w3 := by
  obtain ⟨w1, hw1⟩ := Tick_defined evs1 w t1 h1
  obtain ⟨w2, hw2⟩ := runOps_defined mid w1 hmid
  obtain ⟨w3, hw3⟩ := Tick_defined evs2 w2 t2 h2
  obtain ⟨a1, a2, _⟩ := glfwPollEvents_frame evs1 _ w1 hw1
  obtain ⟨b1, b2⟩ := (runOps_frame mid w1 w2 hw2).1 hnotick
  obtain ⟨c1, _, _⟩ := glfwPollEvents_frame evs2 _ w3 hw3
  have a1' : w1.DeltaTime = t1 - w.LastFrameTime := a1
  have a2' : w1.LastFrameTime = t1 := a2
  have c1' : w3.DeltaTime = t2 - w2.LastFrameTime := c1
  refine ⟨w1, w2, w3, hw1, a1', a2', hw2, b1, b2, hw3, ?_, rfl⟩
  simp only [GetDeltaTime, c1', b2, a2']

/-- C16 witness: `Tick`s at clock readings 3/2 and 4 with a key press, a scroll
and a query in between. -/
theorem Tick_DeltaTime_witness :
    ∃ w1 w2 w3,
      Tick (Window.construct ⟨800, 600⟩ ⟨800, 600⟩ ⟨100, 100⟩) (3 / 2)
        [.Key GLFW_KEY_A 0 GLFW_PRESS 0 1] = some w1 ∧
      w1.DeltaTime = 3 / 2 - (Window.construct ⟨800, 600⟩ ⟨800, 600⟩ ⟨100, 100⟩).LastFrameTime ∧
      w1.LastFrameTime = 3 / 2 ∧
      runOps w1 [Op.WasKeyJustPressed .A, Op.Callback (.Scroll 1 0), Op.Close] = some w2 ∧
      w2.DeltaTime = w1.DeltaTime ∧ w2.LastFrameTime = w1.LastFrameTime ∧
      Tick w2 4 [.CursorPosition 5 3] = some w3 ∧
      (GetDeltaTime w3).1 = 4 - 3 / 2 ∧ (GetDeltaTime w3).2 = w3 :=
  Tick_DeltaTime _ (3 / 2) 4 _ _ _ (by decide) (by decide) (by decide) (by decide)

/-- C17: `ShouldClose()` returns `true` exactly when the library's close flag or
`PendingClose` is set on entry; with `PendingClose` set the call leaves the
library's flag set; and after `Close()`, whatever callbacks and calls follow
and whatever the library's flag is by then, `ShouldClose()` returns `true`. -/
theorem ShouldClose_iff (w : Window) (g : GLFWwindow) (ops : List Op)
    (hdef : ∀ op ∈ ops, op.Defined = true) :
    ((ShouldClose w g).1 = true ↔ g.ShouldClose = true ∨ w.PendingClose = true) ∧
    (w.PendingClose = true → (ShouldClose w g).2.ShouldClose = true) ∧
    ∃ w1, runOps (Close w) ops = some w1 ∧
      ∀ g1 : GLFWwindow, (ShouldClose w1 g1).1 = true := by
  refine ⟨?_, ?_, ?_⟩
  · by_cases hp : w.PendingClose = true
    · simp [ShouldClose, hp, GLFWwindow.handle]
    · simp [ShouldClose, hp]
  · intro hp
    simp [ShouldClose, hp, GLFWwindow.handle]
  · obtain ⟨w1, hw1⟩ := runOps_defined ops (Close w) hdef
    refine ⟨w1, hw1, fun g1 => ?_⟩
    have hp := (runOps_frame ops (Close w) w1 hw1).2 rfl
    simp [ShouldClose, hp, GLFWwindow.handle]

/-- C17 witness: a fresh surface, `Close()`, then a `Tick` start, a key press and
a query. -/
theorem ShouldClose_iff_witness :
    ((ShouldClose (Window.construct ⟨800, 600⟩ ⟨800, 600⟩ ⟨100, 100⟩) ⟨none, false⟩).1 = true ↔
      (GLFWwindow.mk none false).ShouldClose = true ∨
        (Window.construct ⟨800, 600⟩ ⟨800, 600⟩ ⟨100, 100⟩).PendingClose = true) ∧
    ((Window.construct ⟨800, 600⟩ ⟨800, 600⟩ ⟨100, 100⟩).PendingClose = true →
      (ShouldClose (Window.construct ⟨800, 600⟩ ⟨800, 600⟩ ⟨100, 100⟩)
        ⟨none, false⟩).2.ShouldClose = true) ∧
    ∃ w1, runOps (Close (Window.construct ⟨800, 600⟩ ⟨800, 600⟩ ⟨100, 100⟩))
        [Op.TickPrologue 1, Op.Callback (.Key GLFW_KEY_A 0 GLFW_PRESS 0 1),
         Op.WasKeyJustPressed .A] = some w1 ∧
      ∀ g1 : GLFWwindow, (ShouldClose w1 g1).1 = true :=
  ShouldClose_iff _ ⟨none, false⟩ _ (by decide)

/-- C18, evaluated at the failing input: for the native identifier of the eighth
mouse button `ConvertGLFWMouseButton` has no `case` label and no `return`, so
the conversion and with it the mouse-button callback are undefined; for the
identifiers 0 to 6 the result is one of the seven codes, inside the array. -/
theorem ConvertGLFWMouseButton_at_failing_input :
    GLFW_MOUSE_BUTTON_8 = 7 ∧
    ConvertGLFWMouseButton GLFW_MOUSE_BUTTON_8 = none ∧
    MouseButtonCallBack (Window.construct ⟨800, 600⟩ ⟨800, 600⟩ ⟨100, 100⟩)
      GLFW_MOUSE_BUTTON_8 GLFW_PRESS 0 1 = none ∧
    ∀ b ∈ [(0 : Int), 1, 2, 3, 4, 5, 6],
      ∃ Code, ConvertGLFWMouseButton b = some Code ∧ Code.InBounds := by
  refine ⟨rfl, rfl, rfl, ?_⟩
  intro b hb
  simp only [List.mem_cons, List.mem_singleton, List.not_mem_nil, or_false] at hb
  rcases hb with h | h | h | h | h | h | h <;> subst h <;> exact ⟨_, rfl, by decide⟩

theorem lookup_eq_none {β : Type} (a : Int) (l : List (Int × β))
    (h : a ∉ l.map Prod.fst) : List.lookup a l = none := by
  induction l with
  | nil => rfl
  | cons x xs ih =>
    obtain ⟨k, v⟩ := x
    simp only [List.map_cons, List.mem_cons, not_or] at h
    have hk : (a == k) = false := by simpa using h.1
    simp only [List.lookup, hk]
    exact ih h.2

/-- C19: a native key that is not among the `case` labels of `ConvertGLFWKey` is
converted to `UnknownKey`. The key callback for it is defined, updates the
record of `UnknownKey` (on press `Pressed` is set and `TimeSincePressed` is the
clock reading, on release the record becomes not pressed, released, time 0, on
any other action nothing changes) and changes no other record and no other
member. For every integer the converted code is below `NumKeyCodes`, inside the
`Keys` array. -/
theorem ConvertGLFWKey_unknown (GLFWKey : Int)
    (hnot : GLFWKey ∉ ConvertGLFWKeyCases.map Prod.fst) :
    ConvertGLFWKey GLFWKey = .UnknownKey ∧
    (∀ (w : Window) (Scancode Action Mods : Int) (t : f64),
      ∃ w1, KeyCallBack w GLFWKey Scancode Action Mods t = some w1 ∧
        (Action = GLFW_PRESS →
          w1.Keys .UnknownKey
            = { w.Keys .UnknownKey with Pressed := true, TimeSincePressed := t }) ∧
        (Action = GLFW_RELEASE →
          w1.Keys .UnknownKey = { Pressed := false, Released := true, TimeSincePressed := 0 }) ∧
        (Action ≠ GLFW_PRESS → Action ≠ GLFW_RELEASE → w1 = w) ∧
        (∀ Other, Other ≠ KeyCodes.UnknownKey → w1.Keys Other = w.Keys Other) ∧
        { w1 with Keys := w.Keys } = w) ∧
    ∀ n : Int, (ConvertGLFWKey n).toCtorIdx < KeyCodes.NumKeyCodes.toCtorIdx := by
  have hU : ConvertGLFWKey GLFWKey = .UnknownKey := by
    simp only [ConvertGLFWKey, lookup_eq_none GLFWKey _ hnot]
  refine ⟨hU, ?_, ConvertGLFWKey_inBounds⟩
  intro w sc a m t
  have hb : KeyCodes.UnknownKey.InBounds := by decide
  have hpr : ¬ (GLFW_PRESS = GLFW_RELEASE) := by decide
  simp only [KeyCallBack, hU, hb, if_true]
  split_ifs with h1 h2
  · refine ⟨_, rfl, fun _ => by simp, fun hr => ?_, fun hc => absurd h1 hc,
      fun Other hne => by simp [Function.update_noteq hne], rfl⟩
    exact absurd (h1.symm.trans hr) hpr
  · exact ⟨_, rfl, fun hc => absurd hc h1, fun _ => by simp, fun _ hc => absurd h2 hc,
      fun Other hne => by simp [Function.update_noteq hne], rfl⟩
  · exact ⟨_, rfl, fun hc => absurd hc h1, fun hc => absurd hc h2, fun _ _ => rfl,
      fun _ _ => rfl, rfl⟩

set_option maxRecDepth 100000 in
/-- C19 witness: the native key 7, which has no `case` label. -/
theorem ConvertGLFWKey_unknown_witness :
    ConvertGLFWKey 7 = .UnknownKey ∧
    (∀ (w : Window) (Scancode Action Mods : Int) (t : f64),
      ∃ w1, KeyCallBack w 7 Scancode Action Mods t = some w1 ∧
        (Action = GLFW_PRESS →
          w1.Keys .UnknownKey
            = { w.Keys .UnknownKey with Pressed := true, TimeSincePressed := t }) ∧
        (Action = GLFW_RELEASE →
          w1.Keys .UnknownKey = { Pressed := false, Released := true, TimeSincePressed := 0 }) ∧
        (Action ≠ GLFW_PRESS → Action ≠ GLFW_RELEASE → w1 = w) ∧
        (∀ Other, Other ≠ KeyCodes.UnknownKey → w1.Keys Other = w.Keys Other) ∧
        { w1 with Keys := w.Keys } = w) ∧
    ∀ n : Int, (ConvertGLFWKey n).toCtorIdx < KeyCodes.NumKeyCodes.toCtorIdx :=
  ConvertGLFWKey_unknown 7 (by decide)

/-! ## Name tables, setter routing, cursor delta and the released invariant -/

set_option maxRecDepth 1000000 in
theorem keyNames_nodup : (keyCodeTable.map GetKeyName).Nodup := by
  decide

set_option maxRecDepth 100000 in
theorem mem_keyCodeTable (Key : KeyCodes) : Key ∈ keyCodeTable ↔ Key.InBounds := by
  cases Key <;> decide

set_option maxRecDepth 100000 in
theorem GetKeyName_eq_empty (Key : KeyCodes) : GetKeyName Key = "" ↔ ¬ Key.InBounds := by
  cases Key <;> decide

theorem GetMouseButtonName_eq_empty (Button : MouseButtonCodes) :
    GetMouseButtonName Button = "" ↔ ¬ Button.InBounds := by
  cases Button <;> decide

theorem mem_mouseButtonCodeTable (Button : MouseButtonCodes) :
    Button ∈ mouseButtonCodeTable ↔ Button.InBounds := by
  cases Button <;> decide

theorem mouseButtonNames_nodup : (mouseButtonCodeTable.map GetMouseButtonName).Nodup := by
  decide

/-- C22: `GetKeyName(Key)` is the empty string exactly when `Key` is outside the
key table (the size sentinel `NumKeyCodes`); for a code inside the table the
name is non-empty and no other code has it. `GetMouseButtonName` is the empty
string exactly when the code is outside the seven button codes, and the seven
names are distinct too. -/
theorem GetKeyName_table (Key Other : KeyCodes) (Button OtherButton : MouseButtonCodes) :
    (GetKeyName Key = "" ↔ Key = .NumKeyCodes) ∧
    (GetKeyName Key = "" ↔ ¬ Key.InBounds) ∧
    (Key.InBounds → GetKeyName Key = GetKeyName Other → Key = Other) ∧
    (GetMouseButtonName Button = "" ↔ Button = .NumMouseButtonCodes) ∧
    (GetMouseButtonName Button = "" ↔ Button ∉ mouseButtonCodeTable) ∧
    (Button.InBounds → GetMouseButtonName Button = GetMouseButtonName OtherButton →
      Button = OtherButton) := by
  refine ⟨?_, GetKeyName_eq_empty Key, ?_, ?_, ?_, ?_⟩
  · rw [GetKeyName_eq_empty]
    cases Key <;> decide
  · intro hKey heq
    have hO : Other.InBounds := by
      by_contra hc
      have h1 := (GetKeyName_eq_empty Other).2 hc
      rw [h1] at heq
      exact ((GetKeyName_eq_empty Key).1 heq) hKey
    exact List.inj_on_of_nodup_map keyNames_nodup ((mem_keyCodeTable Key).2 hKey)
      ((mem_keyCodeTable Other).2 hO) heq
  · rw [GetMouseButtonName_eq_empty]
    cases Button <;> decide
  · rw [GetMouseButtonName_eq_empty, mem_mouseButtonCodeTable]
  · intro hB heq
    have hO : OtherButton.InBounds := by
      by_contra hc
      have h1 := (GetMouseButtonName_eq_empty OtherButton).2 hc
      rw [h1] at heq
      exact ((GetMouseButtonName_eq_empty Button).1 heq) hB
    exact List.inj_on_of_nodup_map mouseButtonNames_nodup ((mem_mouseButtonCodeTable Button).2 hB)
      ((mem_mouseButtonCodeTable OtherButton).2 hO) heq

/-- C22 witness: the sentinel, key `A` against itself, and the left mouse button. -/
theorem GetKeyName_table_witness :
    GetKeyName .NumKeyCodes = "" ∧
    (GetKeyName .A = GetKeyName .A → KeyCodes.A = .A) ∧
    (GetMouseButtonName .LeftButton = GetMouseButtonName .LeftButton →
      MouseButtonCodes.LeftButton = .LeftButton) :=
  ⟨(GetKeyName_table .NumKeyCodes .A .LeftButton .Button7).1.2 rfl,
    (GetKeyName_table .A .A .LeftButton .LeftButton).2.2.1 (by decide),
    (GetKeyName_table .A .A .LeftButton .LeftButton).2.2.2.2.2 (by decide)⟩

theorem setterId_injective (T1 T2 : UniformType) (h : T1.setterId = T2.setterId) : T1 = T2 := by
  cases T1 <;> cases T2 <;> first | rfl | (exact absurd h (by decide))

/-- C21: for every supported value the typed `SetUniform` calls the setter of the
value's family and shape at the given location: scalars and vectors go to the
by-value setter of their family with the components passed in the order x, y,
z, w, a matrix `matCxR` goes to the matrix setter of shape C by R with count 1,
transpose false and the matrix's own data; two values are routed to the same
setter exactly when they have the same type. The array overload picks the
pointer setter of the same family and shape. -/
theorem SetUniform_routes_by_type (Location Location2 : Int) (Value Value2 : UniformValue)
    (T : UniformType) (Values : Nat) (Count : Int) :
    (ShaderProgram.SetUniformLocation Location Value).setterId? = some Value.type.setterId ∧
    (ShaderProgram.SetUniformLocation Location Value).location? = some Location ∧
    (ShaderProgram.SetUniformLocation Location Value).values
      = (if Value.type.family = .matrix then [] else Value.components) ∧
    (ShaderProgram.SetUniformLocation Location Value).matrixArguments?
      = (if Value.type.family = .matrix then some (1, false, .value_ptr Value.components)
         else none) ∧
    ((ShaderProgram.SetUniformLocation Location Value).setterId?
        = (ShaderProgram.SetUniformLocation Location2 Value2).setterId? ↔
      Value.type = Value2.type) ∧
    (ShaderProgram.SetUniformLocationv Location T Values Count).setterId?
      = some ⟨T.family, T.columns, T.rows, true⟩ := by
  have hid : ∀ (l : Int) (v : UniformValue),
      (ShaderProgram.SetUniformLocation l v).setterId? = some v.type.setterId := by
    intro l v; cases v <;> rfl
  refine ⟨hid _ _, ?_, ?_, ?_, ?_, ?_⟩
  · cases Value <;> rfl
  · cases Value <;> rfl
  · cases Value <;> rfl
  · rw [hid, hid]
    constructor
    · intro h
      exact setterId_injective _ _ (Option.some.inj h)
    · intro h; rw [h]
  · cases T <;> rfl

theorem deliver_MouseDelta (w w1 : Window) (e : Event) (h : e.deliver w = some w1) :
    w1.MouseDelta = w.MouseDelta := by
  cases e with
  | Key n sc a m t =>
    simp only [Event.deliver, KeyCallBack] at h
    split_ifs at h <;> cases h <;> rfl
  | MouseButton b a m t =>
    simp only [Event.deliver, MouseButtonCallBack] at h
    split at h
    · cases h
    · split_ifs at h <;> cases h <;> rfl
  | _ =>
    simp only [Event.deliver] at h
    cases h
    rfl

theorem glfwPollEvents_MouseDelta (evs : List Event) (w w1 : Window)
    (h : glfwPollEvents w evs = some w1) : w1.MouseDelta = w.MouseDelta := by
  induction evs generalizing w with
  | nil => simp only [glfwPollEvents, Option.some.injEq] at h; subst h; rfl
  | cons e rest ih =>
    simp only [glfwPollEvents] at h
    cases h1 : e.deliver w with
    | none => rw [h1] at h; cases h
    | some w2 =>
      rw [h1] at h
      exact (ih w2 h).trans (deliver_MouseDelta w w2 e h1)

theorem TickPrologue_MouseDelta (w : Window) (t : f64) :
    (TickPrologue w t).MouseDelta = ⟨0, 0⟩ := by
  simp [TickPrologue, dvec2.sub_def]

theorem apply_MouseDelta (w w1 : Window) (op : Op) (h : op.apply w = some w1)
    (hz : w.MouseDelta = ⟨0, 0⟩) : w1.MouseDelta = ⟨0, 0⟩ := by
  cases op with
  | Callback e => exact (deliver_MouseDelta w w1 e h).trans hz
  | TickPrologue t =>
    simp only [Op.apply, Option.some.injEq] at h
    subst h
    exact TickPrologue_MouseDelta w t
  | WasKeyJustPressed Other =>
    simp only [Op.apply, WasKeyJustPressed] at h
    split_ifs at h <;> simp only [Option.map_some', Option.some.injEq, Option.map_none'] at h
      <;> first | (subst h; exact hz) | cases h
  | WasMouseButtonJustPressed b =>
    simp only [Op.apply, WasMouseButtonJustPressed] at h
    split_ifs at h <;> simp only [Option.map_some', Option.some.injEq, Option.map_none'] at h
      <;> first | (subst h; exact hz) | cases h
  | Close =>
    simp only [Op.apply, Option.some.injEq] at h
    subst h
    exact hz

theorem runOps_MouseDelta (ops : List Op) (w w1 : Window) (h : runOps w ops = some w1)
    (hz : w.MouseDelta = ⟨0, 0⟩) : w1.MouseDelta = ⟨0, 0⟩ := by
  induction ops generalizing w with
  | nil => simp only [runOps, Option.some.injEq] at h; subst h; exact hz
  | cons op rest ih =>
    simp only [runOps] at h
    cases h1 : op.apply w with
    | none => rw [h1] at h; cases h
    | some w2 =>
      rw [h1] at h
      exact ih w2 h (apply_MouseDelta w w2 op h1 hz)

/-- C23: on a freshly constructed surface, after any history of callbacks, `Tick`
starts and calls, `GetMouseDelta()` returns (0, 0); and from any state at all,
`GetMouseDelta()` after a `Tick` returns (0, 0), however the cursor callbacks
moved the cursor before or during that `Tick`. -/
theorem GetMouseDelta_always_zero (FrameBufferSize Size Position : ivec2) (ops : List Op)
    (w0 : Window) (t : f64) (evs : List Event)
    (hdef : ∀ op ∈ ops, op.Defined = true) (hevs : ∀ e ∈ evs, e.Defined = true) :
    (∃ w, runOps (Window.construct FrameBufferSize Size Position) ops = some w ∧
      (GetMouseDelta w).1 = ⟨0, 0⟩ ∧ (GetMouseDelta w).2 = w) ∧
    ∃ w1, Tick w0 t evs = some w1 ∧ (GetMouseDelta w1).1 = ⟨0, 0⟩ := by
  constructor
  · obtain ⟨w, hw⟩ := runOps_defined ops (Window.construct FrameBufferSize Size Position) hdef
    exact ⟨w, hw, runOps_MouseDelta ops _ w hw rfl, rfl⟩
  · obtain ⟨w1, hw1⟩ := Tick_defined evs w0 t hevs
    refine ⟨w1, hw1, ?_⟩
    have := glfwPollEvents_MouseDelta evs _ w1 hw1
    simp only [GetMouseDelta, this]
    exact TickPrologue_MouseDelta w0 t

/-- C23 witness: the cursor is moved from (2, 2) to (5, 3) between two `Tick`
starts; and a `Tick` on a state whose cursor position (5, 3) differs from the
last one (2, 2), with a cursor callback during its polling. -/
theorem GetMouseDelta_always_zero_witness :
    (∃ w, runOps (Window.construct ⟨800, 600⟩ ⟨800, 600⟩ ⟨100, 100⟩)
        [Op.Callback (.CursorPosition 2 2), Op.TickPrologue 1,
         Op.Callback (.CursorPosition 5 3), Op.TickPrologue 2] = some w ∧
      (GetMouseDelta w).1 = ⟨0, 0⟩ ∧ (GetMouseDelta w).2 = w) ∧
    ∃ w1, Tick { Window.construct ⟨800, 600⟩ ⟨800, 600⟩ ⟨100, 100⟩ with
              MousePosition := ⟨5, 3⟩, LastMousePosition := ⟨2, 2⟩ } 1
          [.CursorPosition 9 9] = some w1 ∧
      (GetMouseDelta w1).1 = ⟨0, 0⟩ :=
  GetMouseDelta_always_zero _ _ _ _ _ 1 _ (by decide) (by decide)

theorem deliver_ReleasedWhenUp (w w1 : Window) (e : Event) (h : e.deliver w = some w1)
    (hinv : w.ReleasedWhenUp) : w1.ReleasedWhenUp := by
  obtain ⟨hk, hb⟩ := hinv
  cases e with
  | Key n sc a m t =>
    simp only [Event.deliver, KeyCallBack] at h
    split_ifs at h <;> cases h
    · refine ⟨fun Key hp => ?_, hb⟩
      by_cases hc : Key = ConvertGLFWKey n
      · subst hc; simp at hp
      · simp only [Function.update_noteq hc] at hp ⊢; exact hk Key hp
    · refine ⟨fun Key hp => ?_, hb⟩
      by_cases hc : Key = ConvertGLFWKey n
      · subst hc; simp
      · simp only [Function.update_noteq hc] at hp ⊢; exact hk Key hp
    · exact ⟨hk, hb⟩
  | MouseButton b a m t =>
    simp only [Event.deliver, MouseButtonCallBack] at h
    split at h
    · cases h
    · rename_i Code _
      split_ifs at h <;> cases h
      · refine ⟨hk, fun Button hp => ?_⟩
        by_cases hc : Button = Code
        · subst hc; simp at hp
        · simp only [Function.update_noteq hc] at hp ⊢; exact hb Button hp
      · refine ⟨hk, fun Button hp => ?_⟩
        by_cases hc : Button = Code
        · subst hc; simp
        · simp only [Function.update_noteq hc] at hp ⊢; exact hb Button hp
      · exact ⟨hk, hb⟩
  | _ =>
    simp only [Event.deliver] at h
    cases h
    exact ⟨hk, hb⟩

theorem apply_ReleasedWhenUp (w w1 : Window) (op : Op) (h : op.apply w = some w1)
    (hinv : w.ReleasedWhenUp) : w1.ReleasedWhenUp := by
  cases op with
  | Callback e => exact deliver_ReleasedWhenUp w w1 e h hinv
  | TickPrologue t =>
    simp only [Op.apply, Option.some.injEq] at h
    subst h
    exact hinv
  | WasKeyJustPressed Other =>
    obtain ⟨hk, hb⟩ := hinv
    simp only [Op.apply, WasKeyJustPressed] at h
    split_ifs at h with h1 h2
    · simp only [Option.map_some', Option.some.injEq] at h
      subst h
      simp only [Bool.and_eq_true] at h2
      refine ⟨fun Key hp => ?_, hb⟩
      by_cases hc : Key = Other
      · subst hc; simp [h2.1] at hp
      · simp only [Function.update_noteq hc] at hp ⊢; exact hk Key hp
    · simp only [Option.map_some', Option.some.injEq] at h
      subst h
      exact ⟨hk, hb⟩
    · simp only [Option.map_none'] at h
      cases h
  | WasMouseButtonJustPressed Other =>
    obtain ⟨hk, hb⟩ := hinv
    simp only [Op.apply, WasMouseButtonJustPressed] at h
    split_ifs at h with h1 h2
    · simp only [Option.map_some', Option.some.injEq] at h
      subst h
      simp only [Bool.and_eq_true] at h2
      refine ⟨hk, fun Button hp => ?_⟩
      by_cases hc : Button = Other
      · subst hc; simp [h2.1] at hp
      · simp only [Function.update_noteq hc] at hp ⊢; exact hb Button hp
    · simp only [Option.map_some', Option.some.injEq] at h
      subst h
      exact ⟨hk, hb⟩
    · simp only [Option.map_none'] at h
      cases h
  | Close =>
    simp only [Op.apply, Option.some.injEq] at h
    subst h
    exact hinv

theorem runOps_ReleasedWhenUp (ops : List Op) (w w1 : Window) (h : runOps w ops = some w1)
    (hinv : w.ReleasedWhenUp) : w1.ReleasedWhenUp := by
  induction ops generalizing w with
  | nil => simp only [runOps, Option.some.injEq] at h; subst h; exact hinv
  | cons op rest ih =>
    simp only [runOps] at h
    cases h1 : op.apply w with
    | none => rw [h1] at h; cases h
    | some w2 =>
      rw [h1] at h
      exact ih w2 h (apply_ReleasedWhenUp w w2 op h1 hinv)

/-- C24: on a freshly constructed surface, after any history of callbacks (press,
release, repeat, in any order) and calls, every key record and every
mouse-button record that is not pressed has `Released` set. Hence a press
callback for a key that is not pressed leaves its record with `Pressed` and
`Released` both set, and the next `WasKeyJustPressed` for that key returns
`true`. -/
theorem released_when_not_pressed (FrameBufferSize Size Position : ivec2) (ops : List Op)
    (hdef : ∀ op ∈ ops, op.Defined = true) :
    ∃ w, runOps (Window.construct FrameBufferSize Size Position) ops = some w ∧
      (∀ Key, (w.Keys Key).Pressed = false → (w.Keys Key).Released = true) ∧
      (∀ Button, (w.MouseButtons Button).Pressed = false →
        (w.MouseButtons Button).Released = true) ∧
      ∀ (NativeKey Scancode Mods : Int) (t : f64),
        (w.Keys (ConvertGLFWKey NativeKey)).Pressed = false →
        ∃ w1 w2, KeyCallBack w NativeKey Scancode GLFW_PRESS Mods t = some w1 ∧
          (w1.Keys (ConvertGLFWKey NativeKey)).Pressed = true ∧
          (w1.Keys (ConvertGLFWKey NativeKey)).Released = true ∧
          WasKeyJustPressed w1 (ConvertGLFWKey NativeKey) = some (true, w2) := by
  obtain ⟨w, hw⟩ := runOps_defined ops (Window.construct FrameBufferSize Size Position) hdef
  have hfresh : (Window.construct FrameBufferSize Size Position).ReleasedWhenUp :=
    ⟨fun _ _ => rfl, fun _ _ => rfl⟩
  obtain ⟨hk, hb⟩ := runOps_ReleasedWhenUp ops _ w hw hfresh
  refine ⟨w, hw, hk, hb, ?_⟩
  intro n sc m t hp
  have hin := ConvertGLFWKey_inBounds n
  have hr := hk _ hp
  obtain ⟨w1, hw1⟩ := deliver_defined w (.Key n sc GLFW_PRESS m t) rfl
  have hs := deliver_slot w w1 (.Key n sc GLFW_PRESS m t) (ConvertGLFWKey n) hw1
  have hpress : (Event.Key n sc GLFW_PRESS m t).isPressOf (ConvertGLFWKey n) = true := by
    simp [Event.isPressOf]
  simp only [slot, slotAfter, hpress, if_true, Prod.mk.injEq] at hs
  obtain ⟨hP, hR⟩ := hs
  rw [hr] at hR
  have h2 : ∃ w2, WasKeyJustPressed w1 (ConvertGLFWKey n) = some (true, w2) := by
    simp only [WasKeyJustPressed, hin, if_true, hP, hR, Bool.and_self]
    exact ⟨_, rfl⟩
  obtain ⟨w2, hw2⟩ := h2
  exact ⟨w1, w2, hw1, hP, hR, hw2⟩

/-- C24 witness: release before any press, repeat, press, query, release, and a
mouse button pressed and queried. -/
theorem released_when_not_pressed_witness :
    ∃ w, runOps (Window.construct ⟨800, 600⟩ ⟨800, 600⟩ ⟨100, 100⟩)
        [Op.Callback (.Key GLFW_KEY_A 0 GLFW_RELEASE 0 1),
         Op.Callback (.Key GLFW_KEY_A 0 GLFW_REPEAT 0 2),
         Op.Callback (.Key GLFW_KEY_A 0 GLFW_PRESS 0 3),
         Op.WasKeyJustPressed .A,
         Op.Callback (.Key GLFW_KEY_A 0 GLFW_RELEASE 0 4),
         Op.Callback (.MouseButton GLFW_MOUSE_BUTTON_LEFT GLFW_PRESS 0 5),
         Op.WasMouseButtonJustPressed .LeftButton] = some w ∧
      (∀ Key, (w.Keys Key).Pressed = false → (w.Keys Key).Released = true) ∧
      (∀ Button, (w.MouseButtons Button).Pressed = false →
        (w.MouseButtons Button).Released = true) ∧
      ∀ (NativeKey Scancode Mods : Int) (t : f64),
        (w.Keys (ConvertGLFWKey NativeKey)).Pressed = false →
        ∃ w1 w2, KeyCallBack w NativeKey Scancode GLFW_PRESS Mods t = some w1 ∧
          (w1.Keys (ConvertGLFWKey NativeKey)).Pressed = true ∧
          (w1.Keys (ConvertGLFWKey NativeKey)).Released = true ∧
          WasKeyJustPressed w1 (ConvertGLFWKey NativeKey) = some (true, w2) :=
  released_when_not_pressed _ _ _ _ (by decide)

end Base
